import Mathlib

/-!
# xmemtft: colour codecs, orientation addressing, scroll position, JPEG block blitter

A shallow embedding of the colour-depth specialisations
(`ILI9325Colour16Specialisation.h`, `LDS285Colour24Specialisation.h`), of the
orientation specialisations (`LDS285PortraitSpecialisation.h`,
`LDS285LandscapeSpecialisation.h`, `MC2PA8201PortraitSpecialisation.h`) with the panel
traits tables (`Nokia6300_TypeC.h`, `NokiaN93_TypeA.h`), and of the block blitter
(`JpegDecoder.h`).

Conventions.
* `uint8_t` / `uint32_t` values are natural numbers; every assignment to a
  `uint8_t` is an explicit `u8` (reduction modulo 256).
* `int16_t` / `int` values are integers; the target is an AVR, where `int` is 16
  bits wide.  In the orientation classes, whose sums end up as bytes on the bus, the
  sums are wrapped by `wrap16`; the arithmetic of `JpegDecoder::decode` is embedded
  exactly (see its section).
* The class templates call static members of `TAccessMode`.  An operation is
  embedded as the list of calls it makes, in order.
-/

namespace lcd

/-! ## Machine integers -/

/-- Conversion of an unsigned value to `uint8_t`. -/
def u8 (n : Nat) : Nat := n % 256

/-- Conversion of a signed value to `uint8_t` (two's complement, modulo 256). -/
def u8i (v : Int) : Nat := (v % 256).toNat

/-- Wrap of a signed value to the 16-bit `int` / `int16_t` range of the AVR. -/
def wrap16 (v : Int) : Int := (v + 32768) % 65536 - 32768

/-! ## Calls made on the access mode -/

/-- One call made by driver code: the static members of `TAccessMode`
(`writeCommand`, `writeData`, `writeMultiData`, `writeStreamedData`) and the
Arduino runtime's `delay`. -/
inductive Call where
  | writeCommand (command : Nat)
  | writeData (data : Nat)
  | writeMultiData (howMuch lo8 hi8 : Nat)
  | writeStreamedData (data : Nat)
  | delay (ms : Nat)
  deriving DecidableEq, Repr

/-- Recognises a per-transaction `writeData` call. -/
def Call.isWriteData : Call → Bool
  | .writeData _ => true
  | _ => false

/-- Recognises a `writeCommand` call. -/
def Call.isWriteCommand : Call → Bool
  | .writeCommand _ => true
  | _ => false

/-- Recognises a bulk `writeMultiData` call. -/
def Call.isWriteMultiData : Call → Bool
  | .writeMultiData _ _ _ => true
  | _ => false

/-! ## 16-bit colour codec: `ILI9325Colour<COLOURS_16BIT,TAccessMode>` -/

namespace ILI9325Colour16

/-- The struct `UnpackedColour { uint8_t first,second; }`. -/
structure UnpackedColour where
  first : Nat
  second : Nat
  deriving DecidableEq, Repr

/-- The overload `unpackColour(uint8_t red,uint8_t green,uint8_t blue,UnpackedColour& dest)`. -/
def unpackColourParts (red green blue : Nat) : UnpackedColour :=
  let red := red &&& 0xf8
  let green := green &&& 0xfc
  let blue := blue &&& 0xf8
  { first := u8 (red ||| (green >>> 5))
    second := u8 ((green <<< 3) ||| (blue >>> 3)) }

/-- The overload `unpackColour(TColour src,UnpackedColour& dest)`; `TColour` is `uint32_t`. -/
def unpackColour (src : Nat) : UnpackedColour :=
  let r := u8 (src >>> 16)
  let g := u8 (src >>> 8)
  let b := u8 src
  let r := r &&& 0xf8
  let g := g &&& 0xfc
  let b := b &&& 0xf8
  { first := u8 (r ||| (g >>> 5))
    second := u8 ((g <<< 3) ||| (b >>> 3)) }

/-- The member `writePixel(const UnpackedColour& cr)`. -/
def writePixel (cr : UnpackedColour) : List Call :=
  [Call.writeData cr.first, Call.writeData cr.second]

/-- The loop `while(numPixels--) { writeData(first); writeData(second); }` of `fillPixels`. -/
def fillLoop (first second : Nat) : Nat → List Call
  | 0 => []
  | numPixels + 1 =>
      Call.writeData first :: Call.writeData second :: fillLoop first second numPixels

/-- The member `fillPixels(uint32_t numPixels,const UnpackedColour& cr)`; the opcode
`ILI932X_RW_GRAM` is defined outside the files at hand and is a parameter. -/
def fillPixels (ILI932X_RW_GRAM : Nat) (numPixels : Nat) (cr : UnpackedColour) : List Call :=
  Call.writeCommand ILI932X_RW_GRAM :: fillLoop cr.first cr.second numPixels

/-- The member `getBytesPerPixel()`. -/
def getBytesPerPixel : Nat := 2

end ILI9325Colour16

/-! ## 24-bit colour codec: `LDS285Colour<COLOURS_24BIT,TAccessMode,TPanelTraits>` -/

namespace LDS285Colour24

/-- The struct `UnpackedColour { uint8_t r,g,b; }`. -/
structure UnpackedColour where
  r : Nat
  g : Nat
  b : Nat
  deriving DecidableEq, Repr

/-- The overload `unpackColour(TColour src,UnpackedColour& dest)`. -/
def unpackColour (src : Nat) : UnpackedColour :=
  { r := u8 ((src >>> 16) &&& 0xff)
    g := u8 ((src >>> 8) &&& 0xff)
    b := u8 (src &&& 0xff) }

/-- The overload `unpackColour(uint8_t red,uint8_t green,uint8_t blue,UnpackedColour& dest)`. -/
def unpackColourParts (red green blue : Nat) : UnpackedColour :=
  { r := red, g := green, b := blue }

/-- The member `writePixel(const UnpackedColour& cr)`. -/
def writePixel (cr : UnpackedColour) : List Call :=
  [Call.writeData cr.r, Call.writeData cr.g, Call.writeData cr.b]

/-- The loop `while(numPixels--) { writeData(r); writeData(g); writeData(b); }` of `fillPixels`. -/
def fillLoop (r g b : Nat) : Nat → List Call
  | 0 => []
  | numPixels + 1 =>
      Call.writeData r :: Call.writeData g :: Call.writeData b :: fillLoop r g b numPixels

/-- The member `fillPixels(uint32_t numPixels,const UnpackedColour& cr)`; the opcode
`lds285::MEMORY_WRITE` is defined outside the files at hand and is a parameter. -/
def fillPixels (MEMORY_WRITE : Nat) (numPixels : Nat) (cr : UnpackedColour) : List Call :=
  Call.writeCommand MEMORY_WRITE :: fillLoop cr.r cr.g cr.b numPixels

/-- The member `getBytesPerPixel()`. -/
def getBytesPerPixel : Nat := 3

end LDS285Colour24

/-- Bits 23..16 of a packed colour value: the red channel. -/
def redOf (src : Nat) : Nat := (src >>> 16) % 256

/-- Bits 15..8 of a packed colour value: the green channel. -/
def greenOf (src : Nat) : Nat := (src >>> 8) % 256

/-- Bits 7..0 of a packed colour value: the blue channel. -/
def blueOf (src : Nat) : Nat := src % 256

/-- The packed colour value `(a << 24) | (r << 16) | (g << 8) | b`. -/
def packColour (a r g b : Nat) : Nat := (a <<< 24) ||| (r <<< 16) ||| (g <<< 8) ||| b

/-- The RGB565 word `((R >> 3) << 11) | ((G >> 2) << 5) | (B >> 3)` of three channels. -/
def rgb565 (R G B : Nat) : Nat := ((R >>> 3) <<< 11) ||| ((G >>> 2) <<< 5) ||| (B >>> 3)

/-- Re-expansion of a 16-bit unpacked pair to 8 bits per channel, as the round-trip
property words it: `R = first & 0xF8`, `G = ((first & 0x07) << 5) | ((second >> 5) << 2)`,
`B = (second & 0x1F) << 3`. -/
def reexpand565 (c : ILI9325Colour16.UnpackedColour) : Nat × Nat × Nat :=
  (c.first &&& 0xF8,
   ((c.first &&& 0x07) <<< 5) ||| ((c.second >>> 5) <<< 2),
   (c.second &&& 0x1F) <<< 3)

/-- The number of `writeData` calls in a trace. -/
def dataCount (t : List Call) : Nat := (t.filter Call.isWriteData).length

/-- The number of `writeCommand` calls in a trace. -/
def commandCount (t : List Call) : Nat := (t.filter Call.isWriteCommand).length

/-- The opcodes of the `writeCommand` calls of a trace, in order. -/
def commandsOf : List Call → List Nat
  | [] => []
  | Call.writeCommand c :: t => c :: commandsOf t
  | _ :: t => commandsOf t

/-! ## Orientation / geometry -/

/-- The enum `Orientation`. -/
inductive Orientation where
  | PORTRAIT
  | LANDSCAPE
  deriving DecidableEq, Repr

/-- Modelled from the spec: the struct `Rectangle`, declared outside the files at hand:
an origin `X`, `Y` and a `Width`, `Height`.  The code here passes its fields where
`int16_t` is expected, so they are signed. -/
structure Rectangle where
  X : Int
  Y : Int
  Width : Int
  Height : Int
  deriving DecidableEq, Repr

/-- The expression `v & 0xff` on a two's-complement `int`: its low eight bits. -/
def andFF (v : Int) : Int := v % 256

namespace lds285

/-- Modelled from the spec: the opcode constants of namespace `lds285`, whose header is
outside the files at hand.  Only the names used by the code are listed. -/
structure Opcodes where
  COLUMN_ADDRESS_SET : Nat
  ROW_ADDRESS_SET : Nat
  MEMORY_WRITE : Nat
  VERTICAL_SCROLLING_START_ADDRESS : Nat
  WRITE_DISPLAY_BRIGHTNESS : Nat
  deriving DecidableEq, Repr

/-- Modelled from the spec: the Panel Traits class the LDS285 orientation is composed
with is outside the files at hand; these are the two members `moveTo` calls, each a
template over the orientation. -/
structure PanelTraits where
  getColumnAddressCommand : Orientation → Nat
  getRowAddressCommand : Orientation → Nat

end lds285

namespace mc2pa8201

/-- Modelled from the spec: the opcode constants of namespace `mc2pa8201`, whose header
is outside the files at hand.  Only the names used by the code are listed. -/
structure Opcodes where
  COLUMN_ADDRESS_SET : Nat
  PAGE_ADDRESS_SET : Nat
  VERTICAL_SCROLLING_START_ADDRESS : Nat
  deriving DecidableEq, Repr

/-- The interface of a `TPanelTraits` class of the MC2PA8201 family, as declared by
`Nokia6300_TypeC` and `NokiaN93_TypeA`. -/
structure PanelTraits where
  normaliseScrollPosition : Int → Int
  getColumnAddressCommand : Orientation → Nat
  getPageAddressCommand : Orientation → Nat
  getMemoryAccessControl : Orientation → Nat
  hasHardwareScrolling : Orientation → Bool
  getScrollHeight : Nat

end mc2pa8201

/-! ### `LDS285Orientation<PORTRAIT,TAccessMode,TPanelTraits>` -/

namespace LDS285OrientationPortrait

/-- The member `getWidth()`. -/
def getWidth : Int := 240

/-- The member `getHeight()`. -/
def getHeight : Int := 320

/-- The member `moveTo(const Rectangle& rc)`. -/
def moveTo (T : lds285.PanelTraits) (rc : Rectangle) : List Call :=
  [ Call.writeCommand (T.getColumnAddressCommand Orientation.PORTRAIT),
    Call.writeData (u8i 0),
    Call.writeData (u8i rc.X),
    Call.writeData (u8i 0),
    Call.writeData (u8i (wrap16 (rc.X + rc.Width - 1))),
    Call.writeCommand (T.getRowAddressCommand Orientation.PORTRAIT),
    Call.writeData (u8i (rc.Y >>> (8 : Nat))),
    Call.writeData (u8i (andFF rc.Y)),
    Call.writeData (u8i (wrap16 (rc.Y + rc.Height - 1) >>> (8 : Nat))),
    Call.writeData (u8i (andFF (wrap16 (rc.Y + rc.Height - 1)))) ]

end LDS285OrientationPortrait

/-! ### `LDS285Orientation<LANDSCAPE,TAccessMode,TPanelTraits>` -/

namespace LDS285OrientationLandscape

/-- The member `getWidth()`. -/
def getWidth : Int := 320

/-- The member `getHeight()`. -/
def getHeight : Int := 240

/-- The member `moveTo(const Rectangle& rc)`; the template parameter `TPanelTraits`
is not consulted. -/
def moveTo (k : lds285.Opcodes) (_T : lds285.PanelTraits) (rc : Rectangle) : List Call :=
  [ Call.writeCommand k.COLUMN_ADDRESS_SET,
    Call.writeData (u8i (rc.X >>> (8 : Nat))),
    Call.writeData (u8i (andFF rc.X)),
    Call.writeData (u8i (wrap16 (rc.X + rc.Width - 1) >>> (8 : Nat))),
    Call.writeData (u8i (andFF (wrap16 (rc.X + rc.Width - 1)))),
    Call.writeCommand k.ROW_ADDRESS_SET,
    Call.writeData (u8i 0),
    Call.writeData (u8i rc.Y),
    Call.writeData (u8i 0),
    Call.writeData (u8i (wrap16 (rc.Y + rc.Height - 1))) ]

end LDS285OrientationLandscape

/-! ### `MC2PA8201Orientation<PORTRAIT,TAccessMode,TPanelTraits>`

The class declares `moveTo(const Rectangle& rc)` and does not define it: the definition
that follows `getHeight()` in `MC2PA8201PortraitSpecialisation.h` is written for the
class `ILI9325Orientation<PORTRAIT,TAccessMode>`, which the header does not declare.
The members embedded here are the ones the class defines. -/

namespace MC2PA8201OrientationPortrait

/-- The member `getWidth()`. -/
def getWidth : Int := 240

/-- The member `getHeight()`. -/
def getHeight : Int := 320

/-- The member `moveTo(int16_t xstart,int16_t ystart,int16_t xend,int16_t yend)`; the
template parameter `TPanelTraits` is not consulted. -/
def moveToXY (k : mc2pa8201.Opcodes) (_T : mc2pa8201.PanelTraits)
    (xstart ystart xend yend : Int) : List Call :=
  [ Call.writeCommand k.COLUMN_ADDRESS_SET,
    Call.writeData (u8i 0),
    Call.writeData (u8i xstart),
    Call.writeData (u8i 0),
    Call.writeData (u8i xend),
    Call.writeCommand k.PAGE_ADDRESS_SET,
    Call.writeData (u8i (ystart >>> (8 : Nat))),
    Call.writeData (u8i (andFF ystart)),
    Call.writeData (u8i (yend >>> (8 : Nat))),
    Call.writeData (u8i (andFF yend)) ]

end MC2PA8201OrientationPortrait

/-! ### Reading an addressing window back from a trace -/

/-- The high byte of a 16-bit value. -/
def hi (v : Int) : Nat := (v % 65536 / 256).toNat

/-- The low byte of a 16-bit value. -/
def lo (v : Int) : Nat := (v % 256).toNat

/-- The ten transactions of an addressing window as the geometry contract words them:
the column command with the bounds `X`, `X+Width-1`, then the row/page command with the
bounds `Y`, `Y+Height-1`, each bound as high byte then low byte. -/
def windowCalls (columnCommand rowCommand : Nat) (rc : Rectangle) : List Call :=
  [ Call.writeCommand columnCommand,
    Call.writeData (hi rc.X), Call.writeData (lo rc.X),
    Call.writeData (hi (rc.X + rc.Width - 1)), Call.writeData (lo (rc.X + rc.Width - 1)),
    Call.writeCommand rowCommand,
    Call.writeData (hi rc.Y), Call.writeData (lo rc.Y),
    Call.writeData (hi (rc.Y + rc.Height - 1)), Call.writeData (lo (rc.Y + rc.Height - 1)) ]

/-- A rectangle of at least one pixel lying fully inside a `w` by `h` canvas. -/
def Rectangle.inside (rc : Rectangle) (w h : Int) : Prop :=
  0 ≤ rc.X ∧ 0 ≤ rc.Y ∧ 1 ≤ rc.Width ∧ 1 ≤ rc.Height ∧
    rc.X + rc.Width ≤ w ∧ rc.Y + rc.Height ≤ h

/-- An address pair read back from the four data bytes that follow an address command,
as 16-bit big-endian `(start, end)` values, with the rest of the trace. -/
def readPair : List Call → Option ((Nat × Nat) × List Call)
  | Call.writeCommand _ :: Call.writeData a :: Call.writeData b :: Call.writeData c ::
      Call.writeData d :: rest => some ((a * 256 + b, c * 256 + d), rest)
  | _ => none

/-- The two address pairs of a `moveTo` trace: column pair, then row/page pair. -/
def readWindow (t : List Call) : Option ((Nat × Nat) × (Nat × Nat)) :=
  match readPair t with
  | some (p, rest) =>
    match readPair rest with
    | some (q, []) => some (p, q)
    | _ => none
  | none => none

/-- Both address pairs of a trace are read back and satisfy `start <= end`. -/
def windowOrdered (t : List Call) : Bool :=
  match readWindow t with
  | some (p, q) => decide (p.1 ≤ p.2) && decide (q.1 ≤ q.2)
  | none => false

/-- A rectangle with 16-bit signed fields, a non-negative origin and at least one pixel
in each direction. -/
def Rectangle.positive (rc : Rectangle) : Prop :=
  0 ≤ rc.X ∧ 0 ≤ rc.Y ∧ 1 ≤ rc.Width ∧ 1 ≤ rc.Height ∧
    rc.X ≤ 32767 ∧ rc.Y ≤ 32767 ∧ rc.Width ≤ 32767 ∧ rc.Height ≤ 32767

/-- A concrete LDS285 traits table reporting the opcodes `0x2A` and `0x2B`. -/
def sampleTraits : lds285.PanelTraits :=
  { getColumnAddressCommand := fun _ => 0x2A
    getRowAddressCommand := fun _ => 0x2B }

/-- Concrete LDS285 opcode values, for evaluating traces. -/
def sampleOpcodes : lds285.Opcodes :=
  { COLUMN_ADDRESS_SET := 0x2A
    ROW_ADDRESS_SET := 0x2B
    MEMORY_WRITE := 0x2C
    VERTICAL_SCROLLING_START_ADDRESS := 0x37
    WRITE_DISPLAY_BRIGHTNESS := 0x51 }

/-- Concrete MC2PA8201 opcode values, for evaluating traces. -/
def sampleOpcodesMC : mc2pa8201.Opcodes :=
  { COLUMN_ADDRESS_SET := 0x2A
    PAGE_ADDRESS_SET := 0x2B
    VERTICAL_SCROLLING_START_ADDRESS := 0x37 }

/-- A traits table of a panel that exchanges the two address opcodes, in the manner of
`Nokia6300_TypeC::getColumnAddressCommand<LANDSCAPE>`; used as a concrete composition. -/
def swappedTraits (k : mc2pa8201.Opcodes) : mc2pa8201.PanelTraits :=
  { normaliseScrollPosition := fun p => p
    getColumnAddressCommand := fun _ => k.PAGE_ADDRESS_SET
    getPageAddressCommand := fun _ => k.COLUMN_ADDRESS_SET
    getMemoryAccessControl := fun _ => 0xc0
    hasHardwareScrolling := fun _ => true
    getScrollHeight := 320 }

/-! ## Scroll position -/

namespace LDS285OrientationPortrait

/-- The pull-into-range step of `setScrollPosition(int16_t scrollPosition)`:
`if(scrollPosition<0) scrollPosition+=320; else if(scrollPosition>319) scrollPosition-=320;`. -/
def pullIntoRange (scrollPosition : Int) : Int :=
  if scrollPosition < 0 then wrap16 (scrollPosition + 320)
  else if scrollPosition > 319 then wrap16 (scrollPosition - 320)
  else scrollPosition

/-- The member `setScrollPosition(int16_t scrollPosition)`. -/
def setScrollPosition (k : lds285.Opcodes) (scrollPosition : Int) : List Call :=
  let scrollPosition := pullIntoRange scrollPosition
  (if scrollPosition = 0 then [Call.delay 0] else []) ++
    [ Call.writeCommand k.VERTICAL_SCROLLING_START_ADDRESS,
      Call.writeData (u8i (scrollPosition >>> (8 : Nat))),
      Call.writeData (u8i (andFF scrollPosition)) ]

end LDS285OrientationPortrait

namespace LDS285OrientationLandscape

/-- The pull-into-range step of `setScrollPosition(int16_t scrollPosition)`:
`if(scrollPosition<0) scrollPosition+=320; else if(scrollPosition>319) scrollPosition-=320;`. -/
def pullIntoRange (scrollPosition : Int) : Int :=
  if scrollPosition < 0 then wrap16 (scrollPosition + 320)
  else if scrollPosition > 319 then wrap16 (scrollPosition - 320)
  else scrollPosition

/-- The member `setScrollPosition(int16_t scrollPosition)`. -/
def setScrollPosition (k : lds285.Opcodes) (scrollPosition : Int) : List Call :=
  let scrollPosition := pullIntoRange scrollPosition
  (if scrollPosition = 0 then [Call.delay 0] else []) ++
    [ Call.writeCommand k.VERTICAL_SCROLLING_START_ADDRESS,
      Call.writeData (u8i (scrollPosition >>> (8 : Nat))),
      Call.writeData (u8i (andFF scrollPosition)) ]

end LDS285OrientationLandscape

namespace MC2PA8201OrientationPortrait

/-- The pull-into-range step of `setScrollPosition(int16_t scrollPosition)`:
`if(scrollPosition<0) scrollPosition+=getScrollHeight();
else if(scrollPosition>=static_cast<int16_t>(getScrollHeight())) scrollPosition-=getScrollHeight();`
with the `uint16_t` scroll height of the traits; the sums are stored back as `int16_t`. -/
def pullIntoRange (T : mc2pa8201.PanelTraits) (scrollPosition : Int) : Int :=
  if scrollPosition < 0 then wrap16 (scrollPosition + T.getScrollHeight)
  else if scrollPosition ≥ wrap16 T.getScrollHeight then
    wrap16 (scrollPosition - T.getScrollHeight)
  else scrollPosition

/-- The member `setScrollPosition(int16_t scrollPosition)`. -/
def setScrollPosition (k : mc2pa8201.Opcodes) (T : mc2pa8201.PanelTraits)
    (scrollPosition : Int) : List Call :=
  if T.hasHardwareScrolling Orientation.PORTRAIT then
    let scrollPosition := pullIntoRange T scrollPosition
    let scrollPosition := T.normaliseScrollPosition scrollPosition
    (if scrollPosition = 0 then [Call.delay 0] else []) ++
      [ Call.writeCommand k.VERTICAL_SCROLLING_START_ADDRESS,
        Call.writeData (u8i (scrollPosition >>> (8 : Nat))),
        Call.writeData (u8i (andFF scrollPosition)) ]
  else []

end MC2PA8201OrientationPortrait

/-! ### Panel traits tables -/

/-- The class `Nokia6300_TypeC`.  The header defines the two address-command getters
for `LANDSCAPE` only; their values for `PORTRAIT` are the parameters `portraitColumn`,
`portraitPage`. -/
def Nokia6300_TypeC (k : mc2pa8201.Opcodes) (portraitColumn portraitPage : Nat) :
    mc2pa8201.PanelTraits :=
  { normaliseScrollPosition := fun scrollPosition =>
      if scrollPosition ≠ 0 then wrap16 (320 - scrollPosition) else 0
    getColumnAddressCommand := fun o =>
      match o with
      | Orientation.LANDSCAPE => k.PAGE_ADDRESS_SET
      | Orientation.PORTRAIT => portraitColumn
    getPageAddressCommand := fun o =>
      match o with
      | Orientation.LANDSCAPE => k.COLUMN_ADDRESS_SET
      | Orientation.PORTRAIT => portraitPage
    getMemoryAccessControl := fun o =>
      match o with
      | Orientation.PORTRAIT => 0xc0
      | Orientation.LANDSCAPE => 0xa0
    hasHardwareScrolling := fun _ => true
    getScrollHeight := 320 }

/-- The class `NokiaN93_TypeA`.  The header defines the two address-command getters
for `LANDSCAPE` only; their values for `PORTRAIT` are the parameters `portraitColumn`,
`portraitPage`. -/
def NokiaN93_TypeA (k : mc2pa8201.Opcodes) (portraitColumn portraitPage : Nat) :
    mc2pa8201.PanelTraits :=
  { normaliseScrollPosition := fun scrollPosition => scrollPosition
    getColumnAddressCommand := fun o =>
      match o with
      | Orientation.LANDSCAPE => k.COLUMN_ADDRESS_SET
      | Orientation.PORTRAIT => portraitColumn
    getPageAddressCommand := fun o =>
      match o with
      | Orientation.LANDSCAPE => k.PAGE_ADDRESS_SET
      | Orientation.PORTRAIT => portraitPage
    getMemoryAccessControl := fun o =>
      match o with
      | Orientation.PORTRAIT => 0x50
      | Orientation.LANDSCAPE => 0x60
    hasHardwareScrolling := fun _ => false
    getScrollHeight := 320 }

/-! ## JPEG block blitter: `JpegDecoder::decode`

The `int` arithmetic of `decode` is embedded exactly: C leaves signed overflow
undefined, so the embedding describes the executions in which every intermediate value
is representable.  `tLCD` is the composed device driver; `decode` is embedded as the
list of `tLCD` operations it performs, for any colour type and component unpack. -/

/-- Modelled from the spec: the struct `Point`, declared outside the files at hand: the
origin `X`, `Y` at which an image is placed. -/
structure Point where
  X : Int
  Y : Int
  deriving DecidableEq, Repr

/-- Modelled from the spec: the colour-plane layout of the decoded image, either
single-plane grayscale or three separate planes; `decode` only tests it against
`PJPG_GRAYSCALE`. -/
inductive ScanType where
  | PJPG_GRAYSCALE
  | threePlane
  deriving DecidableEq, Repr

/-- Modelled from the spec: the image information `pjpeg_image_info_t` filled by
decoder initialisation, declared outside the files at hand; these are the fields
`decode` reads, all of type `int`. -/
structure ImageInfo where
  m_width : Int
  m_height : Int
  m_MCUSPerRow : Int
  m_MCUSPerCol : Int
  m_scanType : ScanType
  m_MCUWidth : Int
  m_MCUHeight : Int
  deriving DecidableEq, Repr

/-- The contents of the three sample buffers `m_pMCUBufR`, `m_pMCUBufG`, `m_pMCUBufB`
after a `pjpeg_decode_mcu` call, by offset. -/
structure MCUBuffers where
  R : Nat → Nat
  G : Nat → Nat
  B : Nat → Nat

/-- One operation performed on the device driver `tLCD` by `decode`; `writePixel`
carries the colour that `unpackColourParts` produced just before it. -/
inductive LcdOp (C : Type) where
  | moveTo (rc : Rectangle)
  | beginWriting
  | writePixel (cr : C)
  deriving DecidableEq, Repr

/-- The rectangles of the `moveTo` operations of a trace, in order. -/
def movedTo {C : Type} : List (LcdOp C) → List Rectangle
  | [] => []
  | LcdOp.moveTo rc :: t => rc :: movedTo t
  | _ :: t => movedTo t

/-- The colours of the `writePixel` operations of a trace, in order. -/
def pixelsOf {C : Type} : List (LcdOp C) → List C
  | [] => []
  | LcdOp.writePixel cr :: t => cr :: pixelsOf t
  | _ :: t => pixelsOf t

namespace JpegDecoder

/-- The values taken by the variable of a loop `for(int v=0;v<limit;v+=8)`:
`0, 8, 16, ...` below `limit`. -/
def loop8 (limit : Int) : List Nat :=
  (List.range ((limit + 7) / 8).toNat).map (fun i => 8 * i)

/-- The grayscale inner loop `for(int bx=0;bx < bx_limit;bx++)`, for the `n` iterations
it makes from the offset `p` of `pSrcR`: unpack `(*pSrcR,*pSrcR,*pSrcR)`, write the
pixel, advance `pSrcR`. -/
def grayRow {C : Type} (unpack : Nat → Nat → Nat → C) (b : MCUBuffers) :
    Nat → Nat → List (LcdOp C)
  | 0, _ => []
  | n + 1, p => LcdOp.writePixel (unpack (b.R p) (b.R p) (b.R p)) :: grayRow unpack b n (p + 1)

/-- The grayscale outer loop `for(int by=0;by<by_limit;by++)`, for the `n` iterations it
makes: one row of `bx_limit` pixels (none when `bx_limit` is not positive), then
`pSrcR+=(8-bx_limit)`. -/
def grayRows {C : Type} (unpack : Nat → Nat → Nat → C) (b : MCUBuffers) (bx_limit : Int) :
    Nat → Nat → List (LcdOp C)
  | 0, _ => []
  | n + 1, p =>
      grayRow unpack b bx_limit.toNat p ++
        grayRows unpack b bx_limit n (p + bx_limit.toNat + (8 - bx_limit).toNat)

/-- The three-plane inner loop `for(int bx=0;bx<bx_limit;bx++)`, for the `n` iterations
it makes from the offset `p`: the three pointers start at the same offset and advance
together. -/
def colourRow {C : Type} (unpack : Nat → Nat → Nat → C) (b : MCUBuffers) :
    Nat → Nat → List (LcdOp C)
  | 0, _ => []
  | n + 1, p =>
      LcdOp.writePixel (unpack (b.R p) (b.G p) (b.B p)) :: colourRow unpack b n (p + 1)

/-- The three-plane outer loop `for(int by=0;by<by_limit;by++)`, for the `n` iterations
it makes. -/
def colourRows {C : Type} (unpack : Nat → Nat → Nat → C) (b : MCUBuffers) (bx_limit : Int) :
    Nat → Nat → List (LcdOp C)
  | 0, _ => []
  | n + 1, p =>
      colourRow unpack b bx_limit.toNat p ++
        colourRows unpack b bx_limit n (p + bx_limit.toNat + (8 - bx_limit).toNat)

/-- The body of the loop over `x`: the 8x8 sub-block at offset `(x, y)` of the MCU at
block column `mcu_x`, block row `mcu_y`. -/
def blitSubBlock {C : Type} (unpack : Nat → Nat → Nat → C) (info : ImageInfo)
    (b : MCUBuffers) (pt : Point) (mcu_x mcu_y : Int) (y x : Nat) : List (LcdOp C) :=
  let by_limit : Int := min 8 (info.m_height - (mcu_y * info.m_MCUHeight + y))
  let src_ofs : Nat := (x * 8 + y * 16) % 65536
  let bx_limit : Int := min 8 (info.m_width - (mcu_x * info.m_MCUWidth + x))
  LcdOp.moveTo
      ⟨pt.X + mcu_x * info.m_MCUWidth, pt.Y + mcu_y * info.m_MCUHeight, bx_limit, by_limit⟩ ::
    LcdOp.beginWriting ::
    (match info.m_scanType with
     | ScanType.PJPG_GRAYSCALE => grayRows unpack b bx_limit by_limit.toNat src_ofs
     | ScanType.threePlane => colourRows unpack b bx_limit by_limit.toNat src_ofs)

/-- The two loops `for(int y=0;y<m_MCUHeight;y+=8)`, `for(int x=0;x<m_MCUWidth;x+=8)`
over the sub-blocks of one decoded MCU. -/
def blitMcu {C : Type} (unpack : Nat → Nat → Nat → C) (info : ImageInfo)
    (b : MCUBuffers) (pt : Point) (mcu_x mcu_y : Int) : List (LcdOp C) :=
  (loop8 info.m_MCUHeight).flatMap fun y =>
    (loop8 info.m_MCUWidth).flatMap fun x =>
      blitSubBlock unpack info b pt mcu_x mcu_y y x

/-- The result of a run of `decode`: the operations performed on the device and the
number of `pjpeg_decode_mcu` calls made. -/
structure Result (C : Type) where
  output : List (LcdOp C)
  mcuCalls : Nat

/-- The loop `for(;;)` of `decode`, cut at `fuel` iterations.  `mcu k` is the outcome
of the call number `k` (from 0) of `pjpeg_decode_mcu`: its status and the buffers it
fills; `k` counts the calls made so far. -/
def decodeLoop {C : Type} (unpack : Nat → Nat → Nat → C) (info : ImageInfo)
    (mcu : Nat → Nat × MCUBuffers) (pt : Point) :
    Nat → Nat → Int → Int → Option (Result C)
  | 0, _, _, _ => none
  | fuel + 1, k, mcu_x, mcu_y =>
      if (mcu k).1 ≠ 0 then some ⟨[], k + 1⟩
      else if mcu_y ≥ info.m_MCUSPerCol then some ⟨[], k + 1⟩
      else
        let ops := blitMcu unpack info (mcu k).2 pt mcu_x mcu_y
        let mcu_x := mcu_x + 1
        let rest :=
          if mcu_x = info.m_MCUSPerRow then decodeLoop unpack info mcu pt fuel (k + 1) 0 (mcu_y + 1)
          else decodeLoop unpack info mcu pt fuel (k + 1) mcu_x mcu_y
        rest.map fun r => ⟨ops ++ r.output, r.mcuCalls⟩

/-- The member `decode(const Point& pt,JpegDataSource& ds)`.  `init` is the outcome of
`pjpeg_decode_init`: its status and the image information it fills. -/
def decode {C : Type} (unpack : Nat → Nat → Nat → C) (init : Nat × ImageInfo)
    (mcu : Nat → Nat × MCUBuffers) (pt : Point) (fuel : Nat) : Option (Result C) :=
  if init.1 ≠ 0 then some ⟨[], 0⟩
  else decodeLoop unpack init.2 mcu pt fuel 0 0 0

end JpegDecoder

/-- The number of blocks blitted out of `total` when the status of call `k` of the
per-block decoder is `status k`: the length of the run of successful calls, at most
`total`. -/
def okPrefix (status : Nat → Nat) : Nat → Nat
  | 0 => 0
  | t + 1 => if okPrefix status t = t ∧ status t = 0 then t + 1 else okPrefix status t

/-- A per-block decoder that delivers `n` blocks of samples `i % 256` and then reports
the status 1. -/
def deliver (n : Nat) : Nat → Nat × MCUBuffers :=
  fun k => (if k < n then 0 else 1, ⟨fun i => i % 256, fun i => (i + 1) % 256, fun i => (i + 2) % 256⟩)

/-- The image information of a 16x16 three-plane image decoded in 8x8 blocks. -/
def image16x16 : ImageInfo :=
  { m_width := 16, m_height := 16, m_MCUSPerRow := 2, m_MCUSPerCol := 2,
    m_scanType := ScanType.threePlane, m_MCUWidth := 8, m_MCUHeight := 8 }

/-- The number of blocks of an image: blocks per row times block rows. -/
def blocksOf (info : ImageInfo) : Nat :=
  info.m_MCUSPerRow.toNat * info.m_MCUSPerCol.toNat

/-- The per-block decoder delivers `n` blocks of an image of `total` blocks and the
blitter stops there: the calls `0, ..., n - 1` succeed, and either `n` is `total` or the
call number `n` reports a non-zero status. -/
def Delivers (mcu : Nat → Nat × MCUBuffers) (total n : Nat) : Prop :=
  n ≤ total ∧ (∀ j, j < n → (mcu j).1 = 0) ∧ (n = total ∨ (mcu n).1 ≠ 0)

/-- The output produced by blitting the first `n` delivered blocks of an image, block
`k` at block column `k mod MCUSPerRow` and block row `k div MCUSPerRow`. -/
def blitFirst {C : Type} (unpack : Nat → Nat → Nat → C) (info : ImageInfo)
    (mcu : Nat → Nat × MCUBuffers) (pt : Point) (n : Nat) : List (LcdOp C) :=
  (List.range n).flatMap fun k =>
    JpegDecoder.blitMcu unpack info (mcu k).2 pt
      ((k % info.m_MCUSPerRow.toNat : Nat) : Int) ((k / info.m_MCUSPerRow.toNat : Nat) : Int)

/-- The rectangle `decode` passes to `moveTo` for the sub-block at offset `(x, y)` of
the MCU at block column `mcu_x`, block row `mcu_y`. -/
def JpegDecoder.subBlockRect (info : ImageInfo) (pt : Point) (mcu_x mcu_y : Int)
    (y x : Nat) : Rectangle :=
  ⟨pt.X + mcu_x * info.m_MCUWidth, pt.Y + mcu_y * info.m_MCUHeight,
    min 8 (info.m_width - (mcu_x * info.m_MCUWidth + x)),
    min 8 (info.m_height - (mcu_y * info.m_MCUHeight + y))⟩

/-- The image information of a 10x16 three-plane image decoded in 8x8 blocks. -/
def image10x16 : ImageInfo :=
  { m_width := 10, m_height := 16, m_MCUSPerRow := 2, m_MCUSPerCol := 2,
    m_scanType := ScanType.threePlane, m_MCUWidth := 8, m_MCUHeight := 8 }

/-- The image information of a 16x16 three-plane image decoded as one 16x16 block. -/
def image16mcu16 : ImageInfo :=
  { m_width := 16, m_height := 16, m_MCUSPerRow := 1, m_MCUSPerCol := 1,
    m_scanType := ScanType.threePlane, m_MCUWidth := 16, m_MCUHeight := 16 }

/-- The image information of an 8x8 grayscale image decoded as one 8x8 block. -/
def imageGray8 : ImageInfo :=
  { m_width := 8, m_height := 8, m_MCUSPerRow := 1, m_MCUSPerCol := 1,
    m_scanType := ScanType.PJPG_GRAYSCALE, m_MCUWidth := 8, m_MCUHeight := 8 }

/-- A per-block decoder that never signals completion. -/
def neverDone : Nat → Nat × MCUBuffers :=
  fun _ => (0, ⟨fun i => i % 256, fun i => (i + 1) % 256, fun i => (i + 2) % 256⟩)

/-- A component unpack that keeps the three components, for reading traces. -/
def keepParts (r g b : Nat) : Nat × Nat × Nat := (r, g, b)

/-- Recognises a call of the Arduino runtime's `delay`. -/
def Call.isDelay : Call → Bool
  | .delay _ => true
  | _ => false

/-- The calls of a trace that reach the bus: everything but `delay`. -/
def busCalls (t : List Call) : List Call := t.filter (fun c => !c.isDelay)

/-- The value written to the scroll register for an in-range offset by a panel that
counts scroll offsets upwards: 0 for the offset 0 and `320 - offset` otherwise. -/
def scrollTarget (offset : Int) : Int := if offset = 0 then 0 else 320 - offset

/-! ## Access modes at pin level

The access modes are embedded as the sequence of effects they have on the I/O registers
of the AVR, on its global interrupt flag and on the Arduino runtime.  An I/O register is
named by its I/O index; the direction register of a port is at the index before it. -/

/-- One effect of access-mode code: set or clear one bit of an I/O register (the `sbi`
and `cbi` instructions, and the `|=` / `&= ~` of a `_BV` on a memory-mapped register),
write a byte to an I/O register (`out`, or a store to the memory-mapped register),
clear or set the global interrupt flag, or a call of the Arduino runtime, or a store
through the external-memory interface. -/
inductive PinOp where
  | sbi (port bit : Nat)
  | cbi (port bit : Nat)
  | out (port value : Nat)
  | cli
  | sei
  | delay (ms : Nat)
  | digitalWrite (pin : Nat) (level : Bool)
  | store (address value : Nat)
  deriving DecidableEq, Repr

/-- The part of the AVR state the access modes act on: the I/O registers by I/O index
and the global interrupt flag. -/
structure Avr where
  io : Nat → Nat
  I : Bool

/-- The byte `v | _BV(bit)`. -/
def setBit (v bit : Nat) : Nat := u8 (v ||| (1 <<< bit))

/-- The byte `v & ~_BV(bit)`. -/
def clearBit (v bit : Nat) : Nat := u8 (v &&& (0xFF ^^^ (1 <<< bit)))

/-- The effect of one operation on the AVR state. -/
def Avr.exec (s : Avr) : PinOp → Avr
  | PinOp.sbi port bit => { s with io := Function.update s.io port (setBit (s.io port) bit) }
  | PinOp.cbi port bit => { s with io := Function.update s.io port (clearBit (s.io port) bit) }
  | PinOp.out port value => { s with io := Function.update s.io port (u8 value) }
  | PinOp.cli => { s with I := false }
  | PinOp.sei => { s with I := true }
  | PinOp.delay _ => s
  | PinOp.digitalWrite _ _ => s
  | PinOp.store _ _ => s

/-- The effect of a sequence of operations on the AVR state. -/
def Avr.run (s : Avr) : List PinOp → Avr
  | [] => s
  | op :: ops => (s.exec op).run ops

/-- The pin mapping `TPinMappings`: ports by I/O index, pins by their index in the port. -/
structure PinMappings where
  PORT_DATA : Nat
  PORT_WR : Nat
  PORT_RS : Nat
  PORT_ALE : Nat
  PORT_RESET : Nat
  PIN_WR : Nat
  PIN_RS : Nat
  PIN_ALE : Nat
  PIN_RESET : Nat
  deriving DecidableEq, Repr

/-- The struct `Gpio16AccessModeXmemMapping`; `PIN0` is 0 and `PIN2` is 2. -/
def Gpio16AccessModeXmemMapping : PinMappings :=
  { PORT_DATA := 0x02, PORT_WR := 0x14, PORT_RS := 0x08, PORT_ALE := 0x14,
    PORT_RESET := 0x08, PIN_WR := 0, PIN_RS := 0, PIN_ALE := 2, PIN_RESET := 2 }

namespace Gpio16AccessMode

/-- The member `writeCommand(uint8_t lo8,uint8_t hi8)`.  The two strobe instructions
are written `cbi %0, %6` and `sbi %0, %6`, and operand `%6` is `PIN_RS`. -/
def writeCommand (M : PinMappings) (lo8 hi8 : Nat) : List PinOp :=
  [ PinOp.sbi M.PORT_ALE M.PIN_ALE,
    PinOp.out M.PORT_DATA lo8,
    PinOp.cbi M.PORT_RS M.PIN_RS,
    PinOp.cbi M.PORT_ALE M.PIN_ALE,
    PinOp.out M.PORT_DATA hi8,
    PinOp.cbi M.PORT_WR M.PIN_RS,
    PinOp.sbi M.PORT_WR M.PIN_RS ]

/-- The member `writeData(uint8_t lo8,uint8_t hi8)`.  The two strobe instructions are
written `cbi %0, %6` and `sbi %0, %6`, and operand `%6` is `PIN_RS`. -/
def writeData (M : PinMappings) (lo8 hi8 : Nat) : List PinOp :=
  [ PinOp.sbi M.PORT_ALE M.PIN_ALE,
    PinOp.out M.PORT_DATA lo8,
    PinOp.sbi M.PORT_RS M.PIN_RS,
    PinOp.cbi M.PORT_ALE M.PIN_ALE,
    PinOp.out M.PORT_DATA hi8,
    PinOp.cbi M.PORT_WR M.PIN_RS,
    PinOp.sbi M.PORT_WR M.PIN_RS ]

/-- The member `writeCommandData(uint8_t cmd,uint8_t data)`. -/
def writeCommandData (M : PinMappings) (cmd data : Nat) : List PinOp :=
  writeCommand M cmd 0 ++ writeData M data 0

/-- The member `writeStreamedData(uint8_t data)`: the operations made for the value
`streamIndex` of `_streamIndex`, and the new value `_streamIndex ^ 1`. -/
def writeStreamedData (M : PinMappings) (streamIndex : Nat) (data : Nat) :
    List PinOp × Nat :=
  (if streamIndex = 0 then
      [ PinOp.sbi M.PORT_ALE M.PIN_ALE,
        PinOp.out M.PORT_DATA data,
        PinOp.sbi M.PORT_RS M.PIN_RS ]
    else
      [ PinOp.cbi M.PORT_ALE M.PIN_ALE,
        PinOp.out M.PORT_DATA data,
        PinOp.cbi M.PORT_WR M.PIN_WR,
        PinOp.sbi M.PORT_WR M.PIN_WR ],
   u8 (streamIndex ^^^ 1))

/-- One strobe of `writeMultiData`: `out %0, r18` then `out %0, r19`. -/
def strobe (M : PinMappings) (r18 r19 : Nat) : List PinOp :=
  [PinOp.out M.PORT_WR r18, PinOp.out M.PORT_WR r19]

/-- The unrolled block of `count` strobes. -/
def strobeBlock (M : PinMappings) (r18 r19 : Nat) (count : Nat) : List PinOp :=
  (List.replicate count (strobe M r18 r19)).flatten

/-- The batch loop of `writeMultiData` on the 24-bit count held in `%C5,%B5,%A5`:
entered when the count is at least 40, it runs the block of 40 strobes, subtracts 40
and repeats while the count is at least 40.  The result is the operations made and the
count left for `lastlot`. -/
def batchLoop (M : PinMappings) (r18 r19 : Nat) (n : Nat) : List PinOp × Nat :=
  if _h : 40 ≤ n then
    let r := batchLoop M r18 r19 (n - 40)
    (strobeBlock M r18 r19 40 ++ r.1, r.2)
  else ([], n)
termination_by n
decreasing_by omega

/-- The tail `lastlot` of `writeMultiData`: `lsl %A5` doubles the low byte of the
count, `Z` is set that many instructions before `finished`, and `ijmp` runs the end of
the unrolled block of 39 strobes, 78 instructions, from there. -/
def lastlot (M : PinMappings) (r18 r19 : Nat) (n : Nat) : List PinOp :=
  (strobeBlock M r18 r19 39).drop (78 - u8 (u8 n * 2))

/-- The member `writeMultiData(uint32_t howMuch,uint8_t lo8,uint8_t hi8)`, run from the
state `s`.  `r20` records whether the interrupt flag was set when `brid` tested it;
`r18` and `r19` are the value read from `PORT_WR` with the bit of `_BV(PIN_WR)` cleared
and set; only the three low bytes of `howMuch` are used. -/
def writeMultiData (M : PinMappings) (s : Avr) (howMuch lo8 hi8 : Nat) : List PinOp :=
  let setup :=
    [ PinOp.sbi M.PORT_ALE M.PIN_ALE,
      PinOp.out M.PORT_DATA lo8,
      PinOp.sbi M.PORT_RS M.PIN_RS,
      PinOp.cbi M.PORT_ALE M.PIN_ALE,
      PinOp.out M.PORT_DATA hi8 ]
  let s1 := s.run setup
  let r20 := s1.I
  let r18 := u8 (s1.io M.PORT_WR &&& (0xFF ^^^ u8 (1 <<< M.PIN_WR)))
  let r19 := u8 (s1.io M.PORT_WR ||| u8 (1 <<< M.PIN_WR))
  let batches := batchLoop M r18 r19 (howMuch % 2 ^ 24)
  setup ++ (if r20 then [PinOp.cli] else []) ++ batches.1 ++ lastlot M r18 r19 batches.2 ++
    (if r20 then [PinOp.sei] else [])

/-- The member `initOutputHigh(uint8_t port,uint8_t pin)`: set the pin's bit in the
direction register, at the index before the port, then in the port. -/
def initOutputHigh (port pin : Nat) : List PinOp :=
  [PinOp.sbi (port - 1) pin, PinOp.sbi port pin]

/-- The member `initialise()`. -/
def initialise (M : PinMappings) : List PinOp :=
  initOutputHigh M.PORT_RESET M.PIN_RESET ++
    initOutputHigh M.PORT_RS M.PIN_RS ++
    initOutputHigh M.PORT_ALE M.PIN_ALE ++
    initOutputHigh M.PORT_WR M.PIN_WR ++
    [PinOp.out (M.PORT_DATA - 1) 0xff]

/-- The member `hardReset()`. -/
def hardReset (M : PinMappings) : List PinOp :=
  [ PinOp.cbi M.PORT_RESET M.PIN_RESET,
    PinOp.delay 10,
    PinOp.sbi M.PORT_RESET M.PIN_RESET,
    PinOp.delay 130 ]

end Gpio16AccessMode

namespace XmemAccessMode

/-- The enum constant `RESET_PIN`. -/
def RESET_PIN : Nat := 38

/-- The member `writeCommand(uint8_t command)`: a store to the address `0x8000`. -/
def writeCommand (command : Nat) : List PinOp := [PinOp.store 0x8000 command]

/-- The member `writeData(uint8_t data)`: a store to the address `0x8100`. -/
def writeData (data : Nat) : List PinOp := [PinOp.store 0x8100 data]

/-- The member `writeStreamedData(uint8_t data)`: a store to the address `0x8100`. -/
def writeStreamedData (data : Nat) : List PinOp := [PinOp.store 0x8100 data]

/-- The member `hardReset()`. -/
def hardReset : List PinOp :=
  [ PinOp.digitalWrite RESET_PIN false,
    PinOp.delay 10,
    PinOp.digitalWrite RESET_PIN true,
    PinOp.delay 130 ]

end XmemAccessMode

/-! ### Observing the bus -/

/-- One 16-bit write transaction seen by the panel at a rising edge of `/WR`: the level
of `RS`, the byte held by the external latch, the byte on the data port, and whether
interrupts were enabled at that moment. -/
structure BusWrite where
  rs : Bool
  latched : Nat
  bus : Nat
  interrupts : Bool
  deriving DecidableEq, Repr

/-- The AVR together with the external latch, which follows the data port while `ALE`
is high and holds its byte while `ALE` is low. -/
structure Probe where
  avr : Avr
  latch : Nat

/-- One operation seen from the bus: the new state of AVR and latch, and the write
transaction when the operation takes `/WR` from low to high. -/
def Probe.step (M : PinMappings) (p : Probe) (op : PinOp) : Probe × Option BusWrite :=
  let a := p.avr.exec op
  let latch := if (a.io M.PORT_ALE).testBit M.PIN_ALE then a.io M.PORT_DATA else p.latch
  let rising := !(p.avr.io M.PORT_WR).testBit M.PIN_WR && (a.io M.PORT_WR).testBit M.PIN_WR
  (⟨a, latch⟩,
    if rising then some ⟨(a.io M.PORT_RS).testBit M.PIN_RS, latch, a.io M.PORT_DATA, a.I⟩
    else none)

/-- The state of AVR and latch after a sequence of operations. -/
def Probe.after (M : PinMappings) (p : Probe) : List PinOp → Probe
  | [] => p
  | op :: ops => Probe.after M (p.step M op).1 ops

/-- The write transactions made by a sequence of operations, one for each low-then-high
pulse of `/WR`. -/
def busWrites (M : PinMappings) (p : Probe) : List PinOp → List BusWrite
  | [] => []
  | op :: ops =>
      match (p.step M op).2 with
      | some w => w :: busWrites M (p.step M op).1 ops
      | none => busWrites M (p.step M op).1 ops

/-- The word of a write transaction: the level of `RS`, the latched byte and the byte
on the data port. -/
def BusWrite.word (w : BusWrite) : Bool × Nat × Nat := (w.rs, w.latched, w.bus)

/-- A concrete AVR state: every I/O register holds `0xFF`, interrupts are enabled. -/
def sampleAvr : Avr := { io := fun _ => 0xFF, I := true }

/-- The bus is set up for data strobes: `ALE` is low, the latch holds `lo8`, the data
port holds `hi8` and `RS` is high. -/
def Probe.armed (M : PinMappings) (lo8 hi8 : Nat) (p : Probe) : Prop :=
  (p.avr.io M.PORT_ALE).testBit M.PIN_ALE = false ∧ p.latch = lo8 ∧
    p.avr.io M.PORT_DATA = hi8 ∧ (p.avr.io M.PORT_RS).testBit M.PIN_RS = true

/-- The five operations that open `writeMultiData`: latch `lo8`, raise `RS`, present
`hi8`. -/
def Gpio16AccessMode.multiSetup (M : PinMappings) (lo8 hi8 : Nat) : List PinOp :=
  [ PinOp.sbi M.PORT_ALE M.PIN_ALE,
    PinOp.out M.PORT_DATA lo8,
    PinOp.sbi M.PORT_RS M.PIN_RS,
    PinOp.cbi M.PORT_ALE M.PIN_ALE,
    PinOp.out M.PORT_DATA hi8 ]

/-! ## Graphics fundamentals: `GraphicsLibrary<TDevice,TDeviceAccessMode>` -/

/-- Modelled from the spec: the composed device driver `TDevice`, which is outside the
files at hand: the members `Fundamentals.inl` uses, with `LONG_SIDE` and `SHORT_SIDE`
the two panel extents the device class declares. -/
structure Device (C : Type) where
  getWidth : Int
  getHeight : Int
  LONG_SIDE : Int
  SHORT_SIDE : Int
  unpackColour : Nat → C
  moveTo : Rectangle → List Call
  fillPixels : Nat → C → List Call

/-- The two colour members `_foreground` and `_background` of the graphics library. -/
structure GraphicsLibrary (C : Type) where
  _foreground : C
  _background : C

namespace GraphicsLibrary

/-- The member `setForeground(TColour cr)`. -/
def setForeground {C : Type} (D : Device C) (g : GraphicsLibrary C) (cr : Nat) :
    GraphicsLibrary C :=
  { g with _foreground := D.unpackColour cr }

/-- The member `setBackground(TColour cr)`. -/
def setBackground {C : Type} (D : Device C) (g : GraphicsLibrary C) (cr : Nat) :
    GraphicsLibrary C :=
  { g with _background := D.unpackColour cr }

/-- The member `getXmax()`, an `int16_t`. -/
def getXmax {C : Type} (D : Device C) : Int := wrap16 (D.getWidth - 1)

/-- The member `getYmax()`, an `int16_t`. -/
def getYmax {C : Type} (D : Device C) : Int := wrap16 (D.getHeight - 1)

/-- The pixel count `(int32_t)TDevice::LONG_SIDE * (int32_t)TDevice::SHORT_SIDE` of
`clearScreen`, as the `uint32_t` that `fillPixels` receives. -/
def clearCount {C : Type} (D : Device C) : Nat :=
  (D.LONG_SIDE * D.SHORT_SIDE % 4294967296).toNat

/-- The member `clearScreen()`. -/
def clearScreen {C : Type} (D : Device C) (g : GraphicsLibrary C) : List Call :=
  D.moveTo ⟨0, 0, D.getWidth, D.getHeight⟩ ++ D.fillPixels (clearCount D) g._background

/-- A call of one of the two colour setters. -/
inductive ColourCall where
  | setForeground (cr : Nat)
  | setBackground (cr : Nat)
  deriving DecidableEq, Repr

/-- Recognises a `setForeground` call. -/
def ColourCall.isForeground : ColourCall → Bool
  | ColourCall.setForeground _ => true
  | ColourCall.setBackground _ => false

/-- The colour members after a sequence of setter calls. -/
def applyCalls {C : Type} (D : Device C) (g : GraphicsLibrary C) :
    List ColourCall → GraphicsLibrary C
  | [] => g
  | ColourCall.setForeground cr :: t => applyCalls D (setForeground D g cr) t
  | ColourCall.setBackground cr :: t => applyCalls D (setBackground D g cr) t

end GraphicsLibrary

/-- A composed device for reading traces: the LDS285 in landscape, 320x240, with the
24-bit colour codec. -/
def sampleDevice : Device LDS285Colour24.UnpackedColour :=
  { getWidth := LDS285OrientationLandscape.getWidth
    getHeight := LDS285OrientationLandscape.getHeight
    LONG_SIDE := 320
    SHORT_SIDE := 240
    unpackColour := LDS285Colour24.unpackColour
    moveTo := LDS285OrientationLandscape.moveTo sampleOpcodes sampleTraits
    fillPixels := LDS285Colour24.fillPixels sampleOpcodes.MEMORY_WRITE }

/-- Recognises a store through the external-memory interface, the command and data
writes of `XmemAccessMode`. -/
def PinOp.isStore : PinOp → Bool
  | PinOp.store _ _ => true
  | _ => false

/-- Recognises the operations that can only raise bits of the low byte of a register:
setting one bit, and writing `0xff`. -/
def PinOp.raisesOnly : PinOp → Bool
  | PinOp.sbi _ _ => true
  | PinOp.out _ value => decide (value = 0xff)
  | _ => false

/-- The number of pixels written before the first `moveTo` of a trace. -/
def leadingPixels {C : Type} : List (LcdOp C) → Nat
  | [] => 0
  | LcdOp.moveTo _ :: _ => 0
  | LcdOp.writePixel _ :: t => leadingPixels t + 1
  | LcdOp.beginWriting :: t => leadingPixels t

/-- The windows of a trace: the rectangle of each `moveTo`, with the number of pixels
written between it and the next `moveTo` or the end of the trace. -/
def windows {C : Type} : List (LcdOp C) → List (Rectangle × Nat)
  | [] => []
  | LcdOp.moveTo rc :: t => (rc, leadingPixels t) :: windows t
  | _ :: t => windows t

/-- The image information of a 13x16 three-plane image decoded as one 16x16 block: the
sub-blocks at `x = 8` are clipped to 5 columns. -/
def image13mcu16 : ImageInfo :=
  { m_width := 13, m_height := 16, m_MCUSPerRow := 1, m_MCUSPerCol := 1,
    m_scanType := ScanType.threePlane, m_MCUWidth := 16, m_MCUHeight := 16 }

/-- The image information of a 20x20 three-plane image decoded in 16x16 blocks: two
blocks per row and two block rows. -/
def image20mcu16 : ImageInfo :=
  { m_width := 20, m_height := 20, m_MCUSPerRow := 2, m_MCUSPerCol := 2,
    m_scanType := ScanType.threePlane, m_MCUWidth := 16, m_MCUHeight := 16 }

/-- A pin mapping of one's own: `/WR` on pin 3 of the port at I/O index `0x05`, `RS` on
pin 0 of the port at `0x08`, `ALE` on pin 2 of the port at `0x14`. -/
def sampleCustomMapping : PinMappings :=
  { PORT_DATA := 0x02, PORT_WR := 0x05, PORT_RS := 0x08, PORT_ALE := 0x14,
    PORT_RESET := 0x08, PIN_WR := 3, PIN_RS := 0, PIN_ALE := 2, PIN_RESET := 2 }

/-! ### The stream phase `_streamIndex` across calls -/

/-- A call of one of the static members of `Gpio16AccessMode`. -/
inductive Gpio16Call where
  | initialise
  | hardReset
  | writeCommand (lo8 hi8 : Nat)
  | writeCommandData (cmd data : Nat)
  | writeData (lo8 hi8 : Nat)
  | writeMultiData (howMuch lo8 hi8 : Nat)
  | writeStreamedData (data : Nat)
  deriving DecidableEq, Repr

/-- Recognises a `writeStreamedData` call. -/
def Gpio16Call.isStreamed : Gpio16Call → Bool
  | Gpio16Call.writeStreamedData _ => true
  | _ => false

/-- The static member `_streamIndex` together with the hardware it drives. -/
structure Gpio16State where
  probe : Probe
  _streamIndex : Nat

/-- The operations one call makes from a state, and the value of `_streamIndex` after
it: only `writeStreamedData` assigns the member. -/
def Gpio16AccessMode.perform (M : PinMappings) (st : Gpio16State) :
    Gpio16Call → List PinOp × Nat
  | Gpio16Call.initialise => (Gpio16AccessMode.initialise M, st._streamIndex)
  | Gpio16Call.hardReset => (Gpio16AccessMode.hardReset M, st._streamIndex)
  | Gpio16Call.writeCommand lo8 hi8 => (Gpio16AccessMode.writeCommand M lo8 hi8, st._streamIndex)
  | Gpio16Call.writeCommandData cmd data =>
      (Gpio16AccessMode.writeCommandData M cmd data, st._streamIndex)
  | Gpio16Call.writeData lo8 hi8 => (Gpio16AccessMode.writeData M lo8 hi8, st._streamIndex)
  | Gpio16Call.writeMultiData howMuch lo8 hi8 =>
      (Gpio16AccessMode.writeMultiData M st.probe.avr howMuch lo8 hi8, st._streamIndex)
  | Gpio16Call.writeStreamedData data => Gpio16AccessMode.writeStreamedData M st._streamIndex data

/-- A sequence of calls run from a state: for each call the write transactions seen on
the bus while it ran, and the state after the last call. -/
def Gpio16AccessMode.session (M : PinMappings) :
    Gpio16State → List Gpio16Call → List (Gpio16Call × List BusWrite) × Gpio16State
  | st, [] => ([], st)
  | st, c :: cs =>
      let r := Gpio16AccessMode.perform M st c
      let rest := Gpio16AccessMode.session M ⟨Probe.after M st.probe r.1, r.2⟩ cs
      ((c, busWrites M st.probe r.1) :: rest.1, rest.2)

/-- The number of `/WR` pulses issued during the `writeStreamedData` calls of a session. -/
def streamedPulses : List (Gpio16Call × List BusWrite) → Nat
  | [] => 0
  | (c, ws) :: t => (if c.isStreamed then ws.length else 0) + streamedPulses t

/-- The number of `writeStreamedData` calls in a sequence of calls. -/
def streamedCalls : List Gpio16Call → Nat
  | [] => 0
  | c :: t => (if c.isStreamed then 1 else 0) + streamedCalls t

/-! ## Backlight: `LDS285Backlight<TAccessMode>` -/

/-- The class `LDS285Backlight`: its member `_currentPercentage`, a `uint8_t`. -/
structure LDS285Backlight where
  _currentPercentage : Nat
  deriving DecidableEq, Repr

namespace LDS285Backlight

/-- The member `setPercentage(uint8_t percentage)`: the product `255*(uint16_t)percentage`
is an `unsigned int` of 16 bits on the AVR, and the quotient is cast to `uint8_t`. -/
def setPercentage (k : lds285.Opcodes) (_b : LDS285Backlight) (percentage : Nat) :
    List Call × LDS285Backlight :=
  let value := u8 (255 * percentage % 65536 / 100)
  ([Call.writeCommand k.WRITE_DISPLAY_BRIGHTNESS, Call.writeData value], ⟨percentage⟩)

/-- The loop `while(newPercentage!=_currentPercentage)` of `fadeTo`, cut at `fuel`
iterations: `setPercentage(_currentPercentage+direction)`, the sum being an `int`
converted to the `uint8_t` parameter, then `delay(msPerStep)`. -/
def fadeLoop (k : lds285.Opcodes) (newPercentage : Nat) (direction : Int) (ms : Nat) :
    Nat → LDS285Backlight → Option (List Call × LDS285Backlight)
  | 0, _ => none
  | fuel + 1, b =>
      if newPercentage ≠ b._currentPercentage then
        let r := setPercentage k b (u8i ((b._currentPercentage : Int) + direction))
        (fadeLoop k newPercentage direction ms fuel r.2).map
          fun q => (r.1 ++ [Call.delay ms] ++ q.1, q.2)
      else some ([], b)

/-- The member `fadeTo(uint8_t newPercentage,int msPerStep)`; `delay` takes an
`unsigned long`, to which the `int` is converted. -/
def fadeTo (k : lds285.Opcodes) (b : LDS285Backlight) (newPercentage : Nat) (msPerStep : Int)
    (fuel : Nat) : Option (List Call × LDS285Backlight) :=
  if newPercentage = b._currentPercentage then some ([], b)
  else
    let direction : Int := if newPercentage > b._currentPercentage then 1 else -1
    fadeLoop k newPercentage direction (msPerStep % 4294967296).toNat fuel b

end LDS285Backlight

/-- Conversion of a value to a signed integer type of `bits` bits (two's complement). -/
def wrapSigned (bits : Nat) (v : Int) : Int :=
  (v + 2 ^ (bits - 1)) % 2 ^ bits - 2 ^ (bits - 1)

/-- The template member `Abs(const T a)` of `GraphicsLibrary` for a signed integer type
`T` of `bits` bits: `a<0 ? -a : a`, returned as a `T`.  The negation of the minimum
value is not a value of `T`; the two's-complement result is taken, which is what the
conversion back to an 8-bit `T` yields and what the AVR computes for its 16-bit `int`. -/
def GraphicsLibrary.Abs (bits : Nat) (a : Int) : Int :=
  wrapSigned bits (if a < 0 then -a else a)

/-! ## Byte-level facts about masks and shifts -/

section ByteFacts
set_option maxRecDepth 100000

theorem and_f8_eq : ∀ x < 256, x &&& 0xf8 = 8 * (x / 8) := by decide

theorem and_fc_eq : ∀ x < 256, x &&& 0xfc = 4 * (x / 4) := by decide

theorem and_1c_eq : ∀ x < 256, x &&& 0x1c = 4 * (x / 4 % 8) := by decide

theorem and_07_eq : ∀ x < 256, x &&& 0x07 = x % 8 := by decide

theorem and_1f_eq : ∀ x < 256, x &&& 0x1f = x % 32 := by decide

theorem and_ff_eq (x : Nat) : x &&& 0xff = x % 256 :=
  Nat.and_pow_two_sub_one_eq_mod x 8

end ByteFacts

/-- A multiple of `2 ^ i` or-ed with a value below `2 ^ i` is their sum. -/
theorem or_eq_add (i a b : Nat) (h : b < 2 ^ i) : (2 ^ i * a) ||| b = 2 ^ i * a + b :=
  (Nat.mul_add_lt_is_or h a).symm

theorem or8 (a b : Nat) (h : b < 8) : (8 * a) ||| b = 8 * a + b := or_eq_add 3 a b h
theorem or32 (a b : Nat) (h : b < 32) : (32 * a) ||| b = 32 * a + b := or_eq_add 5 a b h

/-- The packed overload is the component overload applied to the three low bytes. -/
theorem unpackColour_eq_parts (src : Nat) :
    ILI9325Colour16.unpackColour src =
      ILI9325Colour16.unpackColourParts (redOf src) (greenOf src) (blueOf src) := rfl

/-- Arithmetic form of `first` for byte-sized channels. -/
theorem parts_first (r g b : Nat) (hr : r < 256) (hg : g < 256) :
    (ILI9325Colour16.unpackColourParts r g b).first = 8 * (r / 8) + g / 32 := by
  simp only [ILI9325Colour16.unpackColourParts, u8, and_f8_eq r hr, and_fc_eq g hg,
    Nat.shiftRight_eq_div_pow]
  have h : 4 * (g / 4) / 2 ^ 5 < 8 := by omega
  rw [or8 _ _ h]
  omega

/-- Arithmetic form of `second` for byte-sized channels. -/
theorem parts_second (r g b : Nat) (hg : g < 256) (hb : b < 256) :
    (ILI9325Colour16.unpackColourParts r g b).second = 32 * (g / 4 % 8) + b / 8 := by
  simp only [ILI9325Colour16.unpackColourParts, u8, and_f8_eq b hb, and_fc_eq g hg,
    Nat.shiftRight_eq_div_pow, Nat.shiftLeft_eq]
  have h : 8 * (b / 8) / 2 ^ 3 < 32 := by omega
  have e : 4 * (g / 4) * 2 ^ 3 = 32 * (g / 4) := by omega
  rw [e, or32 _ _ h]
  omega

/-- Arithmetic form of the claimed `first` expression. -/
theorem spec_first (R G : Nat) (hR : R < 256) (hG : G < 256) :
    (R &&& 0xF8) ||| (G >>> 5) = 8 * (R / 8) + G / 32 := by
  rw [and_f8_eq R hR, Nat.shiftRight_eq_div_pow]
  have h : G / 2 ^ 5 < 8 := by omega
  rw [or8 _ _ h]
  omega

/-- Arithmetic form of the claimed `second` expression. -/
theorem spec_second (G B : Nat) (hG : G < 256) (hB : B < 256) :
    ((G &&& 0x1C) <<< 3) ||| (B >>> 3) = 32 * (G / 4 % 8) + B / 8 := by
  rw [and_1c_eq G hG, Nat.shiftRight_eq_div_pow, Nat.shiftLeft_eq]
  have h : B / 2 ^ 3 < 32 := by omega
  have e : 4 * (G / 4 % 8) * 2 ^ 3 = 32 * (G / 4 % 8) := by omega
  rw [e, or32 _ _ h]
  omega

/-- Arithmetic form of the RGB565 word of byte-sized channels. -/
theorem rgb565_eq (R G B : Nat) (hG : G < 256) (hB : B < 256) :
    rgb565 R G B = 2048 * (R / 8) + 32 * (G / 4) + B / 8 := by
  unfold rgb565
  simp only [Nat.shiftRight_eq_div_pow, Nat.shiftLeft_eq]
  have e1 : R / 2 ^ 3 * 2 ^ 11 = 2 ^ 11 * (R / 8) := by omega
  have e2 : G / 2 ^ 2 * 2 ^ 5 = 2 ^ 5 * (G / 4) := by omega
  have h2 : 2 ^ 5 * (G / 4) < 2 ^ 11 := by omega
  rw [e1, e2, or_eq_add 11 _ _ h2]
  have e3 : 2 ^ 11 * (R / 8) + 2 ^ 5 * (G / 4) = 2 ^ 5 * (64 * (R / 8) + G / 4) := by omega
  have h3 : B / 2 ^ 3 < 2 ^ 5 := by omega
  rw [e3, or_eq_add 5 _ _ h3]
  omega

theorem redOf_lt (src : Nat) : redOf src < 256 := Nat.mod_lt _ (by norm_num)
theorem greenOf_lt (src : Nat) : greenOf src < 256 := Nat.mod_lt _ (by norm_num)
theorem blueOf_lt (src : Nat) : blueOf src < 256 := Nat.mod_lt _ (by norm_num)

/-- Claim C1: for every colour value `src` the 16-bit codec's packed `unpackColour`
gives `first = (R & 0xF8) | (G >> 5)` and `second = ((G & 0x1C) << 3) | (B >> 3)` for the
channels `R`, `G`, `B` in bits 23..16, 15..8, 7..0 of `src`, and `first*256 + second` is
the RGB565 word `((R >> 3) << 11) | ((G >> 2) << 5) | (B >> 3)`: truncation, no rounding. -/
theorem C1_unpackColour16_is_rgb565 (src : Nat) :
    (ILI9325Colour16.unpackColour src).first
        = (redOf src &&& 0xF8) ||| (greenOf src >>> 5) ∧
    (ILI9325Colour16.unpackColour src).second
        = ((greenOf src &&& 0x1C) <<< 3) ||| (blueOf src >>> 3) ∧
    (ILI9325Colour16.unpackColour src).first * 256 + (ILI9325Colour16.unpackColour src).second
        = rgb565 (redOf src) (greenOf src) (blueOf src) := by
  have hR := redOf_lt src
  have hG := greenOf_lt src
  have hB := blueOf_lt src
  rw [unpackColour_eq_parts, parts_first _ _ _ hR hG, parts_second _ _ _ hG hB,
    spec_first _ _ hR hG, spec_second _ _ hG hB, rgb565_eq _ _ _ hG hB]
  refine ⟨rfl, rfl, ?_⟩
  omega

/-- Claim C2: re-expanding the 16-bit codec's unpacked pair to 8 bits per channel gives
exactly `(R & 0xF8, G & 0xFC, B & 0xF8)`: the bottom 3 bits of red and blue and the
bottom 2 bits of green are zero and all higher bits equal the input's. -/
theorem C2_unpack16_reexpand_truncates (src : Nat) :
    reexpand565 (ILI9325Colour16.unpackColour src)
        = (redOf src &&& 0xF8, greenOf src &&& 0xFC, blueOf src &&& 0xF8) ∧
    (reexpand565 (ILI9325Colour16.unpackColour src)).1 % 8 = 0 ∧
    (reexpand565 (ILI9325Colour16.unpackColour src)).2.1 % 4 = 0 ∧
    (reexpand565 (ILI9325Colour16.unpackColour src)).2.2 % 8 = 0 ∧
    (reexpand565 (ILI9325Colour16.unpackColour src)).1 / 8 = redOf src / 8 ∧
    (reexpand565 (ILI9325Colour16.unpackColour src)).2.1 / 4 = greenOf src / 4 ∧
    (reexpand565 (ILI9325Colour16.unpackColour src)).2.2 / 8 = blueOf src / 8 := by
  have hR := redOf_lt src
  have hG := greenOf_lt src
  have hB := blueOf_lt src
  have key : reexpand565 (ILI9325Colour16.unpackColour src)
      = (redOf src &&& 0xF8, greenOf src &&& 0xFC, blueOf src &&& 0xF8) := by
    unfold reexpand565
    rw [unpackColour_eq_parts, parts_first _ _ _ hR hG, parts_second _ _ _ hG hB]
    have hf : 8 * (redOf src / 8) + greenOf src / 32 < 256 := by omega
    have hs : 32 * (greenOf src / 4 % 8) + blueOf src / 8 < 256 := by omega
    rw [and_f8_eq _ hf, and_07_eq _ hf, and_1f_eq _ hs, and_f8_eq _ hR, and_fc_eq _ hG,
      and_f8_eq _ hB]
    simp only [Nat.shiftRight_eq_div_pow, Nat.shiftLeft_eq]
    have e1 : (8 * (redOf src / 8) + greenOf src / 32) % 8 * 2 ^ 5
        = 2 ^ 5 * (greenOf src / 32) := by omega
    have e2 : (32 * (greenOf src / 4 % 8) + blueOf src / 8) / 2 ^ 5 * 2 ^ 2
        = 4 * (greenOf src / 4 % 8) := by omega
    have h2 : 4 * (greenOf src / 4 % 8) < 2 ^ 5 := by omega
    rw [e1, e2, or_eq_add 5 _ _ h2]
    refine Prod.ext ?_ (Prod.ext ?_ ?_) <;> simp only <;> omega
  rw [key, and_f8_eq _ hR, and_fc_eq _ hG, and_f8_eq _ hB]
  refine ⟨rfl, ?_, ?_, ?_, ?_, ?_, ?_⟩ <;> simp only <;> omega

/-- Arithmetic form of a packed colour value built from four bytes. -/
theorem packColour_eq (a r g b : Nat) (hr : r < 256) (hg : g < 256) (hb : b < 256) :
    packColour a r g b = 16777216 * a + 65536 * r + 256 * g + b := by
  unfold packColour
  simp only [Nat.shiftLeft_eq]
  have e1 : a * 2 ^ 24 = 2 ^ 24 * a := by omega
  have h1 : r * 2 ^ 16 < 2 ^ 24 := by omega
  rw [e1, or_eq_add 24 _ _ h1]
  have e2 : 2 ^ 24 * a + r * 2 ^ 16 = 2 ^ 16 * (256 * a + r) := by omega
  have h2 : g * 2 ^ 8 < 2 ^ 16 := by omega
  rw [e2, or_eq_add 16 _ _ h2]
  have e3 : 2 ^ 16 * (256 * a + r) + g * 2 ^ 8 = 2 ^ 8 * (65536 * a + 256 * r + g) := by omega
  have h3 : b < 2 ^ 8 := by omega
  rw [e3, or_eq_add 8 _ _ h3]
  omega

/-- The three channels of a packed colour value built from four bytes. -/
theorem channels_packColour (a r g b : Nat) (hr : r < 256) (hg : g < 256) (hb : b < 256) :
    redOf (packColour a r g b) = r ∧ greenOf (packColour a r g b) = g ∧
      blueOf (packColour a r g b) = b := by
  unfold redOf greenOf blueOf
  rw [packColour_eq a r g b hr hg hb]
  simp only [Nat.shiftRight_eq_div_pow]
  refine ⟨?_, ?_, ?_⟩ <;> omega

/-- The packed overload of the 24-bit codec in terms of the three channels. -/
theorem unpackColour24_eq (src : Nat) :
    LDS285Colour24.unpackColour src =
      LDS285Colour24.unpackColourParts (redOf src) (greenOf src) (blueOf src) := by
  unfold LDS285Colour24.unpackColour LDS285Colour24.unpackColourParts redOf greenOf blueOf u8
  simp only [and_ff_eq, Nat.mod_mod]

/-- Claim C3: for all bytes `r`, `g`, `b` and every top byte `a`, the component form
`unpackColour(r, g, b)` yields the same unpacked colour as the packed form applied to
`(a << 24) | (r << 16) | (g << 8) | b`, in the 16-bit and in the 24-bit codec. -/
theorem C3_component_form_eq_packed_form (a r g b : Nat)
    (hr : r < 256) (hg : g < 256) (hb : b < 256) :
    ILI9325Colour16.unpackColourParts r g b
        = ILI9325Colour16.unpackColour (packColour a r g b) ∧
    LDS285Colour24.unpackColourParts r g b
        = LDS285Colour24.unpackColour (packColour a r g b) := by
  obtain ⟨e1, e2, e3⟩ := channels_packColour a r g b hr hg hb
  rw [unpackColour_eq_parts, unpackColour24_eq, e1, e2, e3]
  exact ⟨rfl, rfl⟩

/-- Witness of C3 at the colour `0x12, 0xAB, 0xCD` under the top byte `0xFF`. -/
theorem C3_component_form_eq_packed_form_witness :
    ILI9325Colour16.unpackColourParts 0x12 0xAB 0xCD
        = ILI9325Colour16.unpackColour (packColour 0xFF 0x12 0xAB 0xCD) ∧
    LDS285Colour24.unpackColourParts 0x12 0xAB 0xCD
        = LDS285Colour24.unpackColour (packColour 0xFF 0x12 0xAB 0xCD) :=
  C3_component_form_eq_packed_form 0xFF 0x12 0xAB 0xCD (by decide) (by decide) (by decide)

/-- Claim C4: the 24-bit codec's packed `unpackColour` is lossless on the low 24 bits:
the unpacked `(r, g, b)` satisfy `(r << 16) | (g << 8) | b = src & 0xFFFFFF`. -/
theorem C4_unpack24_lossless (src : Nat) :
    ((LDS285Colour24.unpackColour src).r <<< 16) |||
        ((LDS285Colour24.unpackColour src).g <<< 8) ||| (LDS285Colour24.unpackColour src).b
      = src &&& 0xFFFFFF := by
  have hm : src &&& 0xFFFFFF = src % 2 ^ 24 := Nat.and_pow_two_sub_one_eq_mod src 24
  rw [hm, unpackColour24_eq]
  have h := packColour_eq 0 (redOf src) (greenOf src) (blueOf src)
    (redOf_lt src) (greenOf_lt src) (blueOf_lt src)
  have hz : packColour 0 (redOf src) (greenOf src) (blueOf src)
      = (redOf src <<< 16) ||| (greenOf src <<< 8) ||| blueOf src := by
    unfold packColour
    simp
  rw [hz] at h
  show (redOf src <<< 16) ||| (greenOf src <<< 8) ||| blueOf src = src % 2 ^ 24
  rw [h]
  unfold redOf greenOf blueOf
  simp only [Nat.shiftRight_eq_div_pow]
  omega

/-! ## Pixel writes and fills -/

/-- The 16-bit fill loop is `numPixels` repetitions of the pixel write. -/
theorem fillLoop16_eq (first second : Nat) (n : Nat) :
    ILI9325Colour16.fillLoop first second n
      = (List.replicate n (ILI9325Colour16.writePixel ⟨first, second⟩)).flatten := by
  induction n with
  | zero => rfl
  | succ n ih =>
    simp only [ILI9325Colour16.fillLoop, List.replicate_succ, List.flatten_cons, ih]
    rfl

/-- The 24-bit fill loop is `numPixels` repetitions of the pixel write. -/
theorem fillLoop24_eq (r g b : Nat) (n : Nat) :
    LDS285Colour24.fillLoop r g b n
      = (List.replicate n (LDS285Colour24.writePixel ⟨r, g, b⟩)).flatten := by
  induction n with
  | zero => rfl
  | succ n ih =>
    simp only [LDS285Colour24.fillLoop, List.replicate_succ, List.flatten_cons, ih]
    rfl

/-- Call counts of the 16-bit fill loop. -/
theorem fillLoop16_counts (first second : Nat) (n : Nat) :
    dataCount (ILI9325Colour16.fillLoop first second n) = n * 2 ∧
    commandCount (ILI9325Colour16.fillLoop first second n) = 0 ∧
    (ILI9325Colour16.fillLoop first second n).length = n * 2 ∧
    (ILI9325Colour16.fillLoop first second n).any Call.isWriteMultiData = false := by
  induction n with
  | zero => exact ⟨rfl, rfl, rfl, rfl⟩
  | succ n ih =>
    obtain ⟨h1, h2, h3, h4⟩ := ih
    unfold dataCount commandCount at *
    refine ⟨?_, ?_, ?_, ?_⟩
    · simp only [ILI9325Colour16.fillLoop, List.filter_cons, Call.isWriteData, if_true,
        List.length_cons, h1]
      omega
    · simp [ILI9325Colour16.fillLoop, List.filter_cons, Call.isWriteCommand, h2]
    · simp only [ILI9325Colour16.fillLoop, List.length_cons, h3]
      omega
    · simp [ILI9325Colour16.fillLoop, Call.isWriteMultiData, h4]

/-- Call counts of the 24-bit fill loop. -/
theorem fillLoop24_counts (r g b : Nat) (n : Nat) :
    dataCount (LDS285Colour24.fillLoop r g b n) = n * 3 ∧
    commandCount (LDS285Colour24.fillLoop r g b n) = 0 ∧
    (LDS285Colour24.fillLoop r g b n).length = n * 3 ∧
    (LDS285Colour24.fillLoop r g b n).any Call.isWriteMultiData = false := by
  induction n with
  | zero => exact ⟨rfl, rfl, rfl, rfl⟩
  | succ n ih =>
    obtain ⟨h1, h2, h3, h4⟩ := ih
    unfold dataCount commandCount at *
    refine ⟨?_, ?_, ?_, ?_⟩
    · simp only [LDS285Colour24.fillLoop, List.filter_cons, Call.isWriteData, if_true,
        List.length_cons, h1]
      omega
    · simp [LDS285Colour24.fillLoop, List.filter_cons, Call.isWriteCommand, h2]
    · simp only [LDS285Colour24.fillLoop, List.length_cons, h3]
      omega
    · simp [LDS285Colour24.fillLoop, Call.isWriteMultiData, h4]

/-- Claim C5: for every pixel count `n` (zero included) and every unpacked colour `c`,
`fillPixels(n, c)` emits exactly one command, the codec's memory-write opcode, followed
by exactly `n * getBytesPerPixel()` data bytes that are `n` consecutive repetitions of
the bytes `writePixel(c)` emits, in the 16-bit and in the 24-bit codec; the fill is
defined, hence terminates, for every `n`. -/
theorem C5_fillPixels_emits_n_pixels (n : Nat)
    (gram : Nat) (c : ILI9325Colour16.UnpackedColour)
    (memoryWrite : Nat) (d : LDS285Colour24.UnpackedColour) :
    (ILI9325Colour16.fillPixels gram n c
        = Call.writeCommand gram ::
            (List.replicate n (ILI9325Colour16.writePixel c)).flatten ∧
      commandCount (ILI9325Colour16.fillPixels gram n c) = 1 ∧
      dataCount (ILI9325Colour16.fillPixels gram n c)
        = n * ILI9325Colour16.getBytesPerPixel ∧
      (ILI9325Colour16.fillPixels gram n c).length
        = 1 + n * ILI9325Colour16.getBytesPerPixel) ∧
    (LDS285Colour24.fillPixels memoryWrite n d
        = Call.writeCommand memoryWrite ::
            (List.replicate n (LDS285Colour24.writePixel d)).flatten ∧
      commandCount (LDS285Colour24.fillPixels memoryWrite n d) = 1 ∧
      dataCount (LDS285Colour24.fillPixels memoryWrite n d)
        = n * LDS285Colour24.getBytesPerPixel ∧
      (LDS285Colour24.fillPixels memoryWrite n d).length
        = 1 + n * LDS285Colour24.getBytesPerPixel) := by
  obtain ⟨a1, a2, a3, _⟩ := fillLoop16_counts c.first c.second n
  obtain ⟨b1, b2, b3, _⟩ := fillLoop24_counts d.r d.g d.b n
  unfold dataCount commandCount at *
  refine ⟨⟨?_, ?_, ?_, ?_⟩, ⟨?_, ?_, ?_, ?_⟩⟩
  · simp only [ILI9325Colour16.fillPixels, fillLoop16_eq]
  · simp [ILI9325Colour16.fillPixels, Call.isWriteCommand, a2]
  · simp [ILI9325Colour16.fillPixels, Call.isWriteData, a1, ILI9325Colour16.getBytesPerPixel]
  · simp [ILI9325Colour16.fillPixels, a3, ILI9325Colour16.getBytesPerPixel]
    omega
  · simp only [LDS285Colour24.fillPixels, fillLoop24_eq]
  · simp [LDS285Colour24.fillPixels, Call.isWriteCommand, b2]
  · simp [LDS285Colour24.fillPixels, Call.isWriteData, b1, LDS285Colour24.getBytesPerPixel]
  · simp [LDS285Colour24.fillPixels, b3, LDS285Colour24.getBytesPerPixel]
    omega

/-- Counterexample to C6 as stated: filling two pixels makes a `writeData` call for
every byte of every pixel and makes no `writeMultiData` call, in both codecs. -/
theorem C6_fillPixels_bulk_counterexample :
    ILI9325Colour16.fillPixels 0x22 2 ⟨0xF8, 0x1F⟩
      = [Call.writeCommand 0x22, Call.writeData 0xF8, Call.writeData 0x1F,
          Call.writeData 0xF8, Call.writeData 0x1F] ∧
    (ILI9325Colour16.fillPixels 0x22 2 ⟨0xF8, 0x1F⟩).any Call.isWriteData = true ∧
    (ILI9325Colour16.fillPixels 0x22 2 ⟨0xF8, 0x1F⟩).any Call.isWriteMultiData = false ∧
    LDS285Colour24.fillPixels 0x2C 2 ⟨1, 2, 3⟩
      = [Call.writeCommand 0x2C, Call.writeData 1, Call.writeData 2, Call.writeData 3,
          Call.writeData 1, Call.writeData 2, Call.writeData 3] ∧
    (LDS285Colour24.fillPixels 0x2C 2 ⟨1, 2, 3⟩).any Call.isWriteData = true ∧
    (LDS285Colour24.fillPixels 0x2C 2 ⟨1, 2, 3⟩).any Call.isWriteMultiData = false := by
  decide

/-- Claim C6, amended: for every `n` and colour `c`, `fillPixels(n, c)` sends its pixel
data through a per-pixel loop of `writeData` calls, `getBytesPerPixel()` calls for each
pixel, and makes no `writeMultiData` call, in both codecs. -/
theorem C6_fillPixels_per_pixel_writeData (n : Nat)
    (gram : Nat) (c : ILI9325Colour16.UnpackedColour)
    (memoryWrite : Nat) (d : LDS285Colour24.UnpackedColour) :
    (ILI9325Colour16.fillPixels gram n c).any Call.isWriteMultiData = false ∧
    dataCount (ILI9325Colour16.fillPixels gram n c)
      = n * ILI9325Colour16.getBytesPerPixel ∧
    (LDS285Colour24.fillPixels memoryWrite n d).any Call.isWriteMultiData = false ∧
    dataCount (LDS285Colour24.fillPixels memoryWrite n d)
      = n * LDS285Colour24.getBytesPerPixel := by
  obtain ⟨a1, _, _, a4⟩ := fillLoop16_counts c.first c.second n
  obtain ⟨b1, _, _, b4⟩ := fillLoop24_counts d.r d.g d.b n
  unfold dataCount at *
  refine ⟨?_, ?_, ?_, ?_⟩
  · simp [ILI9325Colour16.fillPixels, Call.isWriteMultiData, a4]
  · simp [ILI9325Colour16.fillPixels, Call.isWriteData, a1, ILI9325Colour16.getBytesPerPixel]
  · simp [LDS285Colour24.fillPixels, Call.isWriteMultiData, b4]
  · simp [LDS285Colour24.fillPixels, Call.isWriteData, b1, LDS285Colour24.getBytesPerPixel]

/-- Claim C7: for every unpacked colour, `writePixel` emits exactly `getBytesPerPixel()`
data bytes and no command, in a fixed order: `first` then `second` for the 16-bit codec
(2 bytes) and `r` then `g` then `b` for the 24-bit codec (3 bytes). -/
theorem C7_writePixel_bytes (c : ILI9325Colour16.UnpackedColour)
    (d : LDS285Colour24.UnpackedColour) :
    (ILI9325Colour16.writePixel c = [Call.writeData c.first, Call.writeData c.second] ∧
      dataCount (ILI9325Colour16.writePixel c) = ILI9325Colour16.getBytesPerPixel ∧
      (ILI9325Colour16.writePixel c).length = ILI9325Colour16.getBytesPerPixel ∧
      commandCount (ILI9325Colour16.writePixel c) = 0 ∧
      ILI9325Colour16.getBytesPerPixel = 2) ∧
    (LDS285Colour24.writePixel d
        = [Call.writeData d.r, Call.writeData d.g, Call.writeData d.b] ∧
      dataCount (LDS285Colour24.writePixel d) = LDS285Colour24.getBytesPerPixel ∧
      (LDS285Colour24.writePixel d).length = LDS285Colour24.getBytesPerPixel ∧
      commandCount (LDS285Colour24.writePixel d) = 0 ∧
      LDS285Colour24.getBytesPerPixel = 3) :=
  ⟨⟨rfl, rfl, rfl, rfl, rfl⟩, ⟨rfl, rfl, rfl, rfl, rfl⟩⟩

/-! ## Addressing windows -/

theorem u8i_shift8 (v : Int) : u8i (v >>> (8 : Nat)) = hi v := by
  unfold u8i hi
  rw [Int.shiftRight_eq_div_pow]
  congr 1
  norm_num
  omega

theorem u8i_andFF (v : Int) : u8i (andFF v) = lo v := by
  unfold u8i andFF lo
  congr 1
  omega

theorem u8i_eq_lo (v : Int) : u8i v = lo v := rfl

theorem lo_wrap16 (v : Int) : lo (wrap16 v) = lo v := by
  unfold lo wrap16
  congr 1
  omega

theorem hi_wrap16 (v : Int) : hi (wrap16 v) = hi v := by
  unfold hi wrap16
  congr 1
  omega

theorem hi_of_byte (v : Int) (h0 : 0 ≤ v) (h1 : v ≤ 255) : hi v = 0 := by
  unfold hi
  have : v % 65536 / 256 = 0 := by omega
  rw [this]
  rfl

theorem lo_zero : lo 0 = 0 := rfl

/-- The value of an address pair read back from its high and low byte. -/
theorem hi_lo_value (v : Int) : ((hi v * 256 + lo v : Nat) : Int) = v % 65536 := by
  unfold hi lo
  omega

/-- The portrait trace in terms of high and low bytes. -/
theorem portrait_moveTo_bytes (T : lds285.PanelTraits) (rc : Rectangle) :
    LDS285OrientationPortrait.moveTo T rc =
      [ Call.writeCommand (T.getColumnAddressCommand Orientation.PORTRAIT),
        Call.writeData 0, Call.writeData (lo rc.X),
        Call.writeData 0, Call.writeData (lo (rc.X + rc.Width - 1)),
        Call.writeCommand (T.getRowAddressCommand Orientation.PORTRAIT),
        Call.writeData (hi rc.Y), Call.writeData (lo rc.Y),
        Call.writeData (hi (rc.Y + rc.Height - 1)),
        Call.writeData (lo (rc.Y + rc.Height - 1)) ] := by
  simp only [LDS285OrientationPortrait.moveTo, u8i_shift8, u8i_andFF]
  simp only [hi_wrap16, lo_wrap16, u8i_eq_lo, lo_zero]

/-- The landscape trace in terms of high and low bytes. -/
theorem landscape_moveTo_bytes (k : lds285.Opcodes) (T : lds285.PanelTraits)
    (rc : Rectangle) :
    LDS285OrientationLandscape.moveTo k T rc =
      [ Call.writeCommand k.COLUMN_ADDRESS_SET,
        Call.writeData (hi rc.X), Call.writeData (lo rc.X),
        Call.writeData (hi (rc.X + rc.Width - 1)),
        Call.writeData (lo (rc.X + rc.Width - 1)),
        Call.writeCommand k.ROW_ADDRESS_SET,
        Call.writeData 0, Call.writeData (lo rc.Y),
        Call.writeData 0, Call.writeData (lo (rc.Y + rc.Height - 1)) ] := by
  simp only [LDS285OrientationLandscape.moveTo, u8i_shift8, u8i_andFF]
  simp only [hi_wrap16, lo_wrap16, u8i_eq_lo, lo_zero]

/-- The trace of the MC2PA8201 portrait four-argument `moveTo` in terms of high and low
bytes. -/
theorem mc2pa8201_moveToXY_bytes (k : mc2pa8201.Opcodes) (T : mc2pa8201.PanelTraits)
    (xstart ystart xend yend : Int) :
    MC2PA8201OrientationPortrait.moveToXY k T xstart ystart xend yend =
      [ Call.writeCommand k.COLUMN_ADDRESS_SET,
        Call.writeData 0, Call.writeData (lo xstart),
        Call.writeData 0, Call.writeData (lo xend),
        Call.writeCommand k.PAGE_ADDRESS_SET,
        Call.writeData (hi ystart), Call.writeData (lo ystart),
        Call.writeData (hi yend), Call.writeData (lo yend) ] := by
  simp only [MC2PA8201OrientationPortrait.moveToXY, u8i_shift8, u8i_andFF]
  simp only [u8i_eq_lo, lo_zero]

/-- Claim C8 where `moveTo` is defined: for the LDS285 portrait (240x320) and the
LDS285 landscape (320x240) orientation and every rectangle of at least one pixel lying
fully inside the canvas, `moveTo(const Rectangle&)` emits exactly ten transactions: the
column-address command, the high and low bytes of `X` and of `X+Width-1`, the
row-address command, the high and low bytes of `Y` and of `Y+Height-1`.  The MC2PA8201
portrait orientation defines the four-argument `moveTo` only; called with the corners
`X`, `Y`, `X+Width-1`, `Y+Height-1` of such a rectangle it emits the same ten
transactions. -/
theorem C8_moveTo_where_defined (T : lds285.PanelTraits) (k : lds285.Opcodes)
    (km : mc2pa8201.Opcodes) (Tm : mc2pa8201.PanelTraits) (rcP rcL rcM : Rectangle)
    (hP : rcP.inside LDS285OrientationPortrait.getWidth LDS285OrientationPortrait.getHeight)
    (hL : rcL.inside LDS285OrientationLandscape.getWidth LDS285OrientationLandscape.getHeight)
    (hM : rcM.inside MC2PA8201OrientationPortrait.getWidth
      MC2PA8201OrientationPortrait.getHeight) :
    (LDS285OrientationPortrait.moveTo T rcP
        = windowCalls (T.getColumnAddressCommand Orientation.PORTRAIT)
            (T.getRowAddressCommand Orientation.PORTRAIT) rcP ∧
      (LDS285OrientationPortrait.moveTo T rcP).length = 10) ∧
    (LDS285OrientationLandscape.moveTo k T rcL
        = windowCalls k.COLUMN_ADDRESS_SET k.ROW_ADDRESS_SET rcL ∧
      (LDS285OrientationLandscape.moveTo k T rcL).length = 10) ∧
    (MC2PA8201OrientationPortrait.moveToXY km Tm rcM.X rcM.Y (rcM.X + rcM.Width - 1)
          (rcM.Y + rcM.Height - 1)
        = windowCalls km.COLUMN_ADDRESS_SET km.PAGE_ADDRESS_SET rcM ∧
      (MC2PA8201OrientationPortrait.moveToXY km Tm rcM.X rcM.Y (rcM.X + rcM.Width - 1)
          (rcM.Y + rcM.Height - 1)).length = 10) := by
  obtain ⟨p1, p2, p3, p4, p5, p6⟩ := hP
  obtain ⟨l1, l2, l3, l4, l5, l6⟩ := hL
  obtain ⟨m1, m2, m3, m4, m5, m6⟩ := hM
  simp only [LDS285OrientationPortrait.getWidth, LDS285OrientationPortrait.getHeight,
    LDS285OrientationLandscape.getWidth, LDS285OrientationLandscape.getHeight,
    MC2PA8201OrientationPortrait.getWidth, MC2PA8201OrientationPortrait.getHeight] at *
  refine ⟨⟨?_, rfl⟩, ⟨?_, rfl⟩, ⟨?_, rfl⟩⟩
  · rw [portrait_moveTo_bytes]
    unfold windowCalls
    rw [hi_of_byte rcP.X p1 (by omega), hi_of_byte (rcP.X + rcP.Width - 1) (by omega) (by omega)]
  · rw [landscape_moveTo_bytes]
    unfold windowCalls
    rw [hi_of_byte rcL.Y l2 (by omega), hi_of_byte (rcL.Y + rcL.Height - 1) (by omega) (by omega)]
  · rw [mc2pa8201_moveToXY_bytes]
    unfold windowCalls
    rw [hi_of_byte rcM.X m1 (by omega), hi_of_byte (rcM.X + rcM.Width - 1) (by omega) (by omega)]

/-- Witness of C8: the rectangle `(10, 300, 20, 20)` in the two portrait canvases and
`(300, 10, 20, 20)` in the landscape canvas. -/
theorem C8_moveTo_where_defined_witness :
    (LDS285OrientationPortrait.moveTo sampleTraits ⟨10, 300, 20, 20⟩
        = [Call.writeCommand 0x2A, Call.writeData 0, Call.writeData 10, Call.writeData 0,
            Call.writeData 29, Call.writeCommand 0x2B, Call.writeData 1, Call.writeData 44,
            Call.writeData 1, Call.writeData 63]) ∧
    (LDS285OrientationLandscape.moveTo sampleOpcodes sampleTraits ⟨300, 10, 20, 20⟩
        = windowCalls 0x2A 0x2B ⟨300, 10, 20, 20⟩) ∧
    (MC2PA8201OrientationPortrait.moveToXY sampleOpcodesMC (swappedTraits sampleOpcodesMC)
        10 300 29 319 = windowCalls 0x2A 0x2B ⟨10, 300, 20, 20⟩) :=
  have h := C8_moveTo_where_defined sampleTraits sampleOpcodes sampleOpcodesMC
    (swappedTraits sampleOpcodesMC) ⟨10, 300, 20, 20⟩ ⟨300, 10, 20, 20⟩ ⟨10, 300, 20, 20⟩
    (by unfold Rectangle.inside; decide) (by unfold Rectangle.inside; decide)
    (by unfold Rectangle.inside; decide)
  ⟨h.1.1, h.2.1.1, h.2.2.1⟩

/-- Counterexample to C9 as stated: rectangles with non-negative fields whose address
pairs read back with `start > end`: a zero `Width` in portrait (bounds 5, 4), a short
axis that leaves the byte range in portrait (bounds 255, 0), and a zero `Height` in
landscape (bounds 5, 4). -/
theorem C9_moveTo_start_le_end_counterexample :
    (readWindow (LDS285OrientationPortrait.moveTo sampleTraits ⟨5, 0, 0, 1⟩)
        = some ((5, 4), (0, 0)) ∧
      windowOrdered (LDS285OrientationPortrait.moveTo sampleTraits ⟨5, 0, 0, 1⟩) = false) ∧
    (readWindow (LDS285OrientationPortrait.moveTo sampleTraits ⟨255, 0, 2, 1⟩)
        = some ((255, 0), (0, 0)) ∧
      windowOrdered (LDS285OrientationPortrait.moveTo sampleTraits ⟨255, 0, 2, 1⟩) = false) ∧
    (readWindow (LDS285OrientationLandscape.moveTo sampleOpcodes sampleTraits ⟨0, 5, 1, 0⟩)
        = some ((0, 0), (5, 4)) ∧
      windowOrdered (LDS285OrientationLandscape.moveTo sampleOpcodes sampleTraits ⟨0, 5, 1, 0⟩)
        = false) := by
  decide

/-- Claim C9, amended: for every rectangle with 16-bit signed fields, `X >= 0`, `Y >= 0`,
`Width >= 1` and `Height >= 1` whose end coordinate on the axis written with a zero high
byte is at most 255 (`X+Width-1` in portrait, `Y+Height-1` in landscape), both address
pairs `moveTo` emits, read back as 16-bit big-endian values, satisfy `start <= end`. -/
theorem C9_moveTo_start_le_end (T : lds285.PanelTraits) (k : lds285.Opcodes)
    (rcP rcL : Rectangle)
    (hP : rcP.positive) (hPx : rcP.X + rcP.Width - 1 ≤ 255)
    (hL : rcL.positive) (hLy : rcL.Y + rcL.Height - 1 ≤ 255) :
    windowOrdered (LDS285OrientationPortrait.moveTo T rcP) = true ∧
    windowOrdered (LDS285OrientationLandscape.moveTo k T rcL) = true := by
  obtain ⟨p1, p2, p3, p4, p5, p6, p7, p8⟩ := hP
  obtain ⟨l1, l2, l3, l4, l5, l6, l7, l8⟩ := hL
  constructor
  · rw [portrait_moveTo_bytes]
    have a := hi_lo_value rcP.Y
    have b := hi_lo_value (rcP.Y + rcP.Height - 1)
    have c : lo rcP.X ≤ lo (rcP.X + rcP.Width - 1) := by
      unfold lo
      omega
    simp only [windowOrdered, readWindow, readPair, Bool.and_eq_true, decide_eq_true_eq]
    omega
  · rw [landscape_moveTo_bytes]
    have a := hi_lo_value rcL.X
    have b := hi_lo_value (rcL.X + rcL.Width - 1)
    have c : lo rcL.Y ≤ lo (rcL.Y + rcL.Height - 1) := by
      unfold lo
      omega
    simp only [windowOrdered, readWindow, readPair, Bool.and_eq_true, decide_eq_true_eq]
    omega

/-- Witness of C9: the rectangle `(200, 300, 40, 20)` in portrait and
`(300, 10, 20, 20)` in landscape. -/
theorem C9_moveTo_start_le_end_witness :
    windowOrdered (LDS285OrientationPortrait.moveTo sampleTraits ⟨200, 300, 40, 20⟩) = true ∧
    windowOrdered (LDS285OrientationLandscape.moveTo sampleOpcodes sampleTraits
      ⟨300, 10, 20, 20⟩) = true :=
  C9_moveTo_start_le_end sampleTraits sampleOpcodes ⟨200, 300, 40, 20⟩ ⟨300, 10, 20, 20⟩
    (by unfold Rectangle.positive; decide) (by decide)
    (by unfold Rectangle.positive; decide) (by decide)

/-- Counterexample to C10 as stated: composed with a traits table that reports the page
opcode `0x2B` as the column-address command and `0x2A` as the page-address command, the
MC2PA8201 portrait `moveTo` still emits `0x2A` first and `0x2B` second. -/
theorem C10_moveTo_opcodes_counterexample :
    commandsOf (MC2PA8201OrientationPortrait.moveToXY sampleOpcodesMC
        (swappedTraits sampleOpcodesMC) 0 0 0 0) = [0x2A, 0x2B] ∧
    (swappedTraits sampleOpcodesMC).getColumnAddressCommand Orientation.PORTRAIT = 0x2B ∧
    (swappedTraits sampleOpcodesMC).getPageAddressCommand Orientation.PORTRAIT = 0x2A ∧
    commandsOf (MC2PA8201OrientationPortrait.moveToXY sampleOpcodesMC
        (swappedTraits sampleOpcodesMC) 0 0 0 0)
      ≠ [(swappedTraits sampleOpcodesMC).getColumnAddressCommand Orientation.PORTRAIT,
          (swappedTraits sampleOpcodesMC).getPageAddressCommand Orientation.PORTRAIT] := by
  decide

/-- Claim C10, amended: composed with any Panel Traits table, the LDS285 portrait
`moveTo` emits as its first command the column-address opcode and as its second command
the row-address opcode that the table reports for portrait; the MC2PA8201 portrait
`moveTo`, the four-argument member that writes the commands, emits the controller's
fixed column-address-set and page-address-set opcodes for every window, whatever table
it is composed with. -/
theorem C10_moveTo_opcodes (T : lds285.PanelTraits) (km : mc2pa8201.Opcodes)
    (Tm Tm2 : mc2pa8201.PanelTraits) (rc : Rectangle) (xstart ystart xend yend : Int) :
    commandsOf (LDS285OrientationPortrait.moveTo T rc)
      = [T.getColumnAddressCommand Orientation.PORTRAIT,
          T.getRowAddressCommand Orientation.PORTRAIT] ∧
    commandsOf (MC2PA8201OrientationPortrait.moveToXY km Tm xstart ystart xend yend)
      = [km.COLUMN_ADDRESS_SET, km.PAGE_ADDRESS_SET] ∧
    MC2PA8201OrientationPortrait.moveToXY km Tm xstart ystart xend yend
      = MC2PA8201OrientationPortrait.moveToXY km Tm2 xstart ystart xend yend :=
  ⟨rfl, rfl, rfl⟩

/-! ## The block blitter -/

theorem okPrefix_le (status : Nat → Nat) (t : Nat) : okPrefix status t ≤ t := by
  induction t with
  | zero => exact Nat.le_refl 0
  | succ t ih =>
    simp only [okPrefix]
    split <;> omega

theorem okPrefix_ok (status : Nat → Nat) (t : Nat) :
    ∀ j, j < okPrefix status t → status j = 0 := by
  induction t with
  | zero => intro j hj; exact absurd hj (Nat.not_lt_zero j)
  | succ t ih =>
    intro j hj
    simp only [okPrefix] at hj
    split at hj
    · rename_i h
      by_cases hjt : j = t
      · rw [hjt]; exact h.2
      · exact ih j (by omega)
    · exact ih j hj

theorem okPrefix_stop (status : Nat → Nat) (t : Nat) :
    okPrefix status t = t ∨ status (okPrefix status t) ≠ 0 := by
  induction t with
  | zero => exact Or.inl rfl
  | succ t ih =>
    simp only [okPrefix]
    split
    · exact Or.inl rfl
    · rename_i h
      rcases ih with h1 | h1
      · right
        rw [h1]
        intro h0
        exact h ⟨h1, h0⟩
      · exact Or.inr h1

/-- Block coordinates from a block index `k = y * P + x` with `x < P`. -/
theorem index_mod_div (P k x y : Nat) (hinv : k = y * P + x) (hx : x < P) :
    k % P = x ∧ k / P = y := by
  have hP : 0 < P := by omega
  constructor
  · rw [hinv, Nat.add_comm, Nat.add_mul_mod_self_right, Nat.mod_eq_of_lt hx]
  · rw [hinv, Nat.add_comm, Nat.add_mul_div_right _ _ hP, Nat.div_eq_of_lt hx, Nat.zero_add]

/-- The loop of `decode` from block index `k` on: with enough fuel it blits the blocks
`k, ..., N - 1` and returns after the call number `N`. -/
theorem decodeLoop_run {C : Type} (unpack : Nat → Nat → Nat → C) (info : ImageInfo)
    (mcu : Nat → Nat × MCUBuffers) (pt : Point) (P Cn N : Nat)
    (hP : info.m_MCUSPerRow = P) (hC : info.m_MCUSPerCol = Cn)
    (hN : N ≤ P * Cn) (hstop : N = P * Cn ∨ (mcu N).1 ≠ 0)
    (hok : ∀ j, j < N → (mcu j).1 = 0) :
    ∀ (d k x y fuel : Nat), k + d = N → k = y * P + x → x < P → d + 1 ≤ fuel →
      ∃ r, JpegDecoder.decodeLoop unpack info mcu pt fuel k x y = some r ∧
        r.output = (List.range' k d).flatMap (fun j =>
          JpegDecoder.blitMcu unpack info (mcu j).2 pt ((j % P : Nat) : Int)
            ((j / P : Nat) : Int)) ∧
        r.mcuCalls = N + 1 := by
  intro d
  induction d with
  | zero =>
    intro k x y fuel hk hinv hx hf
    obtain ⟨f, rfl⟩ : ∃ f, fuel = f + 1 := ⟨fuel - 1, by omega⟩
    have hkN : k = N := by omega
    simp only [JpegDecoder.decodeLoop]
    by_cases hs : (mcu k).1 ≠ 0
    · rw [if_pos hs]
      exact ⟨_, rfl, by simp, by simp [hkN]⟩
    · rw [if_neg hs]
      have hfull : N = P * Cn := by
        rcases hstop with h | h
        · exact h
        · exact absurd (hkN ▸ h) hs
      have hy : Cn ≤ y := by
        by_contra hlt
        have h1 : (y + 1) * P ≤ Cn * P := Nat.mul_le_mul_right P (by omega)
        have h2 : (y + 1) * P = y * P + P := by ring
        have h3 : P * Cn = Cn * P := Nat.mul_comm _ _
        omega
      have hy' : (y : Int) ≥ info.m_MCUSPerCol := by
        rw [hC]
        exact_mod_cast hy
      rw [if_pos hy']
      exact ⟨_, rfl, by simp, by simp [hkN]⟩
  | succ d ih =>
    intro k x y fuel hk hinv hx hf
    obtain ⟨f, rfl⟩ : ∃ f, fuel = f + 1 := ⟨fuel - 1, by omega⟩
    have hkN : k < N := by omega
    have hs : ¬ (mcu k).1 ≠ 0 := by
      rw [hok k hkN]
      simp
    have hy : y < Cn := by
      by_contra hge
      have h1 : Cn * P ≤ y * P := Nat.mul_le_mul_right P (by omega)
      have h3 : P * Cn = Cn * P := Nat.mul_comm _ _
      omega
    have hy' : ¬ (y : Int) ≥ info.m_MCUSPerCol := by
      rw [hC]
      intro h
      have : Cn ≤ y := by exact_mod_cast h
      omega
    obtain ⟨hmod, hdiv⟩ := index_mod_div P k x y hinv hx
    simp only [JpegDecoder.decodeLoop]
    rw [if_neg hs, if_neg hy']
    by_cases hwrap : x + 1 = P
    · have hw : (x : Int) + 1 = info.m_MCUSPerRow := by
        rw [hP]
        exact_mod_cast hwrap
      rw [if_pos hw]
      have hinv' : k + 1 = (y + 1) * P + 0 := by
        have : (y + 1) * P = y * P + P := by ring
        omega
      obtain ⟨r, hr, ho, hc⟩ := ih (k + 1) 0 (y + 1) f (by omega) hinv' (by omega) (by omega)
      have hr' : JpegDecoder.decodeLoop unpack info mcu pt f (k + 1) 0 ((y : Int) + 1)
          = some r := by
        exact_mod_cast hr
      rw [hr']
      refine ⟨_, rfl, ?_, hc⟩
      simp only [List.range'_succ, List.flatMap_cons, ho, hmod, hdiv]
    · have hw : ¬ (x : Int) + 1 = info.m_MCUSPerRow := by
        rw [hP]
        intro h
        exact hwrap (by exact_mod_cast h)
      rw [if_neg hw]
      have hinv' : k + 1 = y * P + (x + 1) := by omega
      obtain ⟨r, hr, ho, hc⟩ := ih (k + 1) (x + 1) y f (by omega) hinv' (by omega) (by omega)
      have hr' : JpegDecoder.decodeLoop unpack info mcu pt f (k + 1) ((x : Int) + 1) y
          = some r := by
        exact_mod_cast hr
      rw [hr']
      refine ⟨_, rfl, ?_, hc⟩
      simp only [List.range'_succ, List.flatMap_cons, ho, hmod, hdiv]

/-- The run of `decode` for a decoder that delivers `n` blocks: with enough fuel the
result is the blit of the first `n` blocks after `n + 1` decoder calls. -/
theorem decode_delivers {C : Type} (unpack : Nat → Nat → Nat → C) (info : ImageInfo)
    (mcu : Nat → Nat × MCUBuffers) (pt : Point) (n fuel : Nat)
    (hrow : 1 ≤ info.m_MCUSPerRow) (hcol : 0 ≤ info.m_MCUSPerCol)
    (hd : Delivers mcu (blocksOf info) n) (hf : n + 1 ≤ fuel) :
    JpegDecoder.decode unpack (0, info) mcu pt fuel
      = some ⟨blitFirst unpack info mcu pt n, n + 1⟩ := by
  obtain ⟨h1, h2, h3⟩ := hd
  have hP : info.m_MCUSPerRow = (info.m_MCUSPerRow.toNat : Int) := (Int.toNat_of_nonneg (by omega)).symm
  have hC : info.m_MCUSPerCol = (info.m_MCUSPerCol.toNat : Int) := (Int.toNat_of_nonneg hcol).symm
  have hx : 0 < info.m_MCUSPerRow.toNat := by omega
  obtain ⟨r, hr, ho, hc⟩ := decodeLoop_run unpack info mcu pt info.m_MCUSPerRow.toNat
    info.m_MCUSPerCol.toNat n hP hC h1 h3 h2 n 0 0 0 fuel (by omega) (by simp) hx hf
  have hr' : JpegDecoder.decodeLoop unpack info mcu pt fuel 0 0 0 = some r := by
    exact_mod_cast hr
  have he : r = ⟨blitFirst unpack info mcu pt n, n + 1⟩ := by
    cases r
    simp only [JpegDecoder.Result.mk.injEq]
    simp only at ho hc
    exact ⟨by rw [ho, blitFirst, List.range_eq_range'], hc⟩
  simp only [JpegDecoder.decode]
  rw [if_neg (by simp), hr', he]

/-- Every per-block decoder delivers some number of blocks, at most those of the image. -/
theorem delivers_okPrefix (mcu : Nat → Nat × MCUBuffers) (total : Nat) :
    Delivers mcu total (okPrefix (fun j => (mcu j).1) total) :=
  ⟨okPrefix_le _ total, okPrefix_ok _ total, okPrefix_stop _ total⟩

theorem movedTo_append {C : Type} (s t : List (LcdOp C)) :
    movedTo (s ++ t) = movedTo s ++ movedTo t := by
  induction s with
  | nil => rfl
  | cons a s ih => cases a <;> simp [movedTo, ih]

theorem movedTo_flatMap {C : Type} {α : Type} (l : List α) (f : α → List (LcdOp C)) :
    movedTo (l.flatMap f) = l.flatMap (fun a => movedTo (f a)) := by
  induction l with
  | nil => rfl
  | cons a l ih => simp only [List.flatMap_cons, movedTo_append, ih]

theorem movedTo_grayRow {C : Type} (unpack : Nat → Nat → Nat → C) (b : MCUBuffers)
    (n p : Nat) : movedTo (JpegDecoder.grayRow unpack b n p) = [] := by
  induction n generalizing p with
  | zero => rfl
  | succ n ih => simp [JpegDecoder.grayRow, movedTo, ih]

theorem movedTo_colourRow {C : Type} (unpack : Nat → Nat → Nat → C) (b : MCUBuffers)
    (n p : Nat) : movedTo (JpegDecoder.colourRow unpack b n p) = [] := by
  induction n generalizing p with
  | zero => rfl
  | succ n ih => simp [JpegDecoder.colourRow, movedTo, ih]

theorem movedTo_grayRows {C : Type} (unpack : Nat → Nat → Nat → C) (b : MCUBuffers)
    (w : Int) (n p : Nat) : movedTo (JpegDecoder.grayRows unpack b w n p) = [] := by
  induction n generalizing p with
  | zero => rfl
  | succ n ih => simp [JpegDecoder.grayRows, movedTo_append, movedTo_grayRow, ih]

theorem movedTo_colourRows {C : Type} (unpack : Nat → Nat → Nat → C) (b : MCUBuffers)
    (w : Int) (n p : Nat) : movedTo (JpegDecoder.colourRows unpack b w n p) = [] := by
  induction n generalizing p with
  | zero => rfl
  | succ n ih => simp [JpegDecoder.colourRows, movedTo_append, movedTo_colourRow, ih]

/-- A sub-block makes exactly one `moveTo`, to its rectangle. -/
theorem movedTo_blitSubBlock {C : Type} (unpack : Nat → Nat → Nat → C) (info : ImageInfo)
    (b : MCUBuffers) (pt : Point) (mcu_x mcu_y : Int) (y x : Nat) :
    movedTo (JpegDecoder.blitSubBlock unpack info b pt mcu_x mcu_y y x)
      = [JpegDecoder.subBlockRect info pt mcu_x mcu_y y x] := by
  unfold JpegDecoder.blitSubBlock JpegDecoder.subBlockRect
  cases info.m_scanType <;> simp [movedTo, movedTo_grayRows, movedTo_colourRows]

/-- The rectangles of one MCU: one for each sub-block, rows of sub-blocks first. -/
theorem movedTo_blitMcu {C : Type} (unpack : Nat → Nat → Nat → C) (info : ImageInfo)
    (b : MCUBuffers) (pt : Point) (mcu_x mcu_y : Int) :
    movedTo (JpegDecoder.blitMcu unpack info b pt mcu_x mcu_y)
      = (JpegDecoder.loop8 info.m_MCUHeight).flatMap fun y =>
          (JpegDecoder.loop8 info.m_MCUWidth).flatMap fun x =>
            [JpegDecoder.subBlockRect info pt mcu_x mcu_y y x] := by
  unfold JpegDecoder.blitMcu
  simp only [movedTo_flatMap, movedTo_blitSubBlock]

theorem loop8_8 : JpegDecoder.loop8 8 = [0] := by decide

theorem loop8_16 : JpegDecoder.loop8 16 = [0, 8] := by decide

/-- The rectangle of a block of an image decoded in 8x8 blocks. -/
theorem movedTo_blitMcu_8 {C : Type} (unpack : Nat → Nat → Nat → C) (info : ImageInfo)
    (b : MCUBuffers) (pt : Point) (mcu_x mcu_y : Int)
    (hw : info.m_MCUWidth = 8) (hh : info.m_MCUHeight = 8) :
    movedTo (JpegDecoder.blitMcu unpack info b pt mcu_x mcu_y)
      = [⟨pt.X + 8 * mcu_x, pt.Y + 8 * mcu_y, min 8 (info.m_width - 8 * mcu_x),
          min 8 (info.m_height - 8 * mcu_y)⟩] := by
  rw [movedTo_blitMcu, hw, hh, loop8_8]
  simp only [List.flatMap_cons, List.flatMap_nil, List.append_nil, JpegDecoder.subBlockRect,
    hw, hh]
  have e1 : mcu_x * 8 = 8 * mcu_x := Int.mul_comm _ _
  have e2 : mcu_y * 8 = 8 * mcu_y := Int.mul_comm _ _
  simp [e1, e2]

theorem flatMap_single {α β : Type} (l : List α) (f : α → β) :
    (l.flatMap fun a => [f a]) = l.map f := by
  induction l with
  | nil => rfl
  | cons a l ih => simp only [List.flatMap_cons, List.map_cons, ih, List.singleton_append]

/-- The rectangles of the first `n` blocks of an image decoded in 8x8 blocks. -/
theorem movedTo_blitFirst_8 {C : Type} (unpack : Nat → Nat → Nat → C) (info : ImageInfo)
    (mcu : Nat → Nat × MCUBuffers) (pt : Point) (n : Nat)
    (hw : info.m_MCUWidth = 8) (hh : info.m_MCUHeight = 8) :
    movedTo (blitFirst unpack info mcu pt n)
      = (List.range n).map fun k =>
          (⟨pt.X + 8 * ((k % info.m_MCUSPerRow.toNat : Nat) : Int),
            pt.Y + 8 * ((k / info.m_MCUSPerRow.toNat : Nat) : Int),
            min 8 (info.m_width - 8 * ((k % info.m_MCUSPerRow.toNat : Nat) : Int)),
            min 8 (info.m_height - 8 * ((k / info.m_MCUSPerRow.toNat : Nat) : Int))⟩
            : Rectangle) := by
  unfold blitFirst
  rw [movedTo_flatMap]
  simp only [movedTo_blitMcu_8 unpack info _ pt _ _ hw hh]
  exact flatMap_single _ _

/-- Claim C11: for an image decoded in 8x8 blocks with `MCUSPerRow >= 1` and any origin
`pt`, `decode` issues one `moveTo` per delivered block, in delivery order, and the
block number `k` (from 0) is moved to the origin
`(pt.X + 8*(k mod MCUSPerRow), pt.Y + 8*(k div MCUSPerRow))`. -/
theorem C11_block_origins_in_delivery_order {C : Type} (unpack : Nat → Nat → Nat → C)
    (info : ImageInfo) (mcu : Nat → Nat × MCUBuffers) (pt : Point) (n fuel : Nat)
    (hw : info.m_MCUWidth = 8) (hh : info.m_MCUHeight = 8)
    (hrow : 1 ≤ info.m_MCUSPerRow) (hcol : 0 ≤ info.m_MCUSPerCol)
    (hd : Delivers mcu (blocksOf info) n) (hf : n + 1 ≤ fuel) :
    ∃ r, JpegDecoder.decode unpack (0, info) mcu pt fuel = some r ∧
      (movedTo r.output).length = n ∧
      (movedTo r.output).map (fun rc => (rc.X, rc.Y))
        = (List.range n).map fun k =>
            (pt.X + 8 * ((k % info.m_MCUSPerRow.toNat : Nat) : Int),
              pt.Y + 8 * ((k / info.m_MCUSPerRow.toNat : Nat) : Int)) := by
  refine ⟨_, decode_delivers unpack info mcu pt n fuel hrow hcol hd hf, ?_, ?_⟩
  · simp only [movedTo_blitFirst_8 unpack info mcu pt n hw hh, List.length_map,
      List.length_range]
  · simp only [movedTo_blitFirst_8 unpack info mcu pt n hw hh, List.map_map]
    rfl

/-- Witness of C11: a 16x16 image delivered as four 8x8 blocks at the origin `(0, 0)`
is blitted to `rect(0,0,8,8)`, `rect(8,0,8,8)`, `rect(0,8,8,8)`, `rect(8,8,8,8)`, in
that order. -/
theorem C11_block_origins_in_delivery_order_witness :
    (∃ r, JpegDecoder.decode keepParts (0, image16x16) (deliver 4) ⟨0, 0⟩ 5 = some r ∧
      (movedTo r.output).length = 4 ∧
      (movedTo r.output).map (fun rc => (rc.X, rc.Y))
        = (List.range 4).map fun k =>
            ((0 : Int) + 8 * ((k % image16x16.m_MCUSPerRow.toNat : Nat) : Int),
              (0 : Int) + 8 * ((k / image16x16.m_MCUSPerRow.toNat : Nat) : Int))) ∧
    (JpegDecoder.decode keepParts (0, image16x16) (deliver 4) ⟨0, 0⟩ 5).map
        (fun r => movedTo r.output)
      = some [⟨0, 0, 8, 8⟩, ⟨8, 0, 8, 8⟩, ⟨0, 8, 8, 8⟩, ⟨8, 8, 8, 8⟩] :=
  ⟨C11_block_origins_in_delivery_order keepParts image16x16 (deliver 4) ⟨0, 0⟩ 4 5 rfl rfl
      (by decide) (by decide)
      ⟨by decide, fun j hj => by simp [deliver, hj], Or.inl (by decide)⟩ (by decide),
    by decide⟩

/-- Claim C12: for an image of width `W` and height `H` decoded in 8x8 blocks, the
rectangle moved to for the block at block column `bc`, block row `br` has
`Width = min(8, W - 8*bc)` and `Height = min(8, H - 8*br)`; when `W` is not a multiple
of 8 the blocks of the final column, `MCUSPerRow - 1` with `MCUSPerRow` the rounded-up
quotient, get the width `W mod 8`, and likewise for the bottom row. -/
theorem C12_block_rectangle_clipped {C : Type} (unpack : Nat → Nat → Nat → C)
    (info : ImageInfo) (b : MCUBuffers) (pt : Point) (bc br : Int)
    (hw : info.m_MCUWidth = 8) (hh : info.m_MCUHeight = 8) :
    movedTo (JpegDecoder.blitMcu unpack info b pt bc br)
      = [⟨pt.X + 8 * bc, pt.Y + 8 * br, min 8 (info.m_width - 8 * bc),
          min 8 (info.m_height - 8 * br)⟩] ∧
    (info.m_MCUSPerRow = (info.m_width + 7) / 8 → info.m_width % 8 ≠ 0 →
      (movedTo (JpegDecoder.blitMcu unpack info b pt (info.m_MCUSPerRow - 1) br)).map
          Rectangle.Width = [info.m_width % 8]) ∧
    (info.m_MCUSPerCol = (info.m_height + 7) / 8 → info.m_height % 8 ≠ 0 →
      (movedTo (JpegDecoder.blitMcu unpack info b pt bc (info.m_MCUSPerCol - 1))).map
          Rectangle.Height = [info.m_height % 8]) := by
  refine ⟨movedTo_blitMcu_8 unpack info b pt bc br hw hh, ?_, ?_⟩
  · intro hper hrem
    rw [movedTo_blitMcu_8 unpack info b pt _ br hw hh]
    simp only [List.map_cons, List.map_nil, List.cons.injEq, and_true]
    omega
  · intro hper hrem
    rw [movedTo_blitMcu_8 unpack info b pt bc _ hw hh]
    simp only [List.map_cons, List.map_nil, List.cons.injEq, and_true]
    omega

/-- Witness of C12: in an image of width 10 the block of the final column, block column
1, is moved to a rectangle of width 2. -/
theorem C12_block_rectangle_clipped_witness :
    movedTo (JpegDecoder.blitMcu keepParts image10x16 (deliver 4 1).2 ⟨0, 0⟩ 1 0)
      = [⟨8, 0, 2, 8⟩] :=
  (C12_block_rectangle_clipped keepParts image10x16 (deliver 4 1).2 ⟨0, 0⟩ 1 0 rfl rfl).1

/-- Every rectangle of an MCU is the rectangle of one of its sub-blocks. -/
theorem mem_movedTo_blitMcu {C : Type} (unpack : Nat → Nat → Nat → C) (info : ImageInfo)
    (b : MCUBuffers) (pt : Point) (mcu_x mcu_y : Int) (rc : Rectangle)
    (h : rc ∈ movedTo (JpegDecoder.blitMcu unpack info b pt mcu_x mcu_y)) :
    ∃ y x : Nat, rc = JpegDecoder.subBlockRect info pt mcu_x mcu_y y x := by
  rw [movedTo_blitMcu] at h
  simp only [List.mem_flatMap, List.mem_singleton] at h
  obtain ⟨y, _, x, _, hrc⟩ := h
  exact ⟨y, x, hrc⟩

/-- Every rectangle of the first `n` blocks is the rectangle of a sub-block of one of
them. -/
theorem mem_movedTo_blitFirst {C : Type} (unpack : Nat → Nat → Nat → C) (info : ImageInfo)
    (mcu : Nat → Nat × MCUBuffers) (pt : Point) (n : Nat) (rc : Rectangle)
    (h : rc ∈ movedTo (blitFirst unpack info mcu pt n)) :
    ∃ k y x : Nat, k < n ∧ rc = JpegDecoder.subBlockRect info pt
      ((k % info.m_MCUSPerRow.toNat : Nat) : Int) ((k / info.m_MCUSPerRow.toNat : Nat) : Int)
      y x := by
  unfold blitFirst at h
  rw [movedTo_flatMap] at h
  simp only [List.mem_flatMap, List.mem_range] at h
  obtain ⟨k, hk, hrc⟩ := h
  obtain ⟨y, x, e⟩ := mem_movedTo_blitMcu unpack info _ pt _ _ rc hrc
  exact ⟨k, y, x, hk, e⟩

/-- A sub-block rectangle stays inside the image placed at `pt`. -/
theorem subBlockRect_inside (info : ImageInfo) (pt : Point) (mcu_x mcu_y : Int)
    (y x : Nat) :
    ((JpegDecoder.subBlockRect info pt mcu_x mcu_y y x).X - pt.X)
        + (JpegDecoder.subBlockRect info pt mcu_x mcu_y y x).Width ≤ info.m_width ∧
    ((JpegDecoder.subBlockRect info pt mcu_x mcu_y y x).Y - pt.Y)
        + (JpegDecoder.subBlockRect info pt mcu_x mcu_y y x).Height ≤ info.m_height := by
  simp only [JpegDecoder.subBlockRect]
  constructor <;> omega

/-- Claim C13: for every image size, every block size the decoder reports (8 and 16
included) and every block the blitter paints, the rectangle `rc` passed to `moveTo` stays inside the image
placed at `pt`: `(rc.X - pt.X) + rc.Width <= W` and `(rc.Y - pt.Y) + rc.Height <= H`. -/
theorem C13_rectangles_inside_image {C : Type} (unpack : Nat → Nat → Nat → C)
    (info : ImageInfo) (mcu : Nat → Nat × MCUBuffers) (pt : Point) (fuel : Nat)
    (hrow : 1 ≤ info.m_MCUSPerRow) (hcol : 0 ≤ info.m_MCUSPerCol)
    (hf : blocksOf info + 1 ≤ fuel) :
    ∃ r, JpegDecoder.decode unpack (0, info) mcu pt fuel = some r ∧
      ∀ rc ∈ movedTo r.output,
        (rc.X - pt.X) + rc.Width ≤ info.m_width ∧
        (rc.Y - pt.Y) + rc.Height ≤ info.m_height := by
  have hd := delivers_okPrefix mcu (blocksOf info)
  refine ⟨_, decode_delivers unpack info mcu pt _ fuel hrow hcol hd
    (by have := hd.1; omega), ?_⟩
  intro rc hrc
  obtain ⟨k, y, x, _, e⟩ := mem_movedTo_blitFirst unpack info mcu pt _ rc hrc
  rw [e]
  exact subBlockRect_inside info pt _ _ y x

/-- Witness of C13: the 10x16 image at the origin `(3, 5)` with a decoder that never
signals completion. -/
theorem C13_rectangles_inside_image_witness :
    ∃ r, JpegDecoder.decode keepParts (0, image10x16) neverDone ⟨3, 5⟩ 5 = some r ∧
      ∀ rc ∈ movedTo r.output,
        (rc.X - 3) + rc.Width ≤ 10 ∧ (rc.Y - 5) + rc.Height ≤ 16 :=
  C13_rectangles_inside_image keepParts image10x16 neverDone ⟨3, 5⟩ 5
    (by decide) (by decide) (by decide)

section Evaluation
set_option maxRecDepth 100000

/-- Claim C14 at its failing input: a 16x16 image decoded as one 16x16 block.  The four
8x8 sub-blocks at the offsets `(0,0)`, `(8,0)`, `(0,8)`, `(8,8)` are all moved to the
origin of the block, `rect(0,0,8,8)`, and the 256 pixels are written there. -/
theorem C14_subblocks_at_failing_input :
    (JpegDecoder.decode keepParts (0, image16mcu16) (deliver 1) ⟨0, 0⟩ 2).map
        (fun r => (movedTo r.output, (pixelsOf r.output).length))
      = some ([⟨0, 0, 8, 8⟩, ⟨0, 0, 8, 8⟩, ⟨0, 0, 8, 8⟩, ⟨0, 0, 8, 8⟩], 256) := by
  decide

end Evaluation

theorem pixelsOf_append {C : Type} (s t : List (LcdOp C)) :
    pixelsOf (s ++ t) = pixelsOf s ++ pixelsOf t := by
  induction s with
  | nil => rfl
  | cons a s ih => cases a <;> simp [pixelsOf, ih]

theorem pixelsOf_flatMap {C : Type} {α : Type} (l : List α) (f : α → List (LcdOp C)) :
    pixelsOf (l.flatMap f) = l.flatMap (fun a => pixelsOf (f a)) := by
  induction l with
  | nil => rfl
  | cons a l ih => simp only [List.flatMap_cons, pixelsOf_append, ih]

/-- Every pixel of a grayscale row is the unpack of one replicated sample. -/
theorem mem_pixelsOf_grayRow {C : Type} (unpack : Nat → Nat → Nat → C) (b : MCUBuffers)
    (n p : Nat) (c : C) (h : c ∈ pixelsOf (JpegDecoder.grayRow unpack b n p)) :
    ∃ i, c = unpack (b.R i) (b.R i) (b.R i) := by
  induction n generalizing p with
  | zero => simp [JpegDecoder.grayRow, pixelsOf] at h
  | succ n ih =>
    simp only [JpegDecoder.grayRow, pixelsOf, List.mem_cons] at h
    rcases h with h | h
    · exact ⟨p, h⟩
    · exact ih (p + 1) h

theorem mem_pixelsOf_grayRows {C : Type} (unpack : Nat → Nat → Nat → C) (b : MCUBuffers)
    (w : Int) (n p : Nat) (c : C)
    (h : c ∈ pixelsOf (JpegDecoder.grayRows unpack b w n p)) :
    ∃ i, c = unpack (b.R i) (b.R i) (b.R i) := by
  induction n generalizing p with
  | zero => simp [JpegDecoder.grayRows, pixelsOf] at h
  | succ n ih =>
    simp only [JpegDecoder.grayRows, pixelsOf_append, List.mem_append] at h
    rcases h with h | h
    · exact mem_pixelsOf_grayRow unpack b _ p c h
    · exact ih _ h

/-- A grayscale row reads the first plane only. -/
theorem grayRow_congr {C : Type} (unpack : Nat → Nat → Nat → C) (b b2 : MCUBuffers)
    (hR : b2.R = b.R) (n p : Nat) :
    JpegDecoder.grayRow unpack b2 n p = JpegDecoder.grayRow unpack b n p := by
  induction n generalizing p with
  | zero => rfl
  | succ n ih => simp only [JpegDecoder.grayRow, hR, ih]

theorem grayRows_congr {C : Type} (unpack : Nat → Nat → Nat → C) (b b2 : MCUBuffers)
    (hR : b2.R = b.R) (w : Int) (n p : Nat) :
    JpegDecoder.grayRows unpack b2 w n p = JpegDecoder.grayRows unpack b w n p := by
  induction n generalizing p with
  | zero => rfl
  | succ n ih => simp only [JpegDecoder.grayRows, grayRow_congr unpack b b2 hR, ih]

/-- Claim C15: in a grayscale block every pixel the blitter writes is the Color Model's
component unpack of `(s, s, s)` for a sample `s` of the first plane buffer, and only
the first plane buffer is read: the other two buffers do not influence the output. -/
theorem C15_grayscale_replicates_sample {C : Type} (unpack : Nat → Nat → Nat → C)
    (info : ImageInfo) (b : MCUBuffers) (pt : Point) (bc br : Int)
    (hg : info.m_scanType = ScanType.PJPG_GRAYSCALE) :
    (∀ c ∈ pixelsOf (JpegDecoder.blitMcu unpack info b pt bc br),
      ∃ i, c = unpack (b.R i) (b.R i) (b.R i)) ∧
    (∀ b2 : MCUBuffers, b2.R = b.R →
      JpegDecoder.blitMcu unpack info b2 pt bc br
        = JpegDecoder.blitMcu unpack info b pt bc br) := by
  constructor
  · intro c hc
    unfold JpegDecoder.blitMcu at hc
    simp only [pixelsOf_flatMap, List.mem_flatMap] at hc
    obtain ⟨y, _, x, _, h⟩ := hc
    unfold JpegDecoder.blitSubBlock at h
    rw [hg] at h
    simp only [pixelsOf] at h
    exact mem_pixelsOf_grayRows unpack b _ _ _ c h
  · intro b2 hR
    unfold JpegDecoder.blitMcu JpegDecoder.blitSubBlock
    rw [hg]
    simp only [grayRows_congr unpack b b2 hR]

/-- Witness of C15: the 8x8 grayscale image; the 64 pixels written are the replicated
samples of the first plane. -/
theorem C15_grayscale_replicates_sample_witness :
    ((∀ c ∈ pixelsOf (JpegDecoder.blitMcu keepParts imageGray8 (neverDone 0).2 ⟨0, 0⟩ 0 0),
        ∃ i, c = keepParts ((neverDone 0).2.R i) ((neverDone 0).2.R i) ((neverDone 0).2.R i)) ∧
      (∀ b2 : MCUBuffers, b2.R = (neverDone 0).2.R →
        JpegDecoder.blitMcu keepParts imageGray8 b2 ⟨0, 0⟩ 0 0
          = JpegDecoder.blitMcu keepParts imageGray8 (neverDone 0).2 ⟨0, 0⟩ 0 0)) ∧
    (pixelsOf (JpegDecoder.blitMcu keepParts imageGray8 (neverDone 0).2 ⟨0, 0⟩ 0 0)).take 3
      = [(0, 0, 0), (1, 1, 1), (2, 2, 2)] :=
  ⟨C15_grayscale_replicates_sample keepParts imageGray8 (neverDone 0).2 ⟨0, 0⟩ 0 0 rfl,
    by decide⟩

/-- Claim C16: if decoder initialisation fails, `decode` performs no operation on the
device and calls the per-block decoder not at all; and if the calls `0, ..., k - 1` of
the per-block decoder succeed and the call number `k`, its `(k+1)`-th invocation, fails,
the device output of `decode` is exactly the output produced by blitting the first `k`
blocks, and that failing call is the last one. -/
theorem C16_failure_keeps_written_prefix {C : Type} (unpack : Nat → Nat → Nat → C)
    (init : Nat × ImageInfo) (info : ImageInfo) (mcu : Nat → Nat × MCUBuffers) (pt : Point)
    (k fuel : Nat) (hinit : init.1 ≠ 0)
    (hrow : 1 ≤ info.m_MCUSPerRow) (hcol : 0 ≤ info.m_MCUSPerCol)
    (hk : k ≤ blocksOf info) (hok : ∀ j, j < k → (mcu j).1 = 0) (hbad : (mcu k).1 ≠ 0)
    (hf : k + 1 ≤ fuel) :
    (∀ f, JpegDecoder.decode unpack init mcu pt f = some ⟨[], 0⟩) ∧
    JpegDecoder.decode unpack (0, info) mcu pt fuel
      = some ⟨blitFirst unpack info mcu pt k, k + 1⟩ := by
  constructor
  · intro f
    simp only [JpegDecoder.decode]
    rw [if_pos hinit]
  · exact decode_delivers unpack info mcu pt k fuel hrow hcol ⟨hk, hok, Or.inr hbad⟩ hf

/-- Witness of C16: a failed initialisation, and a decoder whose third call fails on
the 16x16 image. -/
theorem C16_failure_keeps_written_prefix_witness :
    (∀ f, JpegDecoder.decode keepParts (1, image16x16) (deliver 2) ⟨0, 0⟩ f = some ⟨[], 0⟩) ∧
    JpegDecoder.decode keepParts (0, image16x16) (deliver 2) ⟨0, 0⟩ 3
      = some ⟨blitFirst keepParts image16x16 (deliver 2) ⟨0, 0⟩ 2, 3⟩ :=
  C16_failure_keeps_written_prefix keepParts (1, image16x16) image16x16 (deliver 2) ⟨0, 0⟩
    2 3 (by decide) (by decide) (by decide) (by decide)
    (fun j hj => by simp [deliver, hj]) (by simp [deliver]) (by decide)

/-- Claim C17: for every image info with `MCUSPerRow >= 1` and `MCUSPerCol >= 0` and
every behaviour of the per-block decoder, `decode` terminates: from
`MCUSPerRow * MCUSPerCol + 1` iterations of fuel on it returns one and the same result.
It blits `n <= MCUSPerRow * MCUSPerCol` blocks, none with a block row `>= MCUSPerCol`,
and calls the per-block decoder `n + 1 <= MCUSPerRow * MCUSPerCol + 1` times. -/
theorem C17_decode_terminates {C : Type} (unpack : Nat → Nat → Nat → C) (info : ImageInfo)
    (mcu : Nat → Nat × MCUBuffers) (pt : Point)
    (hrow : 1 ≤ info.m_MCUSPerRow) (hcol : 0 ≤ info.m_MCUSPerCol) :
    ∃ (r : JpegDecoder.Result C) (n : Nat),
      (∀ fuel, blocksOf info + 1 ≤ fuel →
        JpegDecoder.decode unpack (0, info) mcu pt fuel = some r) ∧
      r.output = blitFirst unpack info mcu pt n ∧
      n ≤ blocksOf info ∧
      (∀ k, k < n → ((k / info.m_MCUSPerRow.toNat : Nat) : Int) < info.m_MCUSPerCol) ∧
      r.mcuCalls = n + 1 ∧
      r.mcuCalls ≤ blocksOf info + 1 := by
  have hd := delivers_okPrefix mcu (blocksOf info)
  have hle := hd.1
  refine ⟨⟨blitFirst unpack info mcu pt _, _ + 1⟩, okPrefix (fun j => (mcu j).1) (blocksOf info),
    ?_, rfl, hle, ?_, rfl, by simp only; omega⟩
  · intro fuel hf
    exact decode_delivers unpack info mcu pt _ fuel hrow hcol hd (by omega)
  · intro k hk
    have hlt : k < info.m_MCUSPerRow.toNat * info.m_MCUSPerCol.toNat := by
      have hb : blocksOf info = info.m_MCUSPerRow.toNat * info.m_MCUSPerCol.toNat := rfl
      omega
    have hdiv : k / info.m_MCUSPerRow.toNat < info.m_MCUSPerCol.toNat :=
      Nat.div_lt_of_lt_mul hlt
    omega

/-- Witness of C17: the 16x16 image with a decoder that never signals completion. -/
theorem C17_decode_terminates_witness :
    ∃ (r : JpegDecoder.Result (Nat × Nat × Nat)) (n : Nat),
      (∀ fuel, blocksOf image16x16 + 1 ≤ fuel →
        JpegDecoder.decode keepParts (0, image16x16) neverDone ⟨0, 0⟩ fuel = some r) ∧
      r.output = blitFirst keepParts image16x16 neverDone ⟨0, 0⟩ n ∧
      n ≤ blocksOf image16x16 ∧
      (∀ k, k < n → ((k / image16x16.m_MCUSPerRow.toNat : Nat) : Int)
        < image16x16.m_MCUSPerCol) ∧
      r.mcuCalls = n + 1 ∧
      r.mcuCalls ≤ blocksOf image16x16 + 1 :=
  C17_decode_terminates keepParts image16x16 neverDone ⟨0, 0⟩ (by decide) (by decide)

/-! ## Scroll position -/

/-- The LDS285 pull-into-range step adds or subtracts 320 once. -/
theorem lds285_pull_cases (offset : Int) (hlo : -32768 ≤ offset) (hhi : offset ≤ 32767) :
    LDS285OrientationPortrait.pullIntoRange offset
      = (if offset < 0 then offset + 320 else if offset > 319 then offset - 320 else offset) ∧
    LDS285OrientationLandscape.pullIntoRange offset
      = (if offset < 0 then offset + 320 else if offset > 319 then offset - 320 else offset) := by
  unfold LDS285OrientationPortrait.pullIntoRange LDS285OrientationLandscape.pullIntoRange wrap16
  constructor <;> split_ifs <;> omega

/-- The MC2PA8201 pull-into-range step with a scroll height of 320 adds or subtracts
320 once. -/
theorem mc2pa8201_pull_cases (T : mc2pa8201.PanelTraits) (offset : Int)
    (hT : T.getScrollHeight = 320) (hlo : -32768 ≤ offset) (hhi : offset ≤ 32767) :
    MC2PA8201OrientationPortrait.pullIntoRange T offset
      = (if offset < 0 then offset + 320 else if offset > 319 then offset - 320 else offset) := by
  unfold MC2PA8201OrientationPortrait.pullIntoRange wrap16
  rw [hT]
  simp only [Nat.cast_ofNat]
  split_ifs <;> omega

/-- Claim C18 at its failing input: the offsets 640 and -321 are 16-bit signed values,
and the pull-into-range step, which adds or subtracts the scroll height once, leaves
them at 320 and at -1, outside `0..319`, in all three implementations; these values are
then written to the scroll register, as the bytes `1, 64` and `255, 255`. -/
theorem C18_pull_into_range_at_failing_input :
    LDS285OrientationPortrait.pullIntoRange 640 = 320 ∧
    LDS285OrientationPortrait.pullIntoRange (-321) = -1 ∧
    LDS285OrientationLandscape.pullIntoRange 640 = 320 ∧
    LDS285OrientationLandscape.pullIntoRange (-321) = -1 ∧
    MC2PA8201OrientationPortrait.pullIntoRange (Nokia6300_TypeC sampleOpcodesMC 0x2A 0x2B) 640
      = 320 ∧
    MC2PA8201OrientationPortrait.pullIntoRange (Nokia6300_TypeC sampleOpcodesMC 0x2A 0x2B) (-321)
      = -1 ∧
    LDS285OrientationPortrait.setScrollPosition sampleOpcodes 640
      = [Call.writeCommand 0x37, Call.writeData 1, Call.writeData 64] ∧
    LDS285OrientationPortrait.setScrollPosition sampleOpcodes (-321)
      = [Call.writeCommand 0x37, Call.writeData 255, Call.writeData 255] ∧
    LDS285OrientationLandscape.setScrollPosition sampleOpcodes 640
      = [Call.writeCommand 0x37, Call.writeData 1, Call.writeData 64] ∧
    LDS285OrientationLandscape.setScrollPosition sampleOpcodes (-321)
      = [Call.writeCommand 0x37, Call.writeData 255, Call.writeData 255] := by
  decide

/-- Claim C19 at its failing input: 320 and 640 are both 16-bit signed values, yet the
LDS285 portrait `setScrollPosition` pulls 320 to 0 and 640 to 320 and writes the bytes
`0, 0` for 320 and `1, 64` for 640; with the Nokia 6300 traits table the MC2PA8201
portrait `setScrollPosition` writes `1, 63` for 321 and `255, 255` for 641. -/
theorem C19_scroll_period_at_failing_input :
    LDS285OrientationPortrait.pullIntoRange 320 = 0 ∧
    LDS285OrientationPortrait.pullIntoRange (320 + 320) = 320 ∧
    LDS285OrientationPortrait.setScrollPosition sampleOpcodes 320
      = [Call.delay 0, Call.writeCommand 0x37, Call.writeData 0, Call.writeData 0] ∧
    LDS285OrientationPortrait.setScrollPosition sampleOpcodes (320 + 320)
      = [Call.writeCommand 0x37, Call.writeData 1, Call.writeData 64] ∧
    MC2PA8201OrientationPortrait.setScrollPosition sampleOpcodesMC
        (Nokia6300_TypeC sampleOpcodesMC 0x2A 0x2B) 321
      = [Call.writeCommand 0x37, Call.writeData 1, Call.writeData 63] ∧
    MC2PA8201OrientationPortrait.setScrollPosition sampleOpcodesMC
        (Nokia6300_TypeC sampleOpcodesMC 0x2A 0x2B) (321 + 320)
      = [Call.writeCommand 0x37, Call.writeData 255, Call.writeData 255] := by
  decide

/-- Claim C20: when the Panel Traits table reports that hardware scrolling is
unsupported for portrait, the MC2PA8201 portrait `setScrollPosition(offset)` makes no
call at all for every offset: no command, no data byte, no delay; `NokiaN93_TypeA`
reports it unsupported for every orientation. -/
theorem C20_no_scrolling_is_noop (k : mc2pa8201.Opcodes) (T : mc2pa8201.PanelTraits)
    (offset : Int) (hT : T.hasHardwareScrolling Orientation.PORTRAIT = false) :
    MC2PA8201OrientationPortrait.setScrollPosition k T offset = [] ∧
    (∀ (portraitColumn portraitPage : Nat) (o : Orientation),
      (NokiaN93_TypeA k portraitColumn portraitPage).hasHardwareScrolling o = false) ∧
    (∀ (portraitColumn portraitPage : Nat),
      MC2PA8201OrientationPortrait.setScrollPosition k
        (NokiaN93_TypeA k portraitColumn portraitPage) offset = []) := by
  refine ⟨?_, fun _ _ _ => rfl, fun _ _ => ?_⟩
  · simp only [MC2PA8201OrientationPortrait.setScrollPosition, hT]
    rfl
  · simp only [MC2PA8201OrientationPortrait.setScrollPosition, NokiaN93_TypeA]
    rfl

/-- Witness of C20: the Nokia N93 traits table and the offset 100. -/
theorem C20_no_scrolling_is_noop_witness :
    MC2PA8201OrientationPortrait.setScrollPosition sampleOpcodesMC
      (NokiaN93_TypeA sampleOpcodesMC 0x2A 0x2B) 100 = [] :=
  (C20_no_scrolling_is_noop sampleOpcodesMC (NokiaN93_TypeA sampleOpcodesMC 0x2A 0x2B) 100
    rfl).1

/-! ## Panel traits and scrolling -/

/-- Claim C21: with the `Nokia6300_TypeC` traits, for every offset in `0..319` the
MC2PA8201 portrait `setScrollPosition(offset)` emits the vertical-scrolling-start-address
command followed by exactly two data bytes, the high byte then the low byte of `t`,
where `t = 0` when `offset = 0` and `t = 320 - offset` otherwise; `t` lies in `0..319`.
The only other call is the `delay(0)` made before the command when `t = 0`. -/
theorem C21_nokia6300_scroll_bytes (k : mc2pa8201.Opcodes) (portraitColumn portraitPage : Nat)
    (offset : Int) (h0 : 0 ≤ offset) (h1 : offset ≤ 319) :
    busCalls (MC2PA8201OrientationPortrait.setScrollPosition k
        (Nokia6300_TypeC k portraitColumn portraitPage) offset)
      = [ Call.writeCommand k.VERTICAL_SCROLLING_START_ADDRESS,
          Call.writeData (hi (scrollTarget offset)),
          Call.writeData (lo (scrollTarget offset)) ] ∧
    MC2PA8201OrientationPortrait.setScrollPosition k
        (Nokia6300_TypeC k portraitColumn portraitPage) offset
      = (if scrollTarget offset = 0 then [Call.delay 0] else []) ++
        [ Call.writeCommand k.VERTICAL_SCROLLING_START_ADDRESS,
          Call.writeData (hi (scrollTarget offset)),
          Call.writeData (lo (scrollTarget offset)) ] ∧
    0 ≤ scrollTarget offset ∧ scrollTarget offset ≤ 319 := by
  have hpull : MC2PA8201OrientationPortrait.pullIntoRange
      (Nokia6300_TypeC k portraitColumn portraitPage) offset = offset := by
    rw [mc2pa8201_pull_cases _ offset rfl (by omega) (by omega)]
    split_ifs <;> omega
  have hnorm : (Nokia6300_TypeC k portraitColumn portraitPage).normaliseScrollPosition offset
      = scrollTarget offset := by
    simp only [Nokia6300_TypeC, scrollTarget, wrap16]
    split_ifs <;> omega
  have hfull : MC2PA8201OrientationPortrait.setScrollPosition k
        (Nokia6300_TypeC k portraitColumn portraitPage) offset
      = (if scrollTarget offset = 0 then [Call.delay 0] else []) ++
        [ Call.writeCommand k.VERTICAL_SCROLLING_START_ADDRESS,
          Call.writeData (hi (scrollTarget offset)),
          Call.writeData (lo (scrollTarget offset)) ] := by
    have hs : (Nokia6300_TypeC k portraitColumn portraitPage).hasHardwareScrolling
        Orientation.PORTRAIT = true := rfl
    simp only [MC2PA8201OrientationPortrait.setScrollPosition, hs, if_true, hpull, hnorm,
      u8i_shift8, u8i_andFF]
  refine ⟨?_, hfull, ?_, ?_⟩
  · rw [hfull]
    by_cases ht : scrollTarget offset = 0
    · rw [if_pos ht]
      rfl
    · rw [if_neg ht]
      rfl
  · unfold scrollTarget
    split_ifs <;> omega
  · unfold scrollTarget
    split_ifs <;> omega

/-- Witness of C21: the offset 100 is written as `220`, bytes `0, 220`. -/
theorem C21_nokia6300_scroll_bytes_witness :
    busCalls (MC2PA8201OrientationPortrait.setScrollPosition sampleOpcodesMC
        (Nokia6300_TypeC sampleOpcodesMC 0x2A 0x2B) 100)
      = [Call.writeCommand 0x37, Call.writeData 0, Call.writeData 220] :=
  (C21_nokia6300_scroll_bytes sampleOpcodesMC 0x2A 0x2B 100 (by decide) (by decide)).1

/-! ## Access modes at pin level -/

theorem testBit_setBit (v b c : Nat) :
    (setBit v b).testBit c = (decide (c < 8) && (v.testBit c || decide (b = c))) := by
  have e : (256 : Nat) = 2 ^ 8 := by norm_num
  unfold setBit u8
  rw [e, Nat.testBit_mod_two_pow, Nat.testBit_or, Nat.one_shiftLeft, Nat.testBit_two_pow]

theorem testBit_clearBit (v b c : Nat) :
    (clearBit v b).testBit c = (decide (c < 8) && (v.testBit c && !decide (b = c))) := by
  have e : (256 : Nat) = 2 ^ 8 := by norm_num
  have e2 : (0xFF : Nat) = 2 ^ 8 - 1 := by norm_num
  unfold clearBit u8
  rw [e, Nat.testBit_mod_two_pow, Nat.testBit_and, Nat.testBit_xor, Nat.one_shiftLeft,
    Nat.testBit_two_pow, e2, Nat.testBit_two_pow_sub_one]
  by_cases h1 : c < 8 <;> by_cases h2 : b = c <;> simp [h1, h2]

theorem strobeBlock_succ (M : PinMappings) (r18 r19 n : Nat) :
    Gpio16AccessMode.strobeBlock M r18 r19 (n + 1)
      = Gpio16AccessMode.strobe M r18 r19 ++ Gpio16AccessMode.strobeBlock M r18 r19 n := by
  simp only [Gpio16AccessMode.strobeBlock, List.replicate_succ, List.flatten_cons]

theorem strobeBlock_add (M : PinMappings) (r18 r19 a b : Nat) :
    Gpio16AccessMode.strobeBlock M r18 r19 (a + b)
      = Gpio16AccessMode.strobeBlock M r18 r19 a ++ Gpio16AccessMode.strobeBlock M r18 r19 b := by
  simp only [Gpio16AccessMode.strobeBlock, List.replicate_add, List.flatten_append]

/-- The tail dispatch runs exactly the strobes left, when fewer than 40 are left. -/
theorem lastlot_eq (M : PinMappings) (r18 r19 n : Nat) (h : n < 40) :
    Gpio16AccessMode.lastlot M r18 r19 n = Gpio16AccessMode.strobeBlock M r18 r19 n := by
  interval_cases n <;> rfl

/-- Batches and tail together make one strobe for each unit of the 24-bit count. -/
theorem batch_lastlot_eq (M : PinMappings) (r18 r19 : Nat) (n : Nat) :
    (Gpio16AccessMode.batchLoop M r18 r19 n).1 ++
        Gpio16AccessMode.lastlot M r18 r19 (Gpio16AccessMode.batchLoop M r18 r19 n).2
      = Gpio16AccessMode.strobeBlock M r18 r19 n := by
  induction n using Nat.strong_induction_on with
  | _ n ih =>
    rw [Gpio16AccessMode.batchLoop]
    by_cases h : 40 ≤ n
    · simp only [h, dite_true]
      have e : n = 40 + (n - 40) := by omega
      rw [List.append_assoc, ih (n - 40) (by omega)]
      conv_rhs => rw [e, strobeBlock_add]
    · simp only [h, dite_false, List.nil_append]
      exact lastlot_eq M r18 r19 n (by omega)

theorem busWrites_append (M : PinMappings) (p : Probe) (a b : List PinOp) :
    busWrites M p (a ++ b) = busWrites M p a ++ busWrites M (Probe.after M p a) b := by
  induction a generalizing p with
  | nil => rfl
  | cons op a ih =>
    simp only [List.cons_append, busWrites, Probe.after]
    cases (p.step M op).2 <;> simp [ih]

theorem after_append (M : PinMappings) (p : Probe) (a b : List PinOp) :
    Probe.after M p (a ++ b) = Probe.after M (Probe.after M p a) b := by
  induction a generalizing p with
  | nil => rfl
  | cons op a ih =>
    show Probe.after M (p.step M op).1 (a ++ b) = _
    rw [ih]
    rfl

theorem after_avr (M : PinMappings) (p : Probe) (ops : List PinOp) :
    (Probe.after M p ops).avr = p.avr.run ops := by
  induction ops generalizing p with
  | nil => rfl
  | cons op ops ih => simp only [Probe.after, Avr.run, ih, Probe.step]

/-- The setup of `writeMultiData` with the default pin mapping makes no `/WR` pulse,
arms the bus and leaves the interrupt flag alone. -/
theorem multiSetup_armed (p : Probe) (lo8 hi8 : Nat) (hlo : lo8 < 256) (hhi : hi8 < 256) :
    busWrites Gpio16AccessModeXmemMapping p
        (Gpio16AccessMode.multiSetup Gpio16AccessModeXmemMapping lo8 hi8) = [] ∧
    (Probe.after Gpio16AccessModeXmemMapping p
        (Gpio16AccessMode.multiSetup Gpio16AccessModeXmemMapping lo8 hi8)).armed
      Gpio16AccessModeXmemMapping lo8 hi8 ∧
    (Probe.after Gpio16AccessModeXmemMapping p
        (Gpio16AccessMode.multiSetup Gpio16AccessModeXmemMapping lo8 hi8)).avr.I = p.avr.I := by
  have e1 : u8 lo8 = lo8 := Nat.mod_eq_of_lt hlo
  have e2 : u8 hi8 = hi8 := Nat.mod_eq_of_lt hhi
  refine ⟨?_, ?_, ?_⟩
  · simp [-Nat.testBit_zero, Gpio16AccessMode.multiSetup, Gpio16AccessModeXmemMapping,
      busWrites, Probe.step, Avr.exec, Function.update, testBit_setBit, testBit_clearBit]
  · simp [-Nat.testBit_zero, Gpio16AccessMode.multiSetup, Gpio16AccessModeXmemMapping,
      Probe.armed, Probe.after, Probe.step, Avr.exec, Function.update, testBit_setBit,
      testBit_clearBit, e1, e2]
  · simp [Gpio16AccessMode.multiSetup, Gpio16AccessModeXmemMapping, Probe.after,
      Probe.step, Avr.exec]

/-- One strobe on an armed bus, default pin mapping: one write of the word
`(lo8, hi8)` with `RS` high, and the bus stays armed. -/
theorem strobe_armed (p : Probe) (lo8 hi8 r18 r19 : Nat)
    (hp : p.armed Gpio16AccessModeXmemMapping lo8 hi8)
    (h18w : r18.testBit 0 = false) (h18a : r18.testBit 2 = false)
    (h19w : r19.testBit 0 = true) (h19a : r19.testBit 2 = false) :
    busWrites Gpio16AccessModeXmemMapping p
        (Gpio16AccessMode.strobe Gpio16AccessModeXmemMapping r18 r19)
      = [⟨true, lo8, hi8, p.avr.I⟩] ∧
    (Probe.after Gpio16AccessModeXmemMapping p
        (Gpio16AccessMode.strobe Gpio16AccessModeXmemMapping r18 r19)).armed
      Gpio16AccessModeXmemMapping lo8 hi8 ∧
    (Probe.after Gpio16AccessModeXmemMapping p
        (Gpio16AccessMode.strobe Gpio16AccessModeXmemMapping r18 r19)).avr.I = p.avr.I := by
  obtain ⟨a1, a2, a3, a4⟩ := hp
  simp only [Gpio16AccessModeXmemMapping] at a1 a2 a3 a4
  have e : (256 : Nat) = 2 ^ 8 := by norm_num
  have b18w : (u8 r18).testBit 0 = false := by
    unfold u8; rw [e, Nat.testBit_mod_two_pow, h18w]; rfl
  have b18a : (u8 r18).testBit 2 = false := by
    unfold u8; rw [e, Nat.testBit_mod_two_pow, h18a]; rfl
  have b19w : (u8 r19).testBit 0 = true := by
    unfold u8; rw [e, Nat.testBit_mod_two_pow, h19w]; rfl
  have b19a : (u8 r19).testBit 2 = false := by
    unfold u8; rw [e, Nat.testBit_mod_two_pow, h19a]; rfl
  refine ⟨?_, ?_, ?_⟩
  · simp [-Nat.testBit_zero, Gpio16AccessMode.strobe, Gpio16AccessModeXmemMapping, busWrites,
      Probe.step, Avr.exec, Function.update, b18w, b18a, b19w, b19a, a2, a3, a4]
  · simp [-Nat.testBit_zero, Gpio16AccessMode.strobe, Gpio16AccessModeXmemMapping,
      Probe.armed, Probe.after, Probe.step, Avr.exec, Function.update, b18a, b19a, a2, a3, a4]
  · simp [Gpio16AccessMode.strobe, Probe.after, Probe.step, Avr.exec]

/-- A block of `n` strobes on an armed bus: `n` writes of the same word. -/
theorem strobeBlock_armed (lo8 hi8 r18 r19 : Nat)
    (h18w : r18.testBit 0 = false) (h18a : r18.testBit 2 = false)
    (h19w : r19.testBit 0 = true) (h19a : r19.testBit 2 = false) (n : Nat) :
    ∀ p : Probe, p.armed Gpio16AccessModeXmemMapping lo8 hi8 →
      busWrites Gpio16AccessModeXmemMapping p
          (Gpio16AccessMode.strobeBlock Gpio16AccessModeXmemMapping r18 r19 n)
        = List.replicate n ⟨true, lo8, hi8, p.avr.I⟩ ∧
      (Probe.after Gpio16AccessModeXmemMapping p
          (Gpio16AccessMode.strobeBlock Gpio16AccessModeXmemMapping r18 r19 n)).armed
        Gpio16AccessModeXmemMapping lo8 hi8 ∧
      (Probe.after Gpio16AccessModeXmemMapping p
          (Gpio16AccessMode.strobeBlock Gpio16AccessModeXmemMapping r18 r19 n)).avr.I
        = p.avr.I := by
  induction n with
  | zero =>
    intro p hp
    exact ⟨rfl, hp, rfl⟩
  | succ n ih =>
    intro p hp
    obtain ⟨s1, s2, s3⟩ := strobe_armed p lo8 hi8 r18 r19 hp h18w h18a h19w h19a
    obtain ⟨i1, i2, i3⟩ := ih _ s2
    rw [strobeBlock_succ, busWrites_append, after_append, s1, i1, i3, s3]
    exact ⟨rfl, i2, rfl⟩

/-- Clearing or setting the interrupt flag makes no `/WR` pulse and keeps an armed bus
armed. -/
theorem flag_op_armed (M : PinMappings) (p : Probe) (lo8 hi8 : Nat) (op : PinOp)
    (hop : op = PinOp.cli ∨ op = PinOp.sei) (hp : p.armed M lo8 hi8) :
    busWrites M p [op] = [] ∧ (Probe.after M p [op]).armed M lo8 hi8 := by
  obtain ⟨a1, a2, a3, a4⟩ := hp
  rcases hop with h | h <;> subst h <;>
    simp [busWrites, Probe.after, Probe.step, Avr.exec, Probe.armed, a1, a2, a3, a4]

/-- The operations of `writeMultiData` in sequence: setup, interrupt save, one strobe
for each unit of the 24-bit count, interrupt restore. -/
theorem writeMultiData_eq (M : PinMappings) (s : Avr) (n lo8 hi8 : Nat) :
    Gpio16AccessMode.writeMultiData M s n lo8 hi8
      = Gpio16AccessMode.multiSetup M lo8 hi8 ++
        ((if (s.run (Gpio16AccessMode.multiSetup M lo8 hi8)).I then [PinOp.cli] else []) ++
          (Gpio16AccessMode.strobeBlock M
              (u8 ((s.run (Gpio16AccessMode.multiSetup M lo8 hi8)).io M.PORT_WR
                &&& (0xFF ^^^ u8 (1 <<< M.PIN_WR))))
              (u8 ((s.run (Gpio16AccessMode.multiSetup M lo8 hi8)).io M.PORT_WR
                ||| u8 (1 <<< M.PIN_WR)))
              (n % 2 ^ 24) ++
            (if (s.run (Gpio16AccessMode.multiSetup M lo8 hi8)).I then [PinOp.sei]
              else []))) := by
  unfold Gpio16AccessMode.writeMultiData Gpio16AccessMode.multiSetup
  simp only [List.append_assoc]
  rw [← batch_lastlot_eq]
  simp only [List.append_assoc]

/-- The run of `writeMultiData` with the default pin mapping: one write of the word
`(lo8, hi8)` for each unit of the 24-bit count, all with interrupts disabled, and the
interrupt flag is left as it was. -/
theorem writeMultiData_default (s : Avr) (latch n lo8 hi8 : Nat)
    (hlo : lo8 < 256) (hhi : hi8 < 256) :
    busWrites Gpio16AccessModeXmemMapping ⟨s, latch⟩
        (Gpio16AccessMode.writeMultiData Gpio16AccessModeXmemMapping s n lo8 hi8)
      = List.replicate (n % 2 ^ 24) ⟨true, lo8, hi8, false⟩ ∧
    (s.run (Gpio16AccessMode.writeMultiData Gpio16AccessModeXmemMapping s n lo8 hi8)).I
      = s.I := by
  obtain ⟨u1, u2, u3⟩ := multiSetup_armed ⟨s, latch⟩ lo8 hi8 hlo hhi
  have hav := after_avr Gpio16AccessModeXmemMapping ⟨s, latch⟩
    (Gpio16AccessMode.multiSetup Gpio16AccessModeXmemMapping lo8 hi8)
  simp only at hav u3
  have hI : (s.run (Gpio16AccessMode.multiSetup Gpio16AccessModeXmemMapping lo8 hi8)).I
      = s.I := by rw [← hav, u3]
  have hale : ((s.run (Gpio16AccessMode.multiSetup Gpio16AccessModeXmemMapping lo8 hi8)).io
      0x14).testBit 2 = false := by
    rw [← hav]
    exact u2.1
  have h18w := testBit_clearBit
    ((s.run (Gpio16AccessMode.multiSetup Gpio16AccessModeXmemMapping lo8 hi8)).io 0x14) 0 0
  have h18a := testBit_clearBit
    ((s.run (Gpio16AccessMode.multiSetup Gpio16AccessModeXmemMapping lo8 hi8)).io 0x14) 0 2
  have h19w := testBit_setBit
    ((s.run (Gpio16AccessMode.multiSetup Gpio16AccessModeXmemMapping lo8 hi8)).io 0x14) 0 0
  have h19a := testBit_setBit
    ((s.run (Gpio16AccessMode.multiSetup Gpio16AccessModeXmemMapping lo8 hi8)).io 0x14) 0 2
  rw [hale] at h18a h19a
  simp only [decide_True, decide_False, Bool.not_true, Bool.and_false, Bool.or_true,
    Bool.and_true, Bool.false_and, Bool.or_false, Bool.and_self, lt_self_iff_false,
    Nat.lt_irrefl, Nat.ofNat_pos, OfNat.zero_ne_ofNat] at h18w h18a h19w h19a
  have e18 : u8 ((s.run (Gpio16AccessMode.multiSetup Gpio16AccessModeXmemMapping lo8 hi8)).io
        Gpio16AccessModeXmemMapping.PORT_WR
          &&& (0xFF ^^^ u8 (1 <<< Gpio16AccessModeXmemMapping.PIN_WR)))
      = clearBit ((s.run (Gpio16AccessMode.multiSetup Gpio16AccessModeXmemMapping lo8 hi8)).io
          0x14) 0 := rfl
  have e19 : u8 ((s.run (Gpio16AccessMode.multiSetup Gpio16AccessModeXmemMapping lo8 hi8)).io
        Gpio16AccessModeXmemMapping.PORT_WR
          ||| u8 (1 <<< Gpio16AccessModeXmemMapping.PIN_WR))
      = setBit ((s.run (Gpio16AccessMode.multiSetup Gpio16AccessModeXmemMapping lo8 hi8)).io
          0x14) 0 := rfl
  rw [writeMultiData_eq, hI, e18, e19]
  have blk := strobeBlock_armed lo8 hi8 _ _ h18w h18a h19w h19a (n % 2 ^ 24)
  cases hs : s.I
  · -- interrupts were disabled on entry
    simp only [Bool.false_eq_true, if_false, List.nil_append, List.append_nil]
    obtain ⟨b1, _, b3⟩ := blk _ u2
    constructor
    · rw [busWrites_append, u1, List.nil_append]
      exact b1.trans (by rw [u3, hs])
    · rw [← after_avr Gpio16AccessModeXmemMapping ⟨s, latch⟩, after_append]
      exact b3.trans (by rw [u3, hs])
  · -- interrupts were enabled on entry
    simp only [if_true]
    obtain ⟨c1, c2⟩ := flag_op_armed Gpio16AccessModeXmemMapping _ lo8 hi8 PinOp.cli
      (Or.inl rfl) u2
    obtain ⟨b1, _, b3⟩ := blk _ c2
    constructor
    · rw [busWrites_append, u1, List.nil_append, busWrites_append, c1, List.nil_append,
        busWrites_append, b1]
      simp [busWrites, Probe.step, Avr.exec, Probe.after]
    · rw [← after_avr Gpio16AccessModeXmemMapping ⟨s, latch⟩, after_append, after_append,
        after_append]
      rfl

/-- One `writeData` with the default pin mapping, from any state of the bus: one write
of the word `(lo8, hi8)` with `RS` high; the interrupt flag is left alone. -/
theorem writeData_default (p : Probe) (lo8 hi8 : Nat) (hlo : lo8 < 256) (hhi : hi8 < 256) :
    busWrites Gpio16AccessModeXmemMapping p
        (Gpio16AccessMode.writeData Gpio16AccessModeXmemMapping lo8 hi8)
      = [⟨true, lo8, hi8, p.avr.I⟩] ∧
    (Probe.after Gpio16AccessModeXmemMapping p
        (Gpio16AccessMode.writeData Gpio16AccessModeXmemMapping lo8 hi8)).avr.I = p.avr.I := by
  have e1 : u8 lo8 = lo8 := Nat.mod_eq_of_lt hlo
  have e2 : u8 hi8 = hi8 := Nat.mod_eq_of_lt hhi
  constructor
  · simp [-Nat.testBit_zero, Gpio16AccessMode.writeData, Gpio16AccessModeXmemMapping,
      busWrites, Probe.step, Avr.exec, Function.update, testBit_setBit, testBit_clearBit, e1, e2]
  · simp [Gpio16AccessMode.writeData, Gpio16AccessModeXmemMapping, Probe.after,
      Probe.step, Avr.exec]

/-- `n` successive `writeData` calls with the default pin mapping: `n` writes of the
same word. -/
theorem writeData_repeat_default (lo8 hi8 : Nat) (hlo : lo8 < 256) (hhi : hi8 < 256)
    (n : Nat) :
    ∀ p : Probe,
      busWrites Gpio16AccessModeXmemMapping p
          (List.replicate n
            (Gpio16AccessMode.writeData Gpio16AccessModeXmemMapping lo8 hi8)).flatten
        = List.replicate n ⟨true, lo8, hi8, p.avr.I⟩ := by
  induction n with
  | zero => intro p; rfl
  | succ n ih =>
    intro p
    obtain ⟨w1, w2⟩ := writeData_default p lo8 hi8 hlo hhi
    rw [List.replicate_succ, List.flatten_cons, busWrites_append, w1, ih, w2]
    rfl

/-- Counterexample to C22 as stated: the 32-bit count `16777216` (2 to the 24) makes
`writeMultiData` issue no `/WR` pulse at all, where that many `writeData` calls issue
16777216 write transactions. -/
theorem C22_writeMultiData_count_counterexample :
    busWrites Gpio16AccessModeXmemMapping ⟨sampleAvr, 0⟩
        (Gpio16AccessMode.writeMultiData Gpio16AccessModeXmemMapping sampleAvr 16777216
          0x12 0x34) = [] ∧
    (busWrites Gpio16AccessModeXmemMapping ⟨sampleAvr, 0⟩
        (List.replicate 16777216
          (Gpio16AccessMode.writeData Gpio16AccessModeXmemMapping 0x12 0x34)).flatten).length
      = 16777216 := by
  constructor
  · rw [(writeMultiData_default sampleAvr 0 16777216 0x12 0x34 (by decide) (by decide)).1]
    rfl
  · rw [writeData_repeat_default 0x12 0x34 (by decide) (by decide) 16777216 ⟨sampleAvr, 0⟩,
      List.length_replicate]

/-- Claim C22, amended: with the default pin mapping, for every `lo8`, `hi8` and every
count `howMuch`, `writeMultiData(howMuch, lo8, hi8)` delivers exactly `howMuch mod 2^24`
16-bit write transactions of the value (`lo8` latched, `hi8` on the bus), one for each
low-then-high pulse of `/WR`: the same words in the same number as that many successive
calls of `writeData(lo8, hi8)`.  For `howMuch` below `2^24` that is exactly `howMuch`
transactions. -/
theorem C22_writeMultiData_count (s : Avr) (latch howMuch lo8 hi8 : Nat)
    (hlo : lo8 < 256) (hhi : hi8 < 256) :
    (busWrites Gpio16AccessModeXmemMapping ⟨s, latch⟩
        (Gpio16AccessMode.writeMultiData Gpio16AccessModeXmemMapping s howMuch lo8 hi8)).map
        BusWrite.word
      = List.replicate (howMuch % 2 ^ 24) (true, lo8, hi8) ∧
    (busWrites Gpio16AccessModeXmemMapping ⟨s, latch⟩
        (Gpio16AccessMode.writeMultiData Gpio16AccessModeXmemMapping s howMuch lo8 hi8)).map
        BusWrite.word
      = (busWrites Gpio16AccessModeXmemMapping ⟨s, latch⟩
          (List.replicate (howMuch % 2 ^ 24)
            (Gpio16AccessMode.writeData Gpio16AccessModeXmemMapping lo8 hi8)).flatten).map
          BusWrite.word ∧
    (howMuch < 2 ^ 24 →
      (busWrites Gpio16AccessModeXmemMapping ⟨s, latch⟩
        (Gpio16AccessMode.writeMultiData Gpio16AccessModeXmemMapping s howMuch lo8 hi8)).length
        = howMuch) := by
  have h1 := (writeMultiData_default s latch howMuch lo8 hi8 hlo hhi).1
  have h2 := writeData_repeat_default lo8 hi8 hlo hhi (howMuch % 2 ^ 24) ⟨s, latch⟩
  refine ⟨?_, ?_, ?_⟩
  · rw [h1, List.map_replicate]
    rfl
  · rw [h1, h2, List.map_replicate, List.map_replicate]
    rfl
  · intro hlt
    rw [h1, List.length_replicate, Nat.mod_eq_of_lt hlt]

/-- Witness of C22: a bulk write of 100 values makes 100 write transactions. -/
theorem C22_writeMultiData_count_witness :
    (busWrites Gpio16AccessModeXmemMapping ⟨sampleAvr, 0⟩
        (Gpio16AccessMode.writeMultiData Gpio16AccessModeXmemMapping sampleAvr 100
          0x12 0x34)).length = 100 :=
  (C22_writeMultiData_count sampleAvr 0 100 0x12 0x34 (by decide) (by decide)).2.2 (by decide)

/-- A sequence of operations without `cli` and `sei` leaves the interrupt flag alone. -/
theorem run_I_of_no_flag_op (ops : List PinOp) :
    (∀ op ∈ ops, op ≠ PinOp.cli ∧ op ≠ PinOp.sei) → ∀ s : Avr, (s.run ops).I = s.I := by
  induction ops with
  | nil => intro _ s; rfl
  | cons op ops ih =>
    intro h s
    have h1 := h op (List.mem_cons_self _ _)
    have h2 : ∀ o ∈ ops, o ≠ PinOp.cli ∧ o ≠ PinOp.sei :=
      fun o ho => h o (List.mem_cons_of_mem _ ho)
    rw [Avr.run, ih h2]
    cases op <;> simp_all [Avr.exec]

theorem run_append (s : Avr) (a b : List PinOp) : s.run (a ++ b) = (s.run a).run b := by
  induction a generalizing s with
  | nil => rfl
  | cons op a ih => exact ih (s.exec op)

/-- For every pin mapping `writeMultiData` leaves the interrupt flag as it found it. -/
theorem writeMultiData_restores_flag (M : PinMappings) (s : Avr) (n lo8 hi8 : Nat) :
    (s.run (Gpio16AccessMode.writeMultiData M s n lo8 hi8)).I = s.I := by
  have hsetup : ∀ t : Avr, (t.run (Gpio16AccessMode.multiSetup M lo8 hi8)).I = t.I :=
    run_I_of_no_flag_op _ (by simp [Gpio16AccessMode.multiSetup])
  have hblock : ∀ (r18 r19 k : Nat) (t : Avr),
      (t.run (Gpio16AccessMode.strobeBlock M r18 r19 k)).I = t.I := by
    intro r18 r19 k
    apply run_I_of_no_flag_op
    intro op hop
    simp only [Gpio16AccessMode.strobeBlock, List.mem_flatten, List.mem_replicate] at hop
    obtain ⟨l, ⟨_, hl⟩, hmem⟩ := hop
    subst hl
    simp only [Gpio16AccessMode.strobe, List.mem_cons, List.mem_singleton,
      List.not_mem_nil, or_false] at hmem
    rcases hmem with h | h <;> subst h <;> simp
  rw [writeMultiData_eq, run_append, run_append, run_append, hsetup]
  cases hs : s.I
  · have hnil : ∀ t : Avr, t.run [] = t := fun _ => rfl
    simp only [Bool.false_eq_true, if_false, hnil, hblock, hsetup, hs]
  · simp only [if_true, Avr.run, Avr.exec]

/-- Claim C23: for both initial values of the global interrupt flag and every count,
`writeMultiData` leaves the flag equal to its value on entry, with any pin mapping, and
with the default pin mapping the flag is clear at every `/WR` pulse the call issues. -/
theorem C23_writeMultiData_interrupts (M : PinMappings) (s : Avr)
    (latch howMuch lo8 hi8 : Nat) (hlo : lo8 < 256) (hhi : hi8 < 256) :
    (s.run (Gpio16AccessMode.writeMultiData M s howMuch lo8 hi8)).I = s.I ∧
    (∀ w ∈ busWrites Gpio16AccessModeXmemMapping ⟨s, latch⟩
        (Gpio16AccessMode.writeMultiData Gpio16AccessModeXmemMapping s howMuch lo8 hi8),
      w.interrupts = false) := by
  refine ⟨writeMultiData_restores_flag M s howMuch lo8 hi8, ?_⟩
  intro w hw
  rw [(writeMultiData_default s latch howMuch lo8 hi8 hlo hhi).1] at hw
  rw [(List.mem_replicate.mp hw).2]

/-- Witness of C23: a bulk write of 100 values entered with interrupts enabled. -/
theorem C23_writeMultiData_interrupts_witness :
    (sampleAvr.run (Gpio16AccessMode.writeMultiData Gpio16AccessModeXmemMapping sampleAvr
        100 0x12 0x34)).I = true ∧
    (∀ w ∈ busWrites Gpio16AccessModeXmemMapping ⟨sampleAvr, 0⟩
        (Gpio16AccessMode.writeMultiData Gpio16AccessModeXmemMapping sampleAvr 100 0x12 0x34),
      w.interrupts = false) :=
  C23_writeMultiData_interrupts Gpio16AccessModeXmemMapping sampleAvr 0 100 0x12 0x34
    (by decide) (by decide)

/-- Claim C24: with the default pin mapping and the phase 'expecting first byte', the
two calls `writeStreamedData(a); writeStreamedData(b)` perform the same sequence of pin
and port writes as `writeData(a, b)`: the first call raises `ALE`, presents `a` and sets
`RS` with no `/WR` pulse, the second lowers `ALE`, presents `b` and pulses `/WR` once;
afterwards the phase is again 'expecting first byte'. -/
theorem C24_streamed_pair_is_writeData (p : Probe) (a b : Nat)
    (ha : a < 256) (hb : b < 256) :
    (Gpio16AccessMode.writeStreamedData Gpio16AccessModeXmemMapping 0 a).1
      = [PinOp.sbi 0x14 2, PinOp.out 0x02 a, PinOp.sbi 0x08 0] ∧
    (Gpio16AccessMode.writeStreamedData Gpio16AccessModeXmemMapping 0 a).2 = 1 ∧
    (Gpio16AccessMode.writeStreamedData Gpio16AccessModeXmemMapping 1 b).1
      = [PinOp.cbi 0x14 2, PinOp.out 0x02 b, PinOp.cbi 0x14 0, PinOp.sbi 0x14 0] ∧
    (Gpio16AccessMode.writeStreamedData Gpio16AccessModeXmemMapping 1 b).2 = 0 ∧
    (Gpio16AccessMode.writeStreamedData Gpio16AccessModeXmemMapping 0 a).1 ++
        (Gpio16AccessMode.writeStreamedData Gpio16AccessModeXmemMapping
          (Gpio16AccessMode.writeStreamedData Gpio16AccessModeXmemMapping 0 a).2 b).1
      = Gpio16AccessMode.writeData Gpio16AccessModeXmemMapping a b ∧
    busWrites Gpio16AccessModeXmemMapping p
        (Gpio16AccessMode.writeStreamedData Gpio16AccessModeXmemMapping 0 a).1 = [] ∧
    busWrites Gpio16AccessModeXmemMapping
        (Probe.after Gpio16AccessModeXmemMapping p
          (Gpio16AccessMode.writeStreamedData Gpio16AccessModeXmemMapping 0 a).1)
        (Gpio16AccessMode.writeStreamedData Gpio16AccessModeXmemMapping 1 b).1
      = [⟨true, a, b, p.avr.I⟩] := by
  have e1 : u8 a = a := Nat.mod_eq_of_lt ha
  have e2 : u8 b = b := Nat.mod_eq_of_lt hb
  refine ⟨rfl, rfl, rfl, rfl, rfl, ?_, ?_⟩
  · simp [-Nat.testBit_zero, Gpio16AccessMode.writeStreamedData, Gpio16AccessModeXmemMapping,
      busWrites, Probe.step, Avr.exec, Function.update, testBit_setBit, testBit_clearBit]
  · simp [-Nat.testBit_zero, Gpio16AccessMode.writeStreamedData, Gpio16AccessModeXmemMapping,
      busWrites, Probe.after, Probe.step, Avr.exec, Function.update, testBit_setBit,
      testBit_clearBit, e1, e2]

/-- Witness of C24: the bytes `0x12`, `0x34` from a state with all pins high. -/
theorem C24_streamed_pair_is_writeData_witness :
    (Gpio16AccessMode.writeStreamedData Gpio16AccessModeXmemMapping 0 0x12).1 ++
        (Gpio16AccessMode.writeStreamedData Gpio16AccessModeXmemMapping
          (Gpio16AccessMode.writeStreamedData Gpio16AccessModeXmemMapping 0 0x12).2 0x34).1
      = Gpio16AccessMode.writeData Gpio16AccessModeXmemMapping 0x12 0x34 :=
  (C24_streamed_pair_is_writeData ⟨sampleAvr, 0⟩ 0x12 0x34 (by decide) (by decide)).2.2.2.2.1

/-- Claim C25: in both access modes `hardReset()` is exactly: drive the reset line low,
delay 10 ms, drive the reset line high, delay 130 ms.  No command or data write occurs
inside it: with the default pin mapping the GPIO sequence makes no `/WR` pulse, and the
XMEM sequence makes no store to the panel; the 130 ms delay is its last event. -/
theorem C25_hardReset_sequence (M : PinMappings) (p : Probe) :
    Gpio16AccessMode.hardReset M
      = [PinOp.cbi M.PORT_RESET M.PIN_RESET, PinOp.delay 10,
          PinOp.sbi M.PORT_RESET M.PIN_RESET, PinOp.delay 130] ∧
    XmemAccessMode.hardReset
      = [PinOp.digitalWrite 38 false, PinOp.delay 10, PinOp.digitalWrite 38 true,
          PinOp.delay 130] ∧
    busWrites Gpio16AccessModeXmemMapping p
        (Gpio16AccessMode.hardReset Gpio16AccessModeXmemMapping) = [] ∧
    XmemAccessMode.hardReset.any PinOp.isStore = false ∧
    ((p.avr.exec (PinOp.cbi 0x08 2)).io 0x08).testBit 2 = false ∧
    ((p.avr.run (Gpio16AccessMode.hardReset Gpio16AccessModeXmemMapping)).io 0x08).testBit 2
      = true := by
  refine ⟨rfl, rfl, ?_, rfl, ?_, ?_⟩
  · simp [-Nat.testBit_zero, Gpio16AccessMode.hardReset, Gpio16AccessModeXmemMapping,
      busWrites, Probe.step, Avr.exec, Function.update, testBit_setBit, testBit_clearBit]
  · simp [-Nat.testBit_zero, Avr.exec, Function.update, testBit_clearBit]
  · simp [-Nat.testBit_zero, Gpio16AccessMode.hardReset, Gpio16AccessModeXmemMapping,
      Avr.run, Avr.exec, Function.update, testBit_setBit, testBit_clearBit]

theorem setBit_lt (v b : Nat) : setBit v b < 256 := Nat.mod_lt _ (by norm_num)

theorem clearBit_lt (v b : Nat) : clearBit v b < 256 := Nat.mod_lt _ (by norm_num)

/-- Setting a bit that is set in a byte changes nothing. -/
theorem setBit_of_set (v b : Nat) (hv : v < 256) (hb : v.testBit b = true) :
    setBit v b = v := by
  apply Nat.eq_of_testBit_eq
  intro i
  rw [testBit_setBit]
  by_cases hi : i < 8
  · by_cases hbi : b = i
    · subst hbi
      simp [hi, hb]
    · simp [hi, hbi]
  · have : v.testBit i = false := by
      apply Nat.testBit_lt_two_pow
      calc v < 2 ^ 8 := by omega
        _ ≤ 2 ^ i := Nat.pow_le_pow_right (by norm_num) (by omega)
    simp [hi, this]

/-- An operation that only raises bits keeps every set bit of a low byte set. -/
theorem exec_raisesOnly (s : Avr) (op : PinOp) (hop : op.raisesOnly = true) (q c : Nat)
    (hc : c < 8) (h : (s.io q).testBit c = true) : ((s.exec op).io q).testBit c = true := by
  cases op with
  | sbi port bit =>
    by_cases hq : q = port
    · subst hq
      simp [Avr.exec, testBit_setBit, hc, h]
    · simp [Avr.exec, Function.update, hq, h]
  | out port value =>
    have hv : value = 0xff := by simpa [PinOp.raisesOnly] using hop
    subst hv
    by_cases hq : q = port
    · subst hq
      have e : u8 0xff = 2 ^ 8 - 1 := by decide
      simp only [Avr.exec, Function.update_same, e, Nat.testBit_two_pow_sub_one]
      simpa using hc
    · simp [Avr.exec, Function.update, hq, h]
  | cbi port bit => simp [PinOp.raisesOnly] at hop
  | cli => simp [PinOp.raisesOnly] at hop
  | sei => simp [PinOp.raisesOnly] at hop
  | delay ms => simp [PinOp.raisesOnly] at hop
  | digitalWrite pin level => simp [PinOp.raisesOnly] at hop
  | store address value => simp [PinOp.raisesOnly] at hop

theorem run_raisesOnly (ops : List PinOp) (hops : ∀ op ∈ ops, op.raisesOnly = true)
    (q c : Nat) (hc : c < 8) :
    ∀ s : Avr, (s.io q).testBit c = true → ((s.run ops).io q).testBit c = true := by
  induction ops with
  | nil => intro s h; exact h
  | cons op ops ih =>
    intro s h
    exact ih (fun o ho => hops o (List.mem_cons_of_mem _ ho)) (s.exec op)
      (exec_raisesOnly s op (hops op (List.mem_cons_self _ _)) q c hc h)

/-- A bit set by `sbi` stays set through operations that only raise bits. -/
theorem run_sets_bit (pre post : List PinOp) (port bit : Nat) (hb : bit < 8)
    (hpost : ∀ op ∈ post, op.raisesOnly = true) (s : Avr) :
    ((s.run (pre ++ PinOp.sbi port bit :: post)).io port).testBit bit = true := by
  rw [run_append]
  apply run_raisesOnly post hpost port bit hb
  simp [Avr.exec, testBit_setBit, hb]

/-- Every register stays a byte. -/
theorem exec_bytes (s : Avr) (op : PinOp) (hs : ∀ q, s.io q < 256) :
    ∀ q, (s.exec op).io q < 256 := by
  intro q
  cases op with
  | sbi port bit =>
    by_cases hq : q = port
    · subst hq
      simpa [Avr.exec] using setBit_lt _ _
    · simpa [Avr.exec, Function.update, hq] using hs q
  | cbi port bit =>
    by_cases hq : q = port
    · subst hq
      simpa [Avr.exec] using clearBit_lt _ _
    · simpa [Avr.exec, Function.update, hq] using hs q
  | out port value =>
    by_cases hq : q = port
    · subst hq
      simpa [Avr.exec] using (Nat.mod_lt value (by norm_num : 0 < 256))
    · simpa [Avr.exec, Function.update, hq] using hs q
  | cli => exact hs q
  | sei => exact hs q
  | delay ms => exact hs q
  | digitalWrite pin level => exact hs q
  | store address value => exact hs q

theorem run_bytes (ops : List PinOp) :
    ∀ s : Avr, (∀ q, s.io q < 256) → ∀ q, (s.run ops).io q < 256 := by
  induction ops with
  | nil => intro s hs; exact hs
  | cons op ops ih => intro s hs; exact ih (s.exec op) (exec_bytes s op hs)

theorem exec_sbi_fix (s : Avr) (port bit : Nat) (hv : s.io port < 256)
    (hb : (s.io port).testBit bit = true) : s.exec (PinOp.sbi port bit) = s := by
  cases s with
  | mk io I =>
    simp only [Avr.exec, Avr.mk.injEq, and_true]
    rw [setBit_of_set _ _ hv hb]
    exact Function.update_eq_self _ _

theorem exec_out_fix (s : Avr) (port value : Nat) (hv : s.io port = u8 value) :
    s.exec (PinOp.out port value) = s := by
  cases s with
  | mk io I =>
    simp only [Avr.exec, Avr.mk.injEq, and_true]
    simp only at hv
    rw [← hv]
    exact Function.update_eq_self _ _

theorem run_fix (ops : List PinOp) (s : Avr) (h : ∀ op ∈ ops, s.exec op = s) :
    s.run ops = s := by
  induction ops with
  | nil => rfl
  | cons op ops ih =>
    rw [Avr.run, h op (List.mem_cons_self _ _)]
    exact ih (fun o ho => h o (List.mem_cons_of_mem _ ho))

/-- The nine operations of `initialise()`. -/
theorem initialise_eq (M : PinMappings) :
    Gpio16AccessMode.initialise M
      = [ PinOp.sbi (M.PORT_RESET - 1) M.PIN_RESET, PinOp.sbi M.PORT_RESET M.PIN_RESET,
          PinOp.sbi (M.PORT_RS - 1) M.PIN_RS, PinOp.sbi M.PORT_RS M.PIN_RS,
          PinOp.sbi (M.PORT_ALE - 1) M.PIN_ALE, PinOp.sbi M.PORT_ALE M.PIN_ALE,
          PinOp.sbi (M.PORT_WR - 1) M.PIN_WR, PinOp.sbi M.PORT_WR M.PIN_WR,
          PinOp.out (M.PORT_DATA - 1) 0xff ] := rfl

/-- The state `initialise()` leaves, for registers that hold bytes and pins `0..7`. -/
theorem initialise_state (M : PinMappings) (s : Avr)
    (hreset : M.PIN_RESET < 8) (hrs : M.PIN_RS < 8) (hale : M.PIN_ALE < 8)
    (hwr : M.PIN_WR < 8) :
    (((s.run (Gpio16AccessMode.initialise M)).io (M.PORT_RESET - 1)).testBit M.PIN_RESET = true ∧
      ((s.run (Gpio16AccessMode.initialise M)).io M.PORT_RESET).testBit M.PIN_RESET = true) ∧
    (((s.run (Gpio16AccessMode.initialise M)).io (M.PORT_RS - 1)).testBit M.PIN_RS = true ∧
      ((s.run (Gpio16AccessMode.initialise M)).io M.PORT_RS).testBit M.PIN_RS = true) ∧
    (((s.run (Gpio16AccessMode.initialise M)).io (M.PORT_ALE - 1)).testBit M.PIN_ALE = true ∧
      ((s.run (Gpio16AccessMode.initialise M)).io M.PORT_ALE).testBit M.PIN_ALE = true) ∧
    (((s.run (Gpio16AccessMode.initialise M)).io (M.PORT_WR - 1)).testBit M.PIN_WR = true ∧
      ((s.run (Gpio16AccessMode.initialise M)).io M.PORT_WR).testBit M.PIN_WR = true) ∧
    (s.run (Gpio16AccessMode.initialise M)).io (M.PORT_DATA - 1) = 0xFF := by
  rw [initialise_eq]
  refine ⟨⟨?_, ?_⟩, ⟨?_, ?_⟩, ⟨?_, ?_⟩, ⟨?_, ?_⟩, ?_⟩
  · exact run_sets_bit [] _ _ _ hreset (by simp [PinOp.raisesOnly]) s
  · exact run_sets_bit [_] _ _ _ hreset (by simp [PinOp.raisesOnly]) s
  · exact run_sets_bit [_, _] _ _ _ hrs (by simp [PinOp.raisesOnly]) s
  · exact run_sets_bit [_, _, _] _ _ _ hrs (by simp [PinOp.raisesOnly]) s
  · exact run_sets_bit [_, _, _, _] _ _ _ hale (by simp [PinOp.raisesOnly]) s
  · exact run_sets_bit [_, _, _, _, _] _ _ _ hale (by simp [PinOp.raisesOnly]) s
  · exact run_sets_bit [_, _, _, _, _, _] _ _ _ hwr (by simp [PinOp.raisesOnly]) s
  · exact run_sets_bit [_, _, _, _, _, _, _] _ _ _ hwr (by simp [PinOp.raisesOnly]) s
  · simp [Avr.run, Avr.exec, u8]

/-- Claim C26: for every initial state of the port and direction registers,
`initialise()` leaves the reset, `RS`, `ALE` and `/WR` pins configured as outputs and
driven high and the data port direction register equal to `0xFF`, and it is
idempotent: run twice it leaves exactly the state that one run leaves.  Registers hold
bytes and pins are numbered `0..7`. -/
theorem C26_initialise_idempotent (M : PinMappings) (s : Avr)
    (hs : ∀ q, s.io q < 256)
    (hreset : M.PIN_RESET < 8) (hrs : M.PIN_RS < 8) (hale : M.PIN_ALE < 8)
    (hwr : M.PIN_WR < 8) :
    (((s.run (Gpio16AccessMode.initialise M)).io (M.PORT_RESET - 1)).testBit M.PIN_RESET = true ∧
      ((s.run (Gpio16AccessMode.initialise M)).io M.PORT_RESET).testBit M.PIN_RESET = true) ∧
    (((s.run (Gpio16AccessMode.initialise M)).io (M.PORT_RS - 1)).testBit M.PIN_RS = true ∧
      ((s.run (Gpio16AccessMode.initialise M)).io M.PORT_RS).testBit M.PIN_RS = true) ∧
    (((s.run (Gpio16AccessMode.initialise M)).io (M.PORT_ALE - 1)).testBit M.PIN_ALE = true ∧
      ((s.run (Gpio16AccessMode.initialise M)).io M.PORT_ALE).testBit M.PIN_ALE = true) ∧
    (((s.run (Gpio16AccessMode.initialise M)).io (M.PORT_WR - 1)).testBit M.PIN_WR = true ∧
      ((s.run (Gpio16AccessMode.initialise M)).io M.PORT_WR).testBit M.PIN_WR = true) ∧
    (s.run (Gpio16AccessMode.initialise M)).io (M.PORT_DATA - 1) = 0xFF ∧
    (s.run (Gpio16AccessMode.initialise M)).run (Gpio16AccessMode.initialise M)
      = s.run (Gpio16AccessMode.initialise M) := by
  obtain ⟨⟨a1, a2⟩, ⟨b1, b2⟩, ⟨c1, c2⟩, ⟨d1, d2⟩, e⟩ :=
    initialise_state M s hreset hrs hale hwr
  refine ⟨⟨a1, a2⟩, ⟨b1, b2⟩, ⟨c1, c2⟩, ⟨d1, d2⟩, e, ?_⟩
  have hb := run_bytes (Gpio16AccessMode.initialise M) s hs
  apply run_fix
  intro op hop
  rw [initialise_eq] at hop
  simp only [List.mem_cons, List.mem_singleton, List.not_mem_nil, or_false] at hop
  rcases hop with h | h | h | h | h | h | h | h | h <;> subst h
  · exact exec_sbi_fix _ _ _ (hb _) a1
  · exact exec_sbi_fix _ _ _ (hb _) a2
  · exact exec_sbi_fix _ _ _ (hb _) b1
  · exact exec_sbi_fix _ _ _ (hb _) b2
  · exact exec_sbi_fix _ _ _ (hb _) c1
  · exact exec_sbi_fix _ _ _ (hb _) c2
  · exact exec_sbi_fix _ _ _ (hb _) d1
  · exact exec_sbi_fix _ _ _ (hb _) d2
  · exact exec_out_fix _ _ _ e

/-- Witness of C26: the default pin mapping from a state with every register cleared. -/
theorem C26_initialise_idempotent_witness :
    ((Avr.mk (fun _ => 0) true).run
        (Gpio16AccessMode.initialise Gpio16AccessModeXmemMapping)).run
        (Gpio16AccessMode.initialise Gpio16AccessModeXmemMapping)
      = (Avr.mk (fun _ => 0) true).run
          (Gpio16AccessMode.initialise Gpio16AccessModeXmemMapping) :=
  (C26_initialise_idempotent Gpio16AccessModeXmemMapping (Avr.mk (fun _ => 0) true)
    (fun _ => (by decide : (0 : Nat) < 256))
    (by decide) (by decide) (by decide) (by decide)).2.2.2.2.2

theorem applyCalls_append {C : Type} (D : Device C) (a b : List GraphicsLibrary.ColourCall) :
    ∀ g : GraphicsLibrary C,
      GraphicsLibrary.applyCalls D g (a ++ b)
        = GraphicsLibrary.applyCalls D (GraphicsLibrary.applyCalls D g a) b := by
  induction a with
  | nil => intro g; rfl
  | cons c a ih =>
    intro g
    cases c with
    | setForeground cr => exact ih _
    | setBackground cr => exact ih _

/-- Calls of `setForeground` leave `_background` alone. -/
theorem applyCalls_foreground {C : Type} (D : Device C) (l : List GraphicsLibrary.ColourCall)
    (hl : ∀ c ∈ l, c.isForeground = true) :
    ∀ g : GraphicsLibrary C, (GraphicsLibrary.applyCalls D g l)._background = g._background := by
  induction l with
  | nil => intro g; rfl
  | cons c l ih =>
    intro g
    have hc := hl c (List.mem_cons_self _ _)
    have ht : ∀ c ∈ l, c.isForeground = true := fun o ho => hl o (List.mem_cons_of_mem _ ho)
    cases c with
    | setForeground cr => exact ih ht _
    | setBackground cr => simp [GraphicsLibrary.ColourCall.isForeground] at hc

/-- The background colour after a `setBackground(cr)` followed by foreground calls. -/
theorem applyCalls_background {C : Type} (D : Device C) (g : GraphicsLibrary C)
    (pre post : List GraphicsLibrary.ColourCall) (cr : Nat)
    (hpost : ∀ c ∈ post, c.isForeground = true) :
    (GraphicsLibrary.applyCalls D g
        (pre ++ GraphicsLibrary.ColourCall.setBackground cr :: post))._background
      = D.unpackColour cr := by
  rw [applyCalls_append]
  exact applyCalls_foreground D post hpost _

/-- Claim C27: `clearScreen()` emits `moveTo` for the rectangle
`(0, 0, getWidth(), getHeight())` and then one `fillPixels` call with the background
colour, whose pixel count is `LONG_SIDE * SHORT_SIDE` in 32-bit arithmetic; when
`getWidth()` and `getHeight()` are the two sides in either order, that count is
`getWidth() * getHeight()` (76800 for the 320x240 panel, above the 16-bit range), and
the colour is the unpacked value of the last `setBackground` call whatever
`setForeground` calls follow it. -/
theorem C27_clearScreen_fill {C : Type} (D : Device C) (g : GraphicsLibrary C)
    (pre post : List GraphicsLibrary.ColourCall) (cr : Nat)
    (hpost : ∀ c ∈ post, c.isForeground = true)
    (hw : 0 ≤ D.getWidth ∧ D.getWidth ≤ 32767) (hh : 0 ≤ D.getHeight ∧ D.getHeight ≤ 32767)
    (hsides : (D.getWidth = D.LONG_SIDE ∧ D.getHeight = D.SHORT_SIDE) ∨
      (D.getWidth = D.SHORT_SIDE ∧ D.getHeight = D.LONG_SIDE)) :
    GraphicsLibrary.clearScreen D
        (GraphicsLibrary.applyCalls D g
          (pre ++ GraphicsLibrary.ColourCall.setBackground cr :: post))
      = D.moveTo ⟨0, 0, D.getWidth, D.getHeight⟩
          ++ D.fillPixels (GraphicsLibrary.clearCount D) (D.unpackColour cr) ∧
    (GraphicsLibrary.clearCount D : Int) = D.LONG_SIDE * D.SHORT_SIDE % 4294967296 ∧
    (GraphicsLibrary.clearCount D : Int) = D.getWidth * D.getHeight ∧
    GraphicsLibrary.clearCount sampleDevice = 76800 ∧
    sampleDevice.getWidth * sampleDevice.getHeight = 76800 ∧
    GraphicsLibrary.clearCount sampleDevice % 65536 ≠ GraphicsLibrary.clearCount sampleDevice := by
  have hprod : D.LONG_SIDE * D.SHORT_SIDE = D.getWidth * D.getHeight := by
    rcases hsides with ⟨h1, h2⟩ | ⟨h1, h2⟩
    · rw [h1, h2]
    · rw [h1, h2, mul_comm]
  have h0 : 0 ≤ D.getWidth * D.getHeight := mul_nonneg hw.1 hh.1
  have h1 : D.getWidth * D.getHeight ≤ 32767 * 32767 :=
    mul_le_mul hw.2 hh.2 hh.1 (by norm_num)
  have hmod : D.getWidth * D.getHeight % 4294967296 = D.getWidth * D.getHeight :=
    Int.emod_eq_of_lt h0 (by omega)
  refine ⟨?_, ?_, ?_, by decide, by decide, by decide⟩
  · unfold GraphicsLibrary.clearScreen
    rw [applyCalls_background D g pre post cr hpost]
  · unfold GraphicsLibrary.clearCount
    exact Int.toNat_of_nonneg (Int.emod_nonneg _ (by norm_num))
  · unfold GraphicsLibrary.clearCount
    rw [hprod, hmod]
    exact Int.toNat_of_nonneg h0

/-- Witness of C27: the 320x240 landscape device, background set between two
foreground calls. -/
theorem C27_clearScreen_fill_witness :
    GraphicsLibrary.clearScreen sampleDevice
        (GraphicsLibrary.applyCalls sampleDevice ⟨⟨0, 0, 0⟩, ⟨0, 0, 0⟩⟩
          ([GraphicsLibrary.ColourCall.setForeground 0xFFFFFF]
            ++ GraphicsLibrary.ColourCall.setBackground 0x112233
              :: [GraphicsLibrary.ColourCall.setForeground 0x00FF00]))
      = sampleDevice.moveTo ⟨0, 0, sampleDevice.getWidth, sampleDevice.getHeight⟩
          ++ sampleDevice.fillPixels (GraphicsLibrary.clearCount sampleDevice)
              (sampleDevice.unpackColour 0x112233) :=
  (C27_clearScreen_fill sampleDevice ⟨⟨0, 0, 0⟩, ⟨0, 0, 0⟩⟩
    [GraphicsLibrary.ColourCall.setForeground 0xFFFFFF]
    [GraphicsLibrary.ColourCall.setForeground 0x00FF00] 0x112233
    (by decide) (by decide) (by decide) (by decide)).1

/-- Counterexample to C28 as stated: with the column opcode `0x2A` and the page opcode
`0x2B`, the Nokia 6300 Type C column getter for landscape returns the page opcode
`0x2B` and its page getter returns the column opcode `0x2A`, while the N93 Type A
getters return `0x2A` and `0x2B`. -/
theorem C28_nokia6300_landscape_counterexample :
    (Nokia6300_TypeC sampleOpcodesMC 0x2A 0x2B).getColumnAddressCommand Orientation.LANDSCAPE
        = 0x2B ∧
    (Nokia6300_TypeC sampleOpcodesMC 0x2A 0x2B).getColumnAddressCommand Orientation.LANDSCAPE
        ≠ sampleOpcodesMC.COLUMN_ADDRESS_SET ∧
    (Nokia6300_TypeC sampleOpcodesMC 0x2A 0x2B).getPageAddressCommand Orientation.LANDSCAPE
        ≠ sampleOpcodesMC.PAGE_ADDRESS_SET ∧
    (Nokia6300_TypeC sampleOpcodesMC 0x2A 0x2B).getColumnAddressCommand Orientation.LANDSCAPE
        ≠ (NokiaN93_TypeA sampleOpcodesMC 0x2A 0x2B).getColumnAddressCommand
            Orientation.LANDSCAPE := by
  decide

/-- Claim C28, amended: for the Nokia 6300 Type C panel traits the two address opcodes
are swapped in landscape mode: the column getter returns the page-address-set opcode and
the page getter returns the column-address-set opcode, the opposite of the assignment
`NokiaN93_TypeA` makes, which returns the column opcode from the column getter and the
page opcode from the page getter. -/
theorem C28_nokia6300_landscape_swapped (k : mc2pa8201.Opcodes) (c p : Nat) :
    (Nokia6300_TypeC k c p).getColumnAddressCommand Orientation.LANDSCAPE
        = k.PAGE_ADDRESS_SET ∧
    (Nokia6300_TypeC k c p).getPageAddressCommand Orientation.LANDSCAPE
        = k.COLUMN_ADDRESS_SET ∧
    (NokiaN93_TypeA k c p).getColumnAddressCommand Orientation.LANDSCAPE
        = k.COLUMN_ADDRESS_SET ∧
    (NokiaN93_TypeA k c p).getPageAddressCommand Orientation.LANDSCAPE
        = k.PAGE_ADDRESS_SET ∧
    (Nokia6300_TypeC k c p).getColumnAddressCommand Orientation.LANDSCAPE
        = (NokiaN93_TypeA k c p).getPageAddressCommand Orientation.LANDSCAPE ∧
    (Nokia6300_TypeC k c p).getPageAddressCommand Orientation.LANDSCAPE
        = (NokiaN93_TypeA k c p).getColumnAddressCommand Orientation.LANDSCAPE :=
  ⟨rfl, rfl, rfl, rfl, rfl, rfl⟩

theorem pixelsOf_colourRow_length {C : Type} (unpack : Nat → Nat → Nat → C) (b : MCUBuffers)
    (n p : Nat) : (pixelsOf (JpegDecoder.colourRow unpack b n p)).length = n := by
  induction n generalizing p with
  | zero => rfl
  | succ n ih => simp [JpegDecoder.colourRow, pixelsOf, ih]

/-- Pixel `j` of a three-plane row that starts at offset `p` reads the three planes at
offset `p + j`. -/
theorem pixelsOf_colourRow_get {C : Type} (unpack : Nat → Nat → Nat → C) (b : MCUBuffers)
    (n p j : Nat) (hj : j < n) :
    (pixelsOf (JpegDecoder.colourRow unpack b n p))[j]?
      = some (unpack (b.R (p + j)) (b.G (p + j)) (b.B (p + j))) := by
  induction n generalizing p j with
  | zero => omega
  | succ n ih =>
    cases j with
    | zero => simp [JpegDecoder.colourRow, pixelsOf]
    | succ j =>
      have e : p + 1 + j = p + (j + 1) := by omega
      simp only [JpegDecoder.colourRow, pixelsOf, List.getElem?_cons_succ]
      rw [ih (p + 1) j (by omega), e]

/-- Pixel `c` of row `r` of a three-plane sub-block of `1..8` columns that starts at
offset `p` reads the planes at `p + 8 * r + c`: the source stride is 8. -/
theorem pixelsOf_colourRows_get {C : Type} (unpack : Nat → Nat → Nat → C) (b : MCUBuffers)
    (w : Int) (hw1 : 0 < w) (hw8 : w ≤ 8) (n p r c : Nat) (hr : r < n) (hc : c < w.toNat) :
    (pixelsOf (JpegDecoder.colourRows unpack b w n p))[r * w.toNat + c]?
      = some (unpack (b.R (p + 8 * r + c)) (b.G (p + 8 * r + c)) (b.B (p + 8 * r + c))) := by
  induction n generalizing p r with
  | zero => omega
  | succ n ih =>
    rw [JpegDecoder.colourRows, pixelsOf_append]
    cases r with
    | zero =>
      have e : 0 * w.toNat + c = c := by omega
      rw [e, List.getElem?_append_left (by rw [pixelsOf_colourRow_length]; exact hc),
        pixelsOf_colourRow_get unpack b _ p c hc]
      rfl
    | succ r =>
      have hlen : (pixelsOf (JpegDecoder.colourRow unpack b w.toNat p)).length ≤
          (r + 1) * w.toNat + c := by
        rw [pixelsOf_colourRow_length, Nat.succ_mul]; omega
      have e : (r + 1) * w.toNat + c
          - (pixelsOf (JpegDecoder.colourRow unpack b w.toNat p)).length = r * w.toNat + c := by
        rw [pixelsOf_colourRow_length, Nat.succ_mul]; omega
      have e2 : p + w.toNat + (8 - w).toNat + 8 * r + c = p + 8 * (r + 1) + c := by omega
      rw [List.getElem?_append_right hlen, e, ih _ r (by omega), e2]

/-- Claim C29: for a three-plane block, the 8x8 sub-block at offset `(x, y)` inside it
(in particular `x`, `y` in `{0, 8}`), and every destination row `by < by_limit` and
column `bx < bx_limit`, the pixel number `by * bx_limit + bx` written after the
sub-block's `moveTo` is the component unpack of `(R[i], G[i], B[i])` with
`i = 8*x + 16*y + 8*by + bx`: row-major, with a source row stride of 8 samples also when
the sub-block is clipped to fewer than 8 columns. -/
theorem C29_threePlane_pixel_source {C : Type} (unpack : Nat → Nat → Nat → C)
    (info : ImageInfo) (b : MCUBuffers) (pt : Point) (mcu_x mcu_y : Int) (y x row col : Nat)
    (hscan : info.m_scanType = ScanType.threePlane)
    (hofs : 8 * x + 16 * y < 65536)
    (hrow : (row : Int) < min 8 (info.m_height - (mcu_y * info.m_MCUHeight + y)))
    (hcol : (col : Int) < min 8 (info.m_width - (mcu_x * info.m_MCUWidth + x))) :
    (pixelsOf (JpegDecoder.blitSubBlock unpack info b pt mcu_x mcu_y y x))[
        row * (min 8 (info.m_width - (mcu_x * info.m_MCUWidth + x))).toNat + col]?
      = some (unpack (b.R (8 * x + 16 * y + 8 * row + col))
          (b.G (8 * x + 16 * y + 8 * row + col)) (b.B (8 * x + 16 * y + 8 * row + col))) := by
  have hs : (x * 8 + y * 16) % 65536 = 8 * x + 16 * y := by omega
  unfold JpegDecoder.blitSubBlock
  simp only [hscan, pixelsOf, hs]
  exact pixelsOf_colourRows_get unpack b _ (by omega) (min_le_left _ _) _ _ row col
    (by omega) (by omega)

/-- Witness of C29: the sub-block at `(8, 8)` of a 13x16 image decoded as one 16x16
block is clipped to 5 columns; its pixel `3 * 5 + 2` reads the samples at offset 218. -/
theorem C29_threePlane_pixel_source_witness :
    (pixelsOf (JpegDecoder.blitSubBlock keepParts image13mcu16 (neverDone 0).2 ⟨0, 0⟩
        0 0 8 8))[17]? = some (218, 219, 220) :=
  C29_threePlane_pixel_source keepParts image13mcu16 (neverDone 0).2 ⟨0, 0⟩ 0 0 8 8 3 2
    rfl (by decide) (by decide) (by decide)

/-- A trace that starts no window keeps the leading pixels of what it is appended to. -/
theorem leadingPixels_append {C : Type} (s t : List (LcdOp C)) (ht : leadingPixels t = 0) :
    leadingPixels (s ++ t) = leadingPixels s := by
  induction s with
  | nil => exact ht
  | cons a s ih => cases a <;> simp [leadingPixels, ih]

theorem windows_append {C : Type} (s t : List (LcdOp C)) (ht : leadingPixels t = 0) :
    windows (s ++ t) = windows s ++ windows t := by
  induction s with
  | nil => rfl
  | cons a s ih => cases a <;> simp [windows, ih, leadingPixels_append s t ht]

/-- A trace without `moveTo` has no window, and all its pixels are leading pixels. -/
theorem windows_of_no_moveTo {C : Type} (s : List (LcdOp C)) (hs : movedTo s = []) :
    windows s = [] ∧ leadingPixels s = (pixelsOf s).length := by
  induction s with
  | nil => exact ⟨rfl, rfl⟩
  | cons a s ih =>
    cases a with
    | moveTo rc => simp [movedTo] at hs
    | beginWriting => exact ih hs
    | writePixel cr =>
      obtain ⟨h1, h2⟩ := ih hs
      exact ⟨h1, by simp [leadingPixels, pixelsOf, h2]⟩

theorem pixelsOf_colourRows_length {C : Type} (unpack : Nat → Nat → Nat → C) (b : MCUBuffers)
    (w : Int) (n p : Nat) :
    (pixelsOf (JpegDecoder.colourRows unpack b w n p)).length = n * w.toNat := by
  induction n generalizing p with
  | zero => simp [JpegDecoder.colourRows, pixelsOf]
  | succ n ih =>
    rw [JpegDecoder.colourRows, pixelsOf_append, List.length_append, ih,
      pixelsOf_colourRow_length, Nat.succ_mul, Nat.add_comm]

theorem pixelsOf_grayRow_length {C : Type} (unpack : Nat → Nat → Nat → C) (b : MCUBuffers)
    (n p : Nat) : (pixelsOf (JpegDecoder.grayRow unpack b n p)).length = n := by
  induction n generalizing p with
  | zero => rfl
  | succ n ih => simp [JpegDecoder.grayRow, pixelsOf, ih]

theorem pixelsOf_grayRows_length {C : Type} (unpack : Nat → Nat → Nat → C) (b : MCUBuffers)
    (w : Int) (n p : Nat) :
    (pixelsOf (JpegDecoder.grayRows unpack b w n p)).length = n * w.toNat := by
  induction n generalizing p with
  | zero => simp [JpegDecoder.grayRows, pixelsOf]
  | succ n ih =>
    rw [JpegDecoder.grayRows, pixelsOf_append, List.length_append, ih,
      pixelsOf_grayRow_length, Nat.succ_mul, Nat.add_comm]

/-- A sub-block opens one window, its rectangle, and writes one pixel for each of the
`by_limit` rows and `bx_limit` columns that are positive. -/
theorem windows_blitSubBlock {C : Type} (unpack : Nat → Nat → Nat → C) (info : ImageInfo)
    (b : MCUBuffers) (pt : Point) (mcu_x mcu_y : Int) (y x : Nat) :
    leadingPixels (JpegDecoder.blitSubBlock unpack info b pt mcu_x mcu_y y x) = 0 ∧
    windows (JpegDecoder.blitSubBlock unpack info b pt mcu_x mcu_y y x)
      = [(JpegDecoder.subBlockRect info pt mcu_x mcu_y y x,
          (JpegDecoder.subBlockRect info pt mcu_x mcu_y y x).Height.toNat
            * (JpegDecoder.subBlockRect info pt mcu_x mcu_y y x).Width.toNat)] := by
  refine ⟨rfl, ?_⟩
  unfold JpegDecoder.blitSubBlock JpegDecoder.subBlockRect
  cases info.m_scanType with
  | PJPG_GRAYSCALE =>
    obtain ⟨h1, h2⟩ := windows_of_no_moveTo _
      (movedTo_grayRows unpack b (min 8 (info.m_width - (mcu_x * info.m_MCUWidth + x)))
        (min 8 (info.m_height - (mcu_y * info.m_MCUHeight + y))).toNat
        ((x * 8 + y * 16) % 65536))
    simp only [windows, leadingPixels, h1, h2, pixelsOf_grayRows_length]
  | threePlane =>
    obtain ⟨h1, h2⟩ := windows_of_no_moveTo _
      (movedTo_colourRows unpack b (min 8 (info.m_width - (mcu_x * info.m_MCUWidth + x)))
        (min 8 (info.m_height - (mcu_y * info.m_MCUHeight + y))).toNat
        ((x * 8 + y * 16) % 65536))
    simp only [windows, leadingPixels, h1, h2, pixelsOf_colourRows_length]

/-- Traces that each start with a `moveTo` concatenate to a trace that starts with one,
and its windows are theirs. -/
theorem windowed_flatMap {C : Type} {α : Type} (l : List α) (f : α → List (LcdOp C))
    (hf : ∀ a ∈ l, leadingPixels (f a) = 0) :
    leadingPixels (l.flatMap f) = 0 ∧
    windows (l.flatMap f) = l.flatMap (fun a => windows (f a)) := by
  induction l with
  | nil => exact ⟨rfl, rfl⟩
  | cons a l ih =>
    obtain ⟨h1, h2⟩ := ih (fun o ho => hf o (List.mem_cons_of_mem _ ho))
    constructor
    · rw [List.flatMap_cons, leadingPixels_append _ _ h1]
      exact hf a (List.mem_cons_self _ _)
    · rw [List.flatMap_cons, List.flatMap_cons, windows_append _ _ h1, h2]

/-- The windows of one MCU: one for each sub-block, with as many pixels as its clipped
rectangle holds. -/
theorem windows_blitMcu {C : Type} (unpack : Nat → Nat → Nat → C) (info : ImageInfo)
    (b : MCUBuffers) (pt : Point) (mcu_x mcu_y : Int) :
    leadingPixels (JpegDecoder.blitMcu unpack info b pt mcu_x mcu_y) = 0 ∧
    ∀ w ∈ windows (JpegDecoder.blitMcu unpack info b pt mcu_x mcu_y),
      w.2 = w.1.Height.toNat * w.1.Width.toNat := by
  unfold JpegDecoder.blitMcu
  have hin : ∀ y : Nat,
      leadingPixels ((JpegDecoder.loop8 info.m_MCUWidth).flatMap fun x =>
        JpegDecoder.blitSubBlock unpack info b pt mcu_x mcu_y y x) = 0 ∧
      windows ((JpegDecoder.loop8 info.m_MCUWidth).flatMap fun x =>
        JpegDecoder.blitSubBlock unpack info b pt mcu_x mcu_y y x)
        = (JpegDecoder.loop8 info.m_MCUWidth).flatMap fun x =>
            windows (JpegDecoder.blitSubBlock unpack info b pt mcu_x mcu_y y x) :=
    fun y => windowed_flatMap _ _
      (fun x _ => (windows_blitSubBlock unpack info b pt mcu_x mcu_y y x).1)
  obtain ⟨h1, h2⟩ := windowed_flatMap (JpegDecoder.loop8 info.m_MCUHeight)
    (fun y => (JpegDecoder.loop8 info.m_MCUWidth).flatMap fun x =>
      JpegDecoder.blitSubBlock unpack info b pt mcu_x mcu_y y x) (fun y _ => (hin y).1)
  refine ⟨h1, ?_⟩
  intro w hw
  rw [h2, List.mem_flatMap] at hw
  obtain ⟨y, _, hw⟩ := hw
  rw [(hin y).2, List.mem_flatMap] at hw
  obtain ⟨x, _, hw⟩ := hw
  rw [(windows_blitSubBlock unpack info b pt mcu_x mcu_y y x).2, List.mem_singleton] at hw
  rw [hw]

theorem windows_blitFirst {C : Type} (unpack : Nat → Nat → Nat → C) (info : ImageInfo)
    (mcu : Nat → Nat × MCUBuffers) (pt : Point) (n : Nat) :
    leadingPixels (blitFirst unpack info mcu pt n) = 0 ∧
    ∀ w ∈ windows (blitFirst unpack info mcu pt n),
      w.2 = w.1.Height.toNat * w.1.Width.toNat := by
  unfold blitFirst
  obtain ⟨h1, h2⟩ := windowed_flatMap (List.range n)
    (fun k => JpegDecoder.blitMcu unpack info (mcu k).2 pt
      ((k % info.m_MCUSPerRow.toNat : Nat) : Int) ((k / info.m_MCUSPerRow.toNat : Nat) : Int))
    (fun k _ => (windows_blitMcu unpack info (mcu k).2 pt _ _).1)
  refine ⟨h1, ?_⟩
  intro w hw
  rw [h2, List.mem_flatMap] at hw
  obtain ⟨k, _, hw⟩ := hw
  exact (windows_blitMcu unpack info (mcu k).2 pt _ _).2 w hw

/-- Claim C30: throughout a blit, for every image info with `MCUSPerRow >= 1` and
`MCUSPerCol >= 0`, every outcome of initialisation and every behaviour of the per-block
decoder, `decode` returns a trace in which no pixel is written before the first
`moveTo`, and between each `moveTo(rc)` and the next `moveTo` (or the end of the blit)
exactly `rc.Width * rc.Height` pixels are written when both dimensions are positive and
no pixel otherwise; so never more pixels than the programmed window holds. -/
theorem C30_window_pixel_count {C : Type} (unpack : Nat → Nat → Nat → C)
    (init : Nat × ImageInfo) (mcu : Nat → Nat × MCUBuffers) (pt : Point)
    (hrow : 1 ≤ init.2.m_MCUSPerRow) (hcol : 0 ≤ init.2.m_MCUSPerCol) :
    ∃ r : JpegDecoder.Result C,
      (∀ fuel, blocksOf init.2 + 1 ≤ fuel →
        JpegDecoder.decode unpack init mcu pt fuel = some r) ∧
      leadingPixels r.output = 0 ∧
      ∀ w ∈ windows r.output,
        (0 < w.1.Width → 0 < w.1.Height → (w.2 : Int) = w.1.Width * w.1.Height) ∧
        (¬ (0 < w.1.Width ∧ 0 < w.1.Height) → w.2 = 0) := by
  obtain ⟨status, info⟩ := init
  simp only at hrow hcol
  by_cases hinit : status ≠ 0
  · refine ⟨⟨[], 0⟩, ?_, rfl, ?_⟩
    · intro fuel _
      simp only [JpegDecoder.decode]
      rw [if_pos hinit]
    · intro w hw
      simp [windows] at hw
  · have h0 : status = 0 := by simpa using hinit
    subst h0
    have hd := delivers_okPrefix mcu (blocksOf info)
    obtain ⟨h1, h2⟩ := windows_blitFirst unpack info mcu pt
      (okPrefix (fun j => (mcu j).1) (blocksOf info))
    refine ⟨⟨blitFirst unpack info mcu pt (okPrefix (fun j => (mcu j).1) (blocksOf info)),
      okPrefix (fun j => (mcu j).1) (blocksOf info) + 1⟩, ?_, h1, ?_⟩
    · intro fuel hf
      have hle := hd.1
      simp only at hf
      exact decode_delivers unpack info mcu pt _ fuel hrow hcol hd (by omega)
    · intro w hw
      have hn := h2 w hw
      constructor
      · intro hW hH
        rw [hn]
        push_cast
        rw [Int.toNat_of_nonneg (le_of_lt hW), Int.toNat_of_nonneg (le_of_lt hH), mul_comm]
      · intro hneg
        rw [hn]
        by_cases hW : 0 < w.1.Width
        · have hH : w.1.Height.toNat = 0 := by
            have : ¬ 0 < w.1.Height := fun h => hneg ⟨hW, h⟩
            omega
          rw [hH, Nat.zero_mul]
        · have hW0 : w.1.Width.toNat = 0 := by omega
          rw [hW0, Nat.mul_zero]

section Evaluation
set_option maxRecDepth 100000

/-- Witness of C30: the 13x16 image decoded as one 16x16 block; its four windows
receive `8 * 8`, `5 * 8`, `8 * 8` and `5 * 8` pixels. -/
theorem C30_window_pixel_count_witness :
    (∃ r : JpegDecoder.Result (Nat × Nat × Nat),
      (∀ fuel, blocksOf image13mcu16 + 1 ≤ fuel →
        JpegDecoder.decode keepParts (0, image13mcu16) neverDone ⟨0, 0⟩ fuel = some r) ∧
      leadingPixels r.output = 0 ∧
      ∀ w ∈ windows r.output,
        (0 < w.1.Width → 0 < w.1.Height → (w.2 : Int) = w.1.Width * w.1.Height) ∧
        (¬ (0 < w.1.Width ∧ 0 < w.1.Height) → w.2 = 0)) ∧
    (JpegDecoder.decode keepParts (0, image13mcu16) neverDone ⟨0, 0⟩ 2).map
        (fun r => windows r.output)
      = some [(⟨0, 0, 8, 8⟩, 64), (⟨0, 0, 5, 8⟩, 40), (⟨0, 0, 8, 8⟩, 64), (⟨0, 0, 5, 8⟩, 40)] :=
  ⟨C30_window_pixel_count keepParts (0, image13mcu16) neverDone ⟨0, 0⟩ (by decide) (by decide),
    by decide⟩

end Evaluation

section Evaluation
set_option maxRecDepth 100000

/-- Claim C31 at its failing input: a 20x20 image decoded in 16x16 blocks
(`MCUSPerRow = MCUSPerCol = 2`).  In the last block column the sub-blocks at `x = 8`
start at image column 24, beyond the width 20, and are passed to `moveTo` with the
width `20 - 24 = -4`; in the last block row the sub-blocks at `y = 8` get the height
`-4`. -/
theorem C31_rectangle_dimensions_at_failing_input :
    (JpegDecoder.decode keepParts (0, image20mcu16) neverDone ⟨0, 0⟩ 5).map
        (fun r => movedTo r.output)
      = some [⟨0, 0, 8, 8⟩, ⟨0, 0, 8, 8⟩, ⟨0, 0, 8, 8⟩, ⟨0, 0, 8, 8⟩,
          ⟨16, 0, 4, 8⟩, ⟨16, 0, -4, 8⟩, ⟨16, 0, 4, 8⟩, ⟨16, 0, -4, 8⟩,
          ⟨0, 16, 8, 4⟩, ⟨0, 16, 8, 4⟩, ⟨0, 16, 8, -4⟩, ⟨0, 16, 8, -4⟩,
          ⟨16, 16, 4, 4⟩, ⟨16, 16, -4, 4⟩, ⟨16, 16, 4, -4⟩, ⟨16, 16, -4, -4⟩] ∧
    20 = 16 * (image20mcu16.m_MCUSPerRow - 1) + 4 ∧
    20 = 16 * (image20mcu16.m_MCUSPerCol - 1) + 4 := by
  decide

end Evaluation

/-- Claim C32: in each `setScrollPosition` that writes the scroll register (LDS285
portrait and landscape, and MC2PA8201 portrait with hardware scrolling), when the value
about to be written is 0 the trace is `delay(0)` immediately followed by the
scroll-start-address command and its two data bytes, and when that value is not 0 the
trace is the command and its two data bytes, with no `delay` call in it. -/
theorem C32_zero_delay_before_scroll_write (k : lds285.Opcodes) (km : mc2pa8201.Opcodes)
    (T : mc2pa8201.PanelTraits) (offset : Int)
    (hT : T.hasHardwareScrolling Orientation.PORTRAIT = true) :
    ((LDS285OrientationPortrait.pullIntoRange offset = 0 →
        LDS285OrientationPortrait.setScrollPosition k offset
          = [Call.delay 0, Call.writeCommand k.VERTICAL_SCROLLING_START_ADDRESS,
              Call.writeData 0, Call.writeData 0]) ∧
      (LDS285OrientationPortrait.pullIntoRange offset ≠ 0 →
        LDS285OrientationPortrait.setScrollPosition k offset
          = [Call.writeCommand k.VERTICAL_SCROLLING_START_ADDRESS,
              Call.writeData (u8i (LDS285OrientationPortrait.pullIntoRange offset >>> (8 : Nat))),
              Call.writeData (u8i (andFF (LDS285OrientationPortrait.pullIntoRange offset)))] ∧
        ∀ c ∈ LDS285OrientationPortrait.setScrollPosition k offset, c.isDelay = false)) ∧
    ((LDS285OrientationLandscape.pullIntoRange offset = 0 →
        LDS285OrientationLandscape.setScrollPosition k offset
          = [Call.delay 0, Call.writeCommand k.VERTICAL_SCROLLING_START_ADDRESS,
              Call.writeData 0, Call.writeData 0]) ∧
      (LDS285OrientationLandscape.pullIntoRange offset ≠ 0 →
        LDS285OrientationLandscape.setScrollPosition k offset
          = [Call.writeCommand k.VERTICAL_SCROLLING_START_ADDRESS,
              Call.writeData (u8i (LDS285OrientationLandscape.pullIntoRange offset >>> (8 : Nat))),
              Call.writeData (u8i (andFF (LDS285OrientationLandscape.pullIntoRange offset)))] ∧
        ∀ c ∈ LDS285OrientationLandscape.setScrollPosition k offset, c.isDelay = false)) ∧
    ((T.normaliseScrollPosition (MC2PA8201OrientationPortrait.pullIntoRange T offset) = 0 →
        MC2PA8201OrientationPortrait.setScrollPosition km T offset
          = [Call.delay 0, Call.writeCommand km.VERTICAL_SCROLLING_START_ADDRESS,
              Call.writeData 0, Call.writeData 0]) ∧
      (T.normaliseScrollPosition (MC2PA8201OrientationPortrait.pullIntoRange T offset) ≠ 0 →
        MC2PA8201OrientationPortrait.setScrollPosition km T offset
          = [Call.writeCommand km.VERTICAL_SCROLLING_START_ADDRESS,
              Call.writeData (u8i (T.normaliseScrollPosition
                (MC2PA8201OrientationPortrait.pullIntoRange T offset) >>> (8 : Nat))),
              Call.writeData (u8i (andFF (T.normaliseScrollPosition
                (MC2PA8201OrientationPortrait.pullIntoRange T offset))))] ∧
        ∀ c ∈ MC2PA8201OrientationPortrait.setScrollPosition km T offset,
          c.isDelay = false)) := by
  have hz : u8i ((0 : Int) >>> (8 : Nat)) = 0 ∧ u8i (andFF 0) = 0 := by decide
  refine ⟨⟨?_, ?_⟩, ⟨?_, ?_⟩, ⟨?_, ?_⟩⟩
  · intro h
    simp only [LDS285OrientationPortrait.setScrollPosition, h, if_true, hz.1, hz.2]
    rfl
  · intro h
    have e : LDS285OrientationPortrait.setScrollPosition k offset
        = [Call.writeCommand k.VERTICAL_SCROLLING_START_ADDRESS,
            Call.writeData (u8i (LDS285OrientationPortrait.pullIntoRange offset >>> (8 : Nat))),
            Call.writeData (u8i (andFF (LDS285OrientationPortrait.pullIntoRange offset)))] := by
      simp only [LDS285OrientationPortrait.setScrollPosition, h, if_false]
      rfl
    refine ⟨e, ?_⟩
    rw [e]
    intro c hc
    simp only [List.mem_cons, List.mem_singleton, List.not_mem_nil, or_false] at hc
    rcases hc with hc | hc | hc <;> subst hc <;> rfl
  · intro h
    simp only [LDS285OrientationLandscape.setScrollPosition, h, if_true, hz.1, hz.2]
    rfl
  · intro h
    have e : LDS285OrientationLandscape.setScrollPosition k offset
        = [Call.writeCommand k.VERTICAL_SCROLLING_START_ADDRESS,
            Call.writeData (u8i (LDS285OrientationLandscape.pullIntoRange offset >>> (8 : Nat))),
            Call.writeData (u8i (andFF (LDS285OrientationLandscape.pullIntoRange offset)))] := by
      simp only [LDS285OrientationLandscape.setScrollPosition, h, if_false]
      rfl
    refine ⟨e, ?_⟩
    rw [e]
    intro c hc
    simp only [List.mem_cons, List.mem_singleton, List.not_mem_nil, or_false] at hc
    rcases hc with hc | hc | hc <;> subst hc <;> rfl
  · intro h
    simp only [MC2PA8201OrientationPortrait.setScrollPosition, hT, h, if_true, hz.1, hz.2]
    rfl
  · intro h
    have e : MC2PA8201OrientationPortrait.setScrollPosition km T offset
        = [Call.writeCommand km.VERTICAL_SCROLLING_START_ADDRESS,
            Call.writeData (u8i (T.normaliseScrollPosition
              (MC2PA8201OrientationPortrait.pullIntoRange T offset) >>> (8 : Nat))),
            Call.writeData (u8i (andFF (T.normaliseScrollPosition
              (MC2PA8201OrientationPortrait.pullIntoRange T offset))))] := by
      simp only [MC2PA8201OrientationPortrait.setScrollPosition, hT, h, if_true, if_false]
      rfl
    refine ⟨e, ?_⟩
    rw [e]
    intro c hc
    simp only [List.mem_cons, List.mem_singleton, List.not_mem_nil, or_false] at hc
    rcases hc with hc | hc | hc <;> subst hc <;> rfl

/-- Witness of C32: with the Nokia 6300 Type C traits the offset 0 is written as 0 after
a `delay(0)`, and the offset 100 is written as 220 with no delay. -/
theorem C32_zero_delay_before_scroll_write_witness :
    MC2PA8201OrientationPortrait.setScrollPosition sampleOpcodesMC
        (Nokia6300_TypeC sampleOpcodesMC 0x2A 0x2B) 0
      = [Call.delay 0, Call.writeCommand 0x37, Call.writeData 0, Call.writeData 0] ∧
    MC2PA8201OrientationPortrait.setScrollPosition sampleOpcodesMC
        (Nokia6300_TypeC sampleOpcodesMC 0x2A 0x2B) 100
      = [Call.writeCommand 0x37, Call.writeData 0, Call.writeData 220] :=
  ⟨(C32_zero_delay_before_scroll_write sampleOpcodes sampleOpcodesMC
      (Nokia6300_TypeC sampleOpcodesMC 0x2A 0x2B) 0 rfl).2.2.1 (by decide),
    ((C32_zero_delay_before_scroll_write sampleOpcodes sampleOpcodesMC
      (Nokia6300_TypeC sampleOpcodesMC 0x2A 0x2B) 100 rfl).2.2.2 (by decide)).1⟩

/-- Claim C33 at its failing input: a pin mapping with `/WR` on pin 3 of port `0x05`
and `RS` on pin 0 of port `0x08`.  The last two operations of `writeData` and of
`writeCommand` clear and set pin 0, the `RS` pin number, of the `/WR` port; pin 3, the
`/WR` pin, is not touched, so neither call makes a write transaction, whereas the pair
of `writeStreamedData` calls, which strobes `PIN_WR`, makes one. -/
theorem C33_strobe_pin_at_failing_input :
    Gpio16AccessMode.writeData sampleCustomMapping 0x12 0x34
      = [PinOp.sbi 0x14 2, PinOp.out 0x02 0x12, PinOp.sbi 0x08 0, PinOp.cbi 0x14 2,
          PinOp.out 0x02 0x34, PinOp.cbi 0x05 0, PinOp.sbi 0x05 0] ∧
    Gpio16AccessMode.writeCommand sampleCustomMapping 0x12 0x34
      = [PinOp.sbi 0x14 2, PinOp.out 0x02 0x12, PinOp.cbi 0x08 0, PinOp.cbi 0x14 2,
          PinOp.out 0x02 0x34, PinOp.cbi 0x05 0, PinOp.sbi 0x05 0] ∧
    PinOp.cbi sampleCustomMapping.PORT_WR sampleCustomMapping.PIN_WR
      ∉ Gpio16AccessMode.writeData sampleCustomMapping 0x12 0x34 ∧
    PinOp.cbi sampleCustomMapping.PORT_WR sampleCustomMapping.PIN_WR
      ∉ Gpio16AccessMode.writeCommand sampleCustomMapping 0x12 0x34 ∧
    busWrites sampleCustomMapping ⟨sampleAvr, 0⟩
        (Gpio16AccessMode.writeData sampleCustomMapping 0x12 0x34) = [] ∧
    busWrites sampleCustomMapping ⟨sampleAvr, 0⟩
        (Gpio16AccessMode.writeCommand sampleCustomMapping 0x12 0x34) = [] ∧
    busWrites sampleCustomMapping ⟨sampleAvr, 0⟩
        ((Gpio16AccessMode.writeStreamedData sampleCustomMapping 0 0x12).1 ++
          (Gpio16AccessMode.writeStreamedData sampleCustomMapping 1 0x34).1)
      = [⟨true, 0x12, 0x34, true⟩] := by
  have e1 : u8 18 = 18 := rfl
  have e2 : u8 52 = 52 := rfl
  refine ⟨rfl, rfl, by decide, by decide, ?_, ?_, ?_⟩ <;>
    simp [-Nat.testBit_zero, Gpio16AccessMode.writeData, Gpio16AccessMode.writeCommand,
      Gpio16AccessMode.writeStreamedData, sampleCustomMapping, sampleAvr, busWrites,
      Probe.step, Avr.exec, Function.update, testBit_setBit, testBit_clearBit, e1, e2]

/-- With the default pin mapping the first half of a streamed write makes no `/WR`
pulse. -/
theorem streamed_first_no_pulse (p : Probe) (data : Nat) :
    busWrites Gpio16AccessModeXmemMapping p
      (Gpio16AccessMode.writeStreamedData Gpio16AccessModeXmemMapping 0 data).1 = [] := by
  simp [-Nat.testBit_zero, Gpio16AccessMode.writeStreamedData, Gpio16AccessModeXmemMapping,
    busWrites, Probe.step, Avr.exec, Function.update, testBit_setBit, testBit_clearBit]

/-- With the default pin mapping the second half of a streamed write makes one `/WR`
pulse. -/
theorem streamed_second_one_pulse (p : Probe) (data : Nat) :
    (busWrites Gpio16AccessModeXmemMapping p
      (Gpio16AccessMode.writeStreamedData Gpio16AccessModeXmemMapping 1 data).1).length = 1 := by
  simp [-Nat.testBit_zero, Gpio16AccessMode.writeStreamedData, Gpio16AccessModeXmemMapping,
    busWrites, Probe.step, Avr.exec, Function.update, testBit_setBit, testBit_clearBit]

/-- The phase after a session that starts in phase `0` or `1`: every `writeStreamedData`
call flips it and no other call changes it. -/
theorem session_phase (M : PinMappings) (calls : List Gpio16Call) :
    ∀ st : Gpio16State, st._streamIndex < 2 →
      (Gpio16AccessMode.session M st calls).2._streamIndex
        = (st._streamIndex + streamedCalls calls) % 2 := by
  induction calls with
  | nil =>
    intro st h
    simp only [Gpio16AccessMode.session, streamedCalls]
    omega
  | cons c cs ih =>
    intro st h
    have hflip : u8 (st._streamIndex ^^^ 1) = (st._streamIndex + 1) % 2 := by
      have : st._streamIndex = 0 ∨ st._streamIndex = 1 := by omega
      rcases this with e | e <;> rw [e] <;> rfl
    cases c with
    | writeStreamedData data =>
      simp only [Gpio16AccessMode.session, Gpio16AccessMode.perform,
        Gpio16AccessMode.writeStreamedData, streamedCalls, Gpio16Call.isStreamed, if_true]
      rw [ih _ (by simp only; rw [hflip]; omega)]
      simp only [hflip]
      omega
    | _ =>
      simp only [Gpio16AccessMode.session, Gpio16AccessMode.perform, streamedCalls,
        Gpio16Call.isStreamed, Bool.false_eq_true, if_false]
      rw [ih _ (by simpa using h)]
      simp only [Nat.zero_add]

/-- The `/WR` pulses of the streamed calls of a session with the default pin mapping:
one for every second `writeStreamedData` call. -/
theorem session_pulses (calls : List Gpio16Call) :
    ∀ st : Gpio16State, st._streamIndex < 2 →
      streamedPulses (Gpio16AccessMode.session Gpio16AccessModeXmemMapping st calls).1
        = (st._streamIndex + streamedCalls calls) / 2 := by
  induction calls with
  | nil =>
    intro st h
    simp only [Gpio16AccessMode.session, streamedCalls, streamedPulses]
    omega
  | cons c cs ih =>
    intro st h
    cases c with
    | writeStreamedData data =>
      have hcases : st._streamIndex = 0 ∨ st._streamIndex = 1 := by omega
      rcases hcases with e | e
      · simp only [Gpio16AccessMode.session, Gpio16AccessMode.perform, streamedCalls,
          streamedPulses, Gpio16Call.isStreamed, if_true, e, streamed_first_no_pulse]
        rw [ih _ (show (1 : Nat) < 2 by decide)]
        have e1 : (Gpio16AccessMode.writeStreamedData Gpio16AccessModeXmemMapping 0 data).2
            = 1 := rfl
        simp only [e1, List.length_nil]
        omega
      · simp only [Gpio16AccessMode.session, Gpio16AccessMode.perform, streamedCalls,
          streamedPulses, Gpio16Call.isStreamed, if_true, e, streamed_second_one_pulse]
        rw [ih _ (show (0 : Nat) < 2 by decide)]
        have e1 : (Gpio16AccessMode.writeStreamedData Gpio16AccessModeXmemMapping 1 data).2
            = 0 := rfl
        simp only [e1]
        omega
    | _ =>
      simp only [Gpio16AccessMode.session, Gpio16AccessMode.perform, streamedCalls,
        streamedPulses, Gpio16Call.isStreamed, Bool.false_eq_true, if_false]
      rw [ih _ (by simpa using h)]
      simp only [Nat.zero_add]

/-- Claim C34: the stream phase is a two-state machine changed only by
`writeStreamedData`.  Starting from 'expecting first byte', after any sequence of calls
of the access mode containing `n` calls of `writeStreamedData` the phase is `n mod 2`,
with any pin mapping, and with the default pin mapping those calls have issued exactly
`floor(n/2)` pulses of `/WR`.  No other call resets the phase: after one streamed byte
followed by `writeCommand`, `writeData`, `writeMultiData`, `initialise` and `hardReset`
the phase is still 'expecting second byte'. -/
theorem C34_stream_phase (M : PinMappings) (p : Probe) (calls : List Gpio16Call)
    (data lo8 hi8 howMuch : Nat) :
    (Gpio16AccessMode.session M ⟨p, 0⟩ calls).2._streamIndex = streamedCalls calls % 2 ∧
    streamedPulses (Gpio16AccessMode.session Gpio16AccessModeXmemMapping ⟨p, 0⟩ calls).1
      = streamedCalls calls / 2 ∧
    (Gpio16AccessMode.session M ⟨p, 0⟩
        [Gpio16Call.writeStreamedData data, Gpio16Call.writeCommand lo8 hi8,
          Gpio16Call.writeData lo8 hi8, Gpio16Call.writeMultiData howMuch lo8 hi8,
          Gpio16Call.initialise, Gpio16Call.hardReset]).2._streamIndex = 1 := by
  refine ⟨?_, ?_, ?_⟩
  · rw [session_phase M calls ⟨p, 0⟩ (show (0 : Nat) < 2 by decide)]
    simp only [Nat.zero_add]
  · rw [session_pulses calls ⟨p, 0⟩ (show (0 : Nat) < 2 by decide)]
    simp only [Nat.zero_add]
  · rw [session_phase M _ ⟨p, 0⟩ (show (0 : Nat) < 2 by decide)]
    rfl

/-- The brightness byte of a percentage up to 255: the 16-bit product does not overflow. -/
theorem setPercentage_eq (k : lds285.Opcodes) (b : LDS285Backlight) (p : Nat) (hp : p < 256) :
    LDS285Backlight.setPercentage k b p
      = ([Call.writeCommand k.WRITE_DISPLAY_BRIGHTNESS, Call.writeData (u8 (255 * p / 100))],
          ⟨p⟩) := by
  have h : 255 * p % 65536 = 255 * p := Nat.mod_eq_of_lt (by omega)
  simp only [LDS285Backlight.setPercentage, h]

theorem range_succ_flatMap {α : Type} (f : Nat → List α) (d : Nat) :
    (List.range (d + 1)).flatMap f = f 0 ++ (List.range d).flatMap (fun j => f (j + 1)) := by
  rw [List.range_succ_eq_map, List.flatMap_cons, List.flatMap_map]

/-- The loop of `fadeTo` going up from `c` to `t = c + d`: `d` steps, to the percentages
`c + 1, ..., t`. -/
theorem fadeLoop_up (k : lds285.Opcodes) (t ms : Nat) (ht : t < 256) :
    ∀ (d c fuel : Nat), c + d = t → d + 1 ≤ fuel →
      LDS285Backlight.fadeLoop k t 1 ms fuel ⟨c⟩
        = some ((List.range d).flatMap (fun j =>
            (LDS285Backlight.setPercentage k ⟨0⟩ (c + (j + 1))).1 ++ [Call.delay ms]), ⟨t⟩) := by
  intro d
  induction d with
  | zero =>
    intro c fuel hc hf
    obtain ⟨f, rfl⟩ : ∃ f, fuel = f + 1 := ⟨fuel - 1, by omega⟩
    have e : t = c := by omega
    subst e
    simp [LDS285Backlight.fadeLoop]
  | succ d ih =>
    intro c fuel hc hf
    obtain ⟨f, rfl⟩ : ∃ f, fuel = f + 1 := ⟨fuel - 1, by omega⟩
    have hne : t ≠ c := by omega
    have hu : u8i ((c : Int) + 1) = c + 1 := by
      unfold u8i
      omega
    rw [range_succ_flatMap]
    simp only [LDS285Backlight.fadeLoop, hne, ne_eq, not_false_eq_true, if_true, hu]
    have hs : (LDS285Backlight.setPercentage k ⟨c⟩ (c + 1)).2 = ⟨c + 1⟩ := rfl
    rw [hs, ih (c + 1) f (by omega) (by omega)]
    simp only [Option.map_some', Nat.zero_add]
    have e : ∀ j, c + 1 + (j + 1) = c + (j + 1 + 1) := fun j => by omega
    simp only [e]
    rfl

/-- The loop of `fadeTo` going down from `c = t + d` to `t`: `d` steps, to the
percentages `c - 1, ..., t`. -/
theorem fadeLoop_down (k : lds285.Opcodes) (t ms : Nat) :
    ∀ (d c fuel : Nat), c = t + d → c < 256 → d + 1 ≤ fuel →
      LDS285Backlight.fadeLoop k t (-1) ms fuel ⟨c⟩
        = some ((List.range d).flatMap (fun j =>
            (LDS285Backlight.setPercentage k ⟨0⟩ (c - (j + 1))).1 ++ [Call.delay ms]), ⟨t⟩) := by
  intro d
  induction d with
  | zero =>
    intro c fuel hc _ hf
    obtain ⟨f, rfl⟩ : ∃ f, fuel = f + 1 := ⟨fuel - 1, by omega⟩
    have e : t = c := by omega
    subst e
    simp [LDS285Backlight.fadeLoop]
  | succ d ih =>
    intro c fuel hc hc256 hf
    obtain ⟨f, rfl⟩ : ∃ f, fuel = f + 1 := ⟨fuel - 1, by omega⟩
    have hne : t ≠ c := by omega
    have hu : u8i ((c : Int) + -1) = c - 1 := by
      unfold u8i
      omega
    rw [range_succ_flatMap]
    simp only [LDS285Backlight.fadeLoop, hne, ne_eq, not_false_eq_true, if_true, hu]
    have hs : (LDS285Backlight.setPercentage k ⟨c⟩ (c - 1)).2 = ⟨c - 1⟩ := rfl
    rw [hs, ih (c - 1) f (by omega) (by omega) (by omega)]
    simp only [Option.map_some', Nat.zero_add]
    have e : ∀ j, c - 1 - (j + 1) = c - (j + 1 + 1) := fun j => by omega
    simp only [e]
    rfl

theorem range_flatMap_length {α : Type} (f : Nat → List α) (n : Nat)
    (hf : ∀ j, (f j).length = n) (d : Nat) : ((List.range d).flatMap f).length = d * n := by
  induction d with
  | zero => simp
  | succ d ih =>
    rw [List.range_succ, List.flatMap_append, List.length_append, ih]
    simp [hf, Nat.succ_mul]

/-- Claim C35: for every current percentage `c` and target `t`, both 8-bit unsigned,
`fadeTo(t, ms)` terminates: from `|t - c| + 1` iterations of fuel on it returns.  It
makes exactly `|t - c|` calls of `setPercentage`, with the percentages
`c+1, c+2, ..., t` when `t > c` and `c-1, c-2, ..., t` when `t < c`, each followed by one
`delay(ms)`, so `3 |t - c|` calls in all; no percentage leaves the range between `c`
and `t`; the current percentage is `t` afterwards; and nothing is written when
`t = c`. -/
theorem C35_fadeTo_steps (k : lds285.Opcodes) (b : LDS285Backlight) (t : Nat)
    (msPerStep : Int) (fuel : Nat)
    (hc : b._currentPercentage < 256) (ht : t < 256)
    (hf : (t - b._currentPercentage) + (b._currentPercentage - t) + 1 ≤ fuel) :
    ∃ trace : List Call,
      LDS285Backlight.fadeTo k b t msPerStep fuel = some (trace, ⟨t⟩) ∧
      (b._currentPercentage ≤ t →
        trace = (List.range (t - b._currentPercentage)).flatMap (fun j =>
          (LDS285Backlight.setPercentage k ⟨0⟩ (b._currentPercentage + (j + 1))).1
            ++ [Call.delay (msPerStep % 4294967296).toNat])) ∧
      (t ≤ b._currentPercentage →
        trace = (List.range (b._currentPercentage - t)).flatMap (fun j =>
          (LDS285Backlight.setPercentage k ⟨0⟩ (b._currentPercentage - (j + 1))).1
            ++ [Call.delay (msPerStep % 4294967296).toNat])) ∧
      trace.length = 3 * ((t - b._currentPercentage) + (b._currentPercentage - t)) ∧
      (t = b._currentPercentage → trace = []) := by
  obtain ⟨c⟩ := b
  simp only at hc hf ⊢
  have hlen : ∀ (g : Nat → Nat) (d : Nat),
      ((List.range d).flatMap (fun j =>
        (LDS285Backlight.setPercentage k ⟨0⟩ (g j)).1
          ++ [Call.delay (msPerStep % 4294967296).toNat])).length = d * 3 :=
    fun g d => range_flatMap_length (fun j =>
      (LDS285Backlight.setPercentage k ⟨0⟩ (g j)).1
        ++ [Call.delay (msPerStep % 4294967296).toNat]) 3 (fun _ => rfl) d
  rcases Nat.lt_trichotomy t c with h | h | h
  · refine ⟨_, ?_, ?_, fun _ => rfl, ?_, ?_⟩
    · unfold LDS285Backlight.fadeTo
      have hne : t ≠ c := by omega
      have hgt : ¬ t > c := by omega
      simp only [hne, hgt, if_false]
      exact fadeLoop_down k t _ (c - t) c fuel (by omega) hc (by omega)
    · intro hle
      omega
    · rw [hlen (fun j => c - (j + 1))]
      omega
    · intro e
      omega
  · subst h
    refine ⟨[], ?_, ?_, ?_, ?_, fun _ => rfl⟩
    · simp [LDS285Backlight.fadeTo]
    · intro _
      simp
    · intro _
      simp
    · simp
  · refine ⟨_, ?_, fun _ => rfl, ?_, ?_, ?_⟩
    · unfold LDS285Backlight.fadeTo
      have hne : t ≠ c := by omega
      simp only [hne, h, gt_iff_lt, if_true, if_false]
      exact fadeLoop_up k t _ ht (t - c) c fuel (by omega) (by omega)
    · intro hle
      omega
    · rw [hlen (fun j => c + (j + 1))]
      omega
    · intro e
      omega

/-- Witness of C35: fading from 10 to 13 with 5 ms per step writes the brightness bytes
of 11, 12 and 13 percent, each followed by `delay(5)`. -/
theorem C35_fadeTo_steps_witness :
    (∃ trace : List Call,
      LDS285Backlight.fadeTo sampleOpcodes ⟨10⟩ 13 5 4 = some (trace, ⟨13⟩) ∧
      (10 ≤ 13 →
        trace = (List.range (13 - 10)).flatMap (fun j =>
          (LDS285Backlight.setPercentage sampleOpcodes ⟨0⟩ (10 + (j + 1))).1
            ++ [Call.delay ((5 : Int) % 4294967296).toNat])) ∧
      (13 ≤ 10 →
        trace = (List.range (10 - 13)).flatMap (fun j =>
          (LDS285Backlight.setPercentage sampleOpcodes ⟨0⟩ (10 - (j + 1))).1
            ++ [Call.delay ((5 : Int) % 4294967296).toNat])) ∧
      trace.length = 3 * ((13 - 10) + (10 - 13)) ∧
      (13 = 10 → trace = [])) ∧
    LDS285Backlight.fadeTo sampleOpcodes ⟨10⟩ 13 5 4
      = some ([Call.writeCommand 0x51, Call.writeData 28, Call.delay 5,
          Call.writeCommand 0x51, Call.writeData 30, Call.delay 5,
          Call.writeCommand 0x51, Call.writeData 33, Call.delay 5], ⟨13⟩) ∧
    LDS285Backlight.fadeTo sampleOpcodes ⟨2⟩ 0 5 3
      = some ([Call.writeCommand 0x51, Call.writeData 2, Call.delay 5,
          Call.writeCommand 0x51, Call.writeData 0, Call.delay 5], ⟨0⟩) :=
  ⟨C35_fadeTo_steps sampleOpcodes ⟨10⟩ 13 5 4 (by decide) (by decide) (by decide),
    by decide, by decide⟩

/-- Claim C36: for every percentage `p` in `0..100`, `setPercentage(p)` emits the
write-display-brightness command followed by the single data byte
`floor(255 * p / 100)`: the product stays below `2^16` and the quotient below `2^8`, so
nothing is lost to the 16-bit product or the 8-bit cast; the byte is 0 for `p = 0`, 255
for `p = 100` and non-decreasing in `p`; afterwards the current percentage is `p`. -/
theorem C36_setPercentage_byte (k : lds285.Opcodes) (b : LDS285Backlight) (p q : Nat)
    (hp : p ≤ 100) (hq : q ≤ p) :
    LDS285Backlight.setPercentage k b p
      = ([Call.writeCommand k.WRITE_DISPLAY_BRIGHTNESS, Call.writeData (255 * p / 100)], ⟨p⟩) ∧
    255 * p < 65536 ∧ 255 * p / 100 ≤ 255 ∧
    (LDS285Backlight.setPercentage k b 0).1
      = [Call.writeCommand k.WRITE_DISPLAY_BRIGHTNESS, Call.writeData 0] ∧
    (LDS285Backlight.setPercentage k b 100).1
      = [Call.writeCommand k.WRITE_DISPLAY_BRIGHTNESS, Call.writeData 255] ∧
    (∃ vq vp, (LDS285Backlight.setPercentage k b q).1
        = [Call.writeCommand k.WRITE_DISPLAY_BRIGHTNESS, Call.writeData vq] ∧
      (LDS285Backlight.setPercentage k b p).1
        = [Call.writeCommand k.WRITE_DISPLAY_BRIGHTNESS, Call.writeData vp] ∧ vq ≤ vp) := by
  have hb : ∀ r, r ≤ 100 → u8 (255 * r / 100) = 255 * r / 100 := by
    intro r hr
    unfold u8
    omega
  have hset : ∀ r, r ≤ 100 → LDS285Backlight.setPercentage k b r
      = ([Call.writeCommand k.WRITE_DISPLAY_BRIGHTNESS, Call.writeData (255 * r / 100)],
          ⟨r⟩) := by
    intro r hr
    rw [setPercentage_eq k b r (by omega), hb r hr]
  refine ⟨hset p hp, by omega, by omega, rfl, rfl, 255 * q / 100, 255 * p / 100, ?_, ?_, ?_⟩
  · rw [hset q (by omega)]
  · rw [hset p hp]
  · omega

/-- Witness of C36: 50 percent is written as the byte 127, above the byte 63 of 25
percent. -/
theorem C36_setPercentage_byte_witness :
    LDS285Backlight.setPercentage sampleOpcodes ⟨0⟩ 50
      = ([Call.writeCommand 0x51, Call.writeData 127], ⟨50⟩) :=
  (C36_setPercentage_byte sampleOpcodes ⟨0⟩ 50 25 (by decide) (by decide)).1

theorem two_pow_bits (bits : Nat) (hbits : 0 < bits) :
    (2 : Int) ^ bits = 2 * 2 ^ (bits - 1) := by
  obtain ⟨n, rfl⟩ : ∃ n, bits = n + 1 := ⟨bits - 1, by omega⟩
  rw [Nat.add_sub_cancel, pow_succ, mul_comm]

/-- A value of the range of the type is unchanged by the conversion. -/
theorem wrapSigned_of_range (bits : Nat) (v : Int) (hbits : 0 < bits)
    (hlo : -(2 : Int) ^ (bits - 1) ≤ v) (hhi : v < (2 : Int) ^ (bits - 1)) :
    wrapSigned bits v = v := by
  unfold wrapSigned
  rw [two_pow_bits bits hbits]
  generalize (2 : Int) ^ (bits - 1) = m at *
  rw [Int.emod_eq_of_lt (by omega) (by omega)]
  omega

/-- Counterexample to C37 as stated: for the minimum value of the 16-bit and of the
8-bit signed type, `Abs` returns the minimum itself, which is negative.  For the 8-bit
type the negation `128` is computed in `int` without overflow and converted back to the
8-bit type; for the 16-bit type the negation does not fit the `int` of the AVR. -/
theorem C37_abs_counterexample :
    GraphicsLibrary.Abs 16 (-32768) = -32768 ∧ ¬ (0 ≤ GraphicsLibrary.Abs 16 (-32768)) ∧
    GraphicsLibrary.Abs 8 (-128) = -128 ∧ ¬ (0 ≤ GraphicsLibrary.Abs 8 (-128)) := by
  decide

/-- Claim C37, amended: for every value `a` of a signed integer type of `bits` bits
other than the minimum value `-2^(bits-1)` of the type, `Abs(a)` returns the value made
positive: the result is `>= 0`, equals `a` or `-a`, and is the absolute value of `a`. -/
theorem C37_abs_made_positive (bits : Nat) (a : Int) (hbits : 0 < bits)
    (hlo : -(2 : Int) ^ (bits - 1) < a) (hhi : a < (2 : Int) ^ (bits - 1)) :
    0 ≤ GraphicsLibrary.Abs bits a ∧
    (GraphicsLibrary.Abs bits a = a ∨ GraphicsLibrary.Abs bits a = -a) ∧
    GraphicsLibrary.Abs bits a = |a| := by
  unfold GraphicsLibrary.Abs
  by_cases h : a < 0
  · rw [if_pos h, wrapSigned_of_range bits (-a) hbits (by omega) (by omega),
      abs_of_neg h]
    exact ⟨by omega, Or.inr rfl, rfl⟩
  · rw [if_neg h, wrapSigned_of_range bits a hbits (by omega) hhi, abs_of_nonneg (by omega)]
    exact ⟨by omega, Or.inl rfl, rfl⟩

/-- Witness of C37: the 16-bit value `-5` is made positive, `5`. -/
theorem C37_abs_made_positive_witness :
    0 ≤ GraphicsLibrary.Abs 16 (-5) ∧
    (GraphicsLibrary.Abs 16 (-5) = -5 ∨ GraphicsLibrary.Abs 16 (-5) = -(-5)) ∧
    GraphicsLibrary.Abs 16 (-5) = |(-5 : Int)| :=
  C37_abs_made_positive 16 (-5) (by decide) (by decide) (by decide)

end lcd
